import Mathlib

/-! # UAV intrusion-detection dashboard: the analysis lifecycle

A shallow embedding of the server routes of the dashboard
(`src/app/api/analyses/route.js` and its siblings) together with the
properties of the analysis lifecycle: creation by `POST`, the staged progress
updates of `simulateAnalysisProcessing`, and the derived alert and drone-node
records.

Conventions of the embedding.

* Numbers are exact: every JavaScript number is a rational (`ℚ`) or, where the
  source applies `Math.floor`, an integer (`ℤ`).  Rounding of IEEE doubles is
  not modelled.
* `Math.random()` reads the next element of a stream of draws, each a rational
  in `[0, 1)`.
* The relational store is a record of tables (lists of rows).  A call of the
  `sql` helper either throws (decided by an oracle indexed by the ordinal of
  the call) and leaves the store untouched, or applies the statement and
  appends the write to a trace.
* An `async` function is a state transformer over the `World` that may end in
  a thrown error.
-/

namespace Uav

/-! ## Rows of the four tables -/

/-- One row of the `analyses` table, with the columns the list route selects. -/
structure Analysis where
  id : ℕ
  filename : String
  file_size : ℕ
  upload_timestamp : ℤ
  status : String
  progress : ℤ
  trust_score : Option ℚ
  attacks_detected : Option ℤ
  anomaly_score : Option ℚ
  total_packets : Option ℤ
  total_nodes : Option ℤ
  analysis_duration : Option ℤ
  completed_at : Option ℤ
  deriving DecidableEq

/-- The columns named by the `RETURNING` clause of the insert in `POST`. -/
structure AnalysisCreated where
  id : ℕ
  filename : String
  file_size : ℕ
  upload_timestamp : ℤ
  status : String
  progress : ℤ
  deriving DecidableEq

/-- One row of the `alerts` table: the eight columns the generator inserts, and
the column `timestamp_detected` that the detail and dashboard queries read.  A
cell is `none` when the JavaScript value bound to it is `undefined`.  The
insert of the generator does not name `timestamp_detected`: in the parameters
of an insert it is `none`, in a stored row it holds what the store filled in. -/
structure Alert where
  analysis_id : ℕ
  attack_type : Option String
  affected_node_id : String
  severity : Option String
  confidence : ℚ
  detection_method : Option String
  packet_timestamp : ℤ
  description : String
  timestamp_detected : Option ℤ := none
  deriving DecidableEq

/-- One row of the `drone_nodes` table, with the columns the generator inserts. -/
structure DroneNode where
  analysis_id : ℕ
  node_id : String
  trust_score : ℚ
  status : String
  x_position : ℚ
  y_position : ℚ
  z_position : ℚ
  packets_sent : ℤ
  packets_received : ℤ
  packets_dropped : ℤ
  last_seen : ℤ
  deriving DecidableEq

/-- One row of the `network_metrics` table, with the columns the result view
plots.  No statement of the sources writes this table. -/
structure Metric where
  analysis_id : ℕ
  timestamp_recorded : ℤ
  packet_rate : ℚ
  drop_ratio : ℚ
  average_delay : ℚ
  deriving DecidableEq

/-! ## The store and its statements -/

/-- The relational store: its four tables, the serial counter that numbers new
analyses, and the default of the column `alerts.timestamp_detected`.  The table
definitions are not part of the sources, so that default is a parameter: it
gives the value of the column for a row inserted at the given store time by an
insert that does not name the column. -/
structure Store where
  analyses : List Analysis
  alerts : List Alert
  drone_nodes : List DroneNode
  nextId : ℕ
  network_metrics : List Metric
  detectedDefault : ℤ → Option ℤ

/-- The writing statements issued by `src/app/api/analyses/route.js`, each with
its positional parameters. -/
inductive Stmt where
  /-- The insert of `POST`: `INSERT INTO analyses (filename, file_size, status, progress)
  VALUES ($1, $2, $3, $4) RETURNING ...`. -/
  | insertAnalysis (filename : String) (file_size : ℕ) (status : String) (progress : ℤ)
  /-- The progress update: `UPDATE analyses SET progress = $1 WHERE id = $2`. -/
  | updateProgress (progress : ℤ) (id : ℕ)
  /-- The final update: `UPDATE analyses SET progress = $1, status = $2, trust_score = $3,
  ..., completed_at = CURRENT_TIMESTAMP WHERE id = $9`. -/
  | updateCompleted (progress : ℤ) (status : String) (trust_score : ℚ)
      (attacks_detected : ℤ) (anomaly_score : ℚ) (total_packets : ℤ) (total_nodes : ℤ)
      (analysis_duration : ℤ) (id : ℕ)
  /-- The alert insert: `INSERT INTO alerts (...) VALUES ($1, ..., $8)`. -/
  | insertAlert (row : Alert)
  /-- The node insert: `INSERT INTO drone_nodes (...) VALUES ($1, ..., $11)`. -/
  | insertDroneNode (row : DroneNode)
  deriving DecidableEq

/-- Rows handed back by a statement. -/
inductive SqlRow where
  | created (row : AnalysisCreated)
  deriving DecidableEq

/-- Modelled from the spec: the table definition of `analyses` is not part of
the sources.  A new row receives the next serial identifier and the store's
current time as upload time; the summary columns and `completed_at`, which the
insert does not name, are null ("summary fields are absent/null while status is
`processing`"). -/
def Store.newAnalysis (s : Store) (now : ℤ) (filename : String) (file_size : ℕ)
    (status : String) (progress : ℤ) : Analysis :=
  { id := s.nextId, filename := filename, file_size := file_size, upload_timestamp := now,
    status := status, progress := progress, trust_score := none, attacks_detected := none,
    anomaly_score := none, total_packets := none, total_nodes := none,
    analysis_duration := none, completed_at := none }

/-- The `RETURNING id, filename, file_size, upload_timestamp, status, progress`
projection of a row. -/
def Analysis.returning (a : Analysis) : AnalysisCreated :=
  { id := a.id, filename := a.filename, file_size := a.file_size,
    upload_timestamp := a.upload_timestamp, status := a.status, progress := a.progress }

/-- Effect of one statement on the store at store time `now`, with the rows it
returns. -/
def Store.exec (s : Store) (now : ℤ) : Stmt → Store × List SqlRow
  | .insertAnalysis filename file_size status progress =>
      let row := s.newAnalysis now filename file_size status progress
      ({ s with analyses := s.analyses ++ [row], nextId := s.nextId + 1 },
        [.created row.returning])
  | .updateProgress progress id =>
      ({ s with analyses := s.analyses.map fun a =>
          if a.id = id then { a with progress := progress } else a }, [])
  | .updateCompleted progress status trust attacks anomaly packets nodes duration id =>
      ({ s with analyses := s.analyses.map fun a =>
          if a.id = id then
            { a with progress := progress, status := status, trust_score := some trust,
                     attacks_detected := some attacks, anomaly_score := some anomaly,
                     total_packets := some packets, total_nodes := some nodes,
                     analysis_duration := some duration, completed_at := some now }
          else a }, [])
  | .insertAlert row =>
      ({ s with alerts := s.alerts ++
          [{ row with timestamp_detected :=
              match row.timestamp_detected with
              | some detected => some detected
              | none => s.detectedDefault now }] },
        [])
  | .insertDroneNode row => ({ s with drone_nodes := s.drone_nodes ++ [row] }, [])

/-! ## The world an `async` function runs in -/

/-- A result of `Math.random()`: a rational in `[0, 1)`. -/
structure Draw where
  val : ℚ
  nonneg : 0 ≤ val
  lt_one : val < 1

/-- One applied write: the statement, the store it found and the store it left. -/
structure Write where
  stmt : Stmt
  before : Store
  after : Store

/-- Everything an `async` function of the route can read or change. -/
structure World where
  /-- The relational store. -/
  store : Store
  /-- The stream read by `Math.random()`, and below it the position of the next draw. -/
  rand : ℕ → Draw
  randPos : ℕ
  /-- Whether the call of `sql` with the given ordinal throws, and below it the
  ordinal of the next call. -/
  failAt : ℕ → Bool
  calls : ℕ
  /-- The clock, in milliseconds. -/
  now : ℤ
  /-- The writes applied so far, oldest first. -/
  trace : List Write
  /-- The analysis identifiers for which a background sequence was started. -/
  started : List ℕ

/-- What a rejected promise carries. -/
inductive JsError where
  /-- The store call with this ordinal failed. -/
  | store (call : ℕ)
  /-- A property of `undefined` was read. -/
  | typeError
  deriving DecidableEq

/-- An `async` function body: it ends with a value or a thrown error, and with
the world it leaves behind either way. -/
def Async (α : Type) : Type := World → Except JsError α × World

/-- Run an `async` body in a world. -/
def Async.run {α : Type} (m : Async α) (w : World) : Except JsError α × World := m w

instance : Monad Async where
  pure a := fun w => (.ok a, w)
  bind m f := fun w =>
    match m w with
    | (.ok a, w') => f a w'
    | (.error e, w') => (.error e, w')

/-- The statement `throw e`. -/
def throwJs {α : Type} (e : JsError) : Async α := fun w => (.error e, w)

/-- The construct `try { m } catch (error) { h error }`. -/
def tryCatch {α : Type} (m : Async α) (h : JsError → Async α) : Async α := fun w =>
  match m w with
  | (.ok a, w') => (.ok a, w')
  | (.error e, w') => h e w'

/-- The library call `Math.random()`. -/
def mathRandom : Async Draw := fun w =>
  (.ok (w.rand w.randPos), { w with randPos := w.randPos + 1 })

/-- The library call `Date.now()`. -/
def dateNow : Async ℤ := fun w => (.ok w.now, w)

/-- The suspension `await new Promise(resolve => setTimeout(resolve, ms))`. -/
def sleep (ms : ℕ) : Async Unit := fun w => (.ok (), { w with now := w.now + ms })

/-- Modelled from the spec: the helper `utils/sql.js` is not part of the sources.
The call `await sql(query, params)` of a writing statement either throws, when
the oracle says so, and leaves the store as it was ("transactional per
statement"), or applies the statement, records the write and returns the rows. -/
def sql (stmt : Stmt) : Async (List SqlRow) := fun w =>
  if w.failAt w.calls then
    (.error (.store w.calls), { w with calls := w.calls + 1 })
  else
    let r := w.store.exec w.now stmt
    (.ok r.2, { w with store := r.1, calls := w.calls + 1,
                       trace := w.trace ++ [⟨stmt, w.store, r.1⟩] })

/-- A counting loop `for (let i = start; ...; i++) { await body(i) }` that runs
its body for `count` consecutive values of `i` starting at `start`; a throw of
the body leaves the loop.  The loop `for (let i = 0; i < n; i++)` is
`forLoop body 0 n.toNat` and the loop `for (let i = 1; i <= n; i++)` is
`forLoop body 1 n.toNat`, for an integer `n`. -/
def forLoop (body : ℕ → Async Unit) : ℕ → ℕ → Async Unit
  | _, 0 => pure ()
  | i, count + 1 => do
      body i
      forLoop body (i + 1) count

/-! ## JavaScript library functions used by the route -/

/-- The library call `Math.floor(x)`. -/
def mathFloor (x : ℚ) : ℤ := ⌊x⌋

/-- The conversion `String(i)` of an integer: its decimal numeral. -/
def numberToString (i : ℤ) : String := i.repr

/-- The method `s.padStart(targetLength, padString)`: when `s` is shorter than
`targetLength`, the pad string is repeated and cut to the missing length and
put in front of `s`. -/
def padStart (s : String) (targetLength : ℕ) (padString : String) : String :=
  let fillLen := targetLength - s.length
  String.mk (((List.replicate fillLen padString.data).flatten).take fillLen) ++ s

/-- The method `s.endsWith(suffix)`. -/
def endsWith (s suffix : String) : Bool := suffix.data.isSuffixOf s.data

/-- The array read `xs[i]`, which is `undefined` outside the bounds. -/
def arrayGet (xs : List String) (i : ℤ) : Option String :=
  if 0 ≤ i then xs[i.toNat]? else none

/-- A possibly `undefined` string inside a template literal. -/
def templateString : Option String → String
  | some s => s
  | none => "undefined"

/-- The constructor `new Date(t)` of a time value: the fraction of a
millisecond is cut off. -/
def newDate (t : ℚ) : ℤ := if 0 ≤ t then ⌊t⌋ else ⌈t⌉

/-! ## `src/app/api/analyses/route.js` -/

/-- The identifier built by the template literal
`UAV_` followed by `String(n).padStart(2, '0')`. -/
def uavNodeId (n : ℤ) : String := "UAV_" ++ padStart (numberToString n) 2 "0"

/-- The body of `generateSampleAlerts`. -/
def generateSampleAlerts (analysisId : ℕ) (numAlerts totalNodes : ℤ) : Async Unit :=
  let attackTypes := ["Blackhole", "Wormhole", "Sybil", "Flooding", "Jamming"]
  let severities := ["low", "medium", "high", "critical"]
  let detectionMethods := ["rule-based", "ml-isolation-forest", "ml-lstm"]
  forLoop (fun _ => do
    let attackType := arrayGet attackTypes (mathFloor ((← mathRandom).val * attackTypes.length))
    let severity := arrayGet severities (mathFloor ((← mathRandom).val * severities.length))
    let detectionMethod :=
      arrayGet detectionMethods (mathFloor ((← mathRandom).val * detectionMethods.length))
    let nodeId := uavNodeId (mathFloor ((← mathRandom).val * totalNodes) + 1)
    let confidence := 0.6 + (← mathRandom).val * 0.4
    let packetTimestamp := newDate ((← dateNow) - (← mathRandom).val * 3600000)
    let _ ← sql (.insertAlert
      { analysis_id := analysisId, attack_type := attackType, affected_node_id := nodeId,
        severity := severity, confidence := confidence, detection_method := detectionMethod,
        packet_timestamp := packetTimestamp,
        description := templateString attackType ++ " attack detected on node " ++ nodeId
          ++ " via " ++ templateString detectionMethod })
    pure ()) 0 numAlerts.toNat

/-- The status expression of `generateSampleDroneNodes`:
`trustScore > 0.8 ? 'trusted' : trustScore > 0.5 ? 'suspicious' : 'malicious'`. -/
def droneStatus (trustScore : ℚ) : String :=
  if trustScore > 0.8 then "trusted" else if trustScore > 0.5 then "suspicious" else "malicious"

/-- The body of `generateSampleDroneNodes`. -/
def generateSampleDroneNodes (analysisId : ℕ) (totalNodes : ℤ) : Async Unit :=
  forLoop (fun i => do
    let nodeId := uavNodeId i
    let trustScore := 0.6 + (← mathRandom).val * 0.4
    let status := droneStatus trustScore
    let x := (← mathRandom).val * 300
    let y := (← mathRandom).val * 300
    let z := 30 + (← mathRandom).val * 50
    let packetsSent := mathFloor ((← mathRandom).val * 2000)
    let packetsReceived := mathFloor (packetsSent * (0.8 + (← mathRandom).val * 0.2))
    let packetsDropped := mathFloor (packetsSent * (← mathRandom).val * 0.1)
    let lastSeen ← dateNow
    let _ ← sql (.insertDroneNode
      { analysis_id := analysisId, node_id := nodeId, trust_score := trustScore,
        status := status, x_position := x, y_position := y, z_position := z,
        packets_sent := packetsSent, packets_received := packetsReceived,
        packets_dropped := packetsDropped, last_seen := lastSeen })
    pure ()) 1 totalNodes.toNat

/-- One entry of the `steps` array. -/
structure Step where
  progress : ℤ
  description : String

/-- The `steps` array of `simulateAnalysisProcessing`. -/
def steps : List Step :=
  [ { progress := 20, description := "Parsing network packets..." },
    { progress := 40, description := "Extracting features..." },
    { progress := 60, description := "Running rule-based detection..." },
    { progress := 80, description := "Applying ML anomaly detection..." },
    { progress := 90, description := "Generating trust scores..." },
    { progress := 100, description := "Analysis complete" } ]

/-- The body of the loop of `simulateAnalysisProcessing` for index `i`. -/
def simulateStep (analysisId : ℕ) (i : ℕ) : Async Unit := do
  sleep 2000
  if i = steps.length - 1 then
    let trustScore := 0.65 + (← mathRandom).val * 0.3
    let attacksDetected := mathFloor ((← mathRandom).val * 6)
    let anomalyScore := (← mathRandom).val * 0.5
    let totalPackets := 5000 + mathFloor ((← mathRandom).val * 15000)
    let totalNodes := 8 + mathFloor ((← mathRandom).val * 12)
    let analysisDuration := 25 + mathFloor ((← mathRandom).val * 40)
    let _ ← sql (.updateCompleted 100 "completed" trustScore attacksDetected anomalyScore
      totalPackets totalNodes analysisDuration analysisId)
    if attacksDetected > 0 then
      generateSampleAlerts analysisId attacksDetected totalNodes
    generateSampleDroneNodes analysisId totalNodes
  else
    match steps[i]? with
    | some step =>
        let _ ← sql (.updateProgress step.progress analysisId)
        pure ()
    | none => throwJs .typeError

/-- The body of `simulateAnalysisProcessing`. -/
def simulateAnalysisProcessing (analysisId : ℕ) : Async Unit :=
  forLoop (simulateStep analysisId) 0 steps.length

/-- A value stored in a form under a name: an uploaded file or a plain string. -/
inductive FormEntry where
  | file (name : String) (size : ℕ)
  | text (value : String)
  deriving DecidableEq

/-- An incoming request: its body read as form data, or `none` when the body
cannot be read as form data. -/
structure Request where
  form : Option (List (String × FormEntry))

/-- A row handed back by a `SELECT *`. -/
inductive Row where
  | analysis (row : Analysis)
  | alert (row : Alert)
  | droneNode (row : DroneNode)
  | metric (row : Metric)
  deriving DecidableEq

/-- A row of a `SELECT COUNT(*) as count`; the count is the number that the
returned numeral spells. -/
structure CountRow where
  count : ℕ
  deriving DecidableEq

/-- The row of `SELECT AVG(trust_score) as avg_score`; the cell is `none` for
`null`, the average of no row. -/
structure AvgRow where
  avg_score : Option ℚ
  deriving DecidableEq

/-- The row of `SELECT AVG(trust_score) as health_score`. -/
structure HealthRow where
  health_score : Option ℚ
  deriving DecidableEq

/-- A row of the recent-threat query of the dashboard: four columns of an alert
and the file name of its analysis. -/
structure ThreatRow where
  attack_type : Option String
  affected_node_id : String
  severity : Option String
  timestamp_detected : Option ℤ
  filename : String
  deriving DecidableEq

/-- A row of the threat-distribution query of the dashboard. -/
structure TypeCount where
  attack_type : Option String
  count : ℕ
  deriving DecidableEq

/-- The `stats` member of the dashboard document. -/
structure Stats where
  totalAnalyses : ℤ
  activeThreats : ℤ
  averageTrustScore : ℚ
  networkHealth : String
  healthScore : ℚ
  deriving DecidableEq

/-- The JSON document of a response of the routes. -/
inductive Body where
  /-- The document `{ success: false, error }`. -/
  | failure (error : String)
  /-- The document `{ success: true, analysis }` of `POST`. -/
  | created (analysis : AnalysisCreated)
  /-- The document `{ success: true, analysis, alerts, droneNodes, metrics }` of the
  detail route; `analysis` is `none` when the JavaScript value is `undefined`. -/
  | detail (analysis : Option Row) (alerts droneNodes metrics : List Row)
  /-- The document `{ success: true, analyses }` of the list route. -/
  | list (analyses : List Row)
  /-- The document `{ success: true, stats, recentThreats, threatDistribution }` of
  the dashboard route. -/
  | stats (stats : Stats) (recentThreats : List ThreatRow)
      (threatDistribution : List TypeCount)
  deriving DecidableEq

/-- The `success` member of a response document. -/
def Body.success : Body → Bool
  | .failure _ => false
  | .created _ => true
  | .detail _ _ _ _ => true
  | .list _ => true
  | .stats _ _ _ => true

/-- The `error` member of a response document, when it has one. -/
def Body.error : Body → Option String
  | .failure error => some error
  | _ => none

/-- The value of `Response.json(body, { status })`; the status is 200 when none is given. -/
structure Response where
  status : ℕ
  body : Body
  deriving DecidableEq

/-- The call `await request.formData()`, which throws on an unreadable body. -/
def Request.formData (request : Request) : Async (List (String × FormEntry)) :=
  match request.form with
  | some form => pure form
  | none => throwJs .typeError

/-- The call `formData.get(name)`: the first entry of that name, or `null`. -/
def formGet (form : List (String × FormEntry)) (name : String) : Option FormEntry :=
  form.lookup name

/-- The test `!file` on the value of `formData.get('file')`: true for `null` and
for the empty string. -/
def isFalsy : Option FormEntry → Bool
  | none => true
  | some (.text value) => value.isEmpty
  | some (.file _ _) => false

/-- The call `simulateAnalysisProcessing(analysisId)` without `await`: the
sequence is started and runs after the handler has answered. -/
def startBackground (analysisId : ℕ) : Async Unit := fun w =>
  (.ok (), { w with started := w.started ++ [analysisId] })

/-- The handler `POST` of `src/app/api/analyses/route.js`. -/
def POST (request : Request) : Async Response :=
  tryCatch (do
    let formData ← request.formData
    let file := formGet formData "file"
    if isFalsy file then
      return { status := 400, body := .failure "No file provided" }
    match file with
    | some (.file name size) =>
        if !endsWith name ".pcap" then
          return { status := 400, body := .failure "Only .pcap files are supported" }
        let result ← sql (.insertAnalysis name size "processing" 0)
        match result with
        | .created row :: _ =>
            let analysisId := row.id
            startBackground analysisId
            return { status := 200, body := .created row }
        | [] => throwJs .typeError
    | _ => throwJs .typeError)
    (fun _ => pure { status := 500, body := .failure "Failed to create analysis" })

/-! ## `src/app/api/analyses/[id]/route.js` -/

/-- The reading statements of the detail route, each with its parameter. -/
inductive Query where
  /-- The query `SELECT * FROM analyses WHERE id = $1`. -/
  | analysisById (id : ℕ)
  /-- The query `SELECT * FROM alerts WHERE analysis_id = $1 ORDER BY timestamp_detected DESC`. -/
  | alertsOf (id : ℕ)
  /-- The query `SELECT * FROM drone_nodes WHERE analysis_id = $1 ORDER BY trust_score DESC`. -/
  | droneNodesOf (id : ℕ)
  /-- The query `SELECT * FROM network_metrics WHERE analysis_id = $1 ORDER BY
  timestamp_recorded ASC`. -/
  | metricsOf (id : ℕ)
  deriving DecidableEq

/-- Descending order of a nullable timestamp, nulls first. -/
def detectedBefore (a b : Alert) : Prop :=
  match a.timestamp_detected, b.timestamp_detected with
  | none, _ => True
  | some _, none => False
  | some x, some y => y ≤ x

instance : DecidableRel detectedBefore := fun a b => by
  unfold detectedBefore
  split <;> infer_instance

/-- The rows a reading statement returns.  Rows that the `ORDER BY` column does
not tell apart come in the order of their insertion. -/
def Store.select (s : Store) : Query → List Row
  | .analysisById id => (s.analyses.filter (fun a => a.id = id)).map .analysis
  | .alertsOf id =>
      ((s.alerts.filter (fun a => a.analysis_id = id)).insertionSort detectedBefore).map .alert
  | .droneNodesOf id =>
      ((s.drone_nodes.filter (fun n => n.analysis_id = id)).insertionSort
        (fun a b => b.trust_score ≤ a.trust_score)).map .droneNode
  | .metricsOf id =>
      ((s.network_metrics.filter (fun m => m.analysis_id = id)).insertionSort
        (fun a b => a.timestamp_recorded ≤ b.timestamp_recorded)).map .metric

/-- Modelled from the spec: the helper `utils/sql.js` is not part of the sources.
The call `await sql(query, params)` of a reading statement either throws, when
the oracle says so, or returns the rows; it leaves the store as it was. -/
def sqlSelect (query : Query) : Async (List Row) := fun w =>
  if w.failAt w.calls then
    (.error (.store w.calls), { w with calls := w.calls + 1 })
  else
    (.ok (w.store.select query), { w with calls := w.calls + 1 })

namespace Detail

/-- The handler `GET` of `src/app/api/analyses/[id]/route.js`.  The route
parameter `id`, a string, is taken as the number it spells. -/
def GET (id : ℕ) : Async Response :=
  tryCatch (do
    let analysis ← sqlSelect (.analysisById id)
    if analysis.length = 0 then
      return { status := 404, body := .failure "Analysis not found" }
    let alerts ← sqlSelect (.alertsOf id)
    let droneNodes ← sqlSelect (.droneNodesOf id)
    let metrics ← sqlSelect (.metricsOf id)
    return { status := 200, body := .detail analysis[0]? alerts droneNodes metrics })
    (fun _ => pure { status := 500, body := .failure "Failed to fetch analysis details" })

end Detail

/-! ## Reasoning about `async` bodies

`wp m Q E w` says that running `m` in the world `w` ends either with a value
`a` in a world satisfying `Q a`, or with a thrown error `e` in a world
satisfying `E e`. -/

/-- The outcome of running `m` in `w` satisfies `Q` (returned) or `E` (thrown). -/
def wp {α : Type} (m : Async α) (Q : α → World → Prop) (E : JsError → World → Prop)
    (w : World) : Prop :=
  match m.run w with
  | (.ok a, w') => Q a w'
  | (.error e, w') => E e w'

/-! ## Vocabulary of the properties -/

/-- A world at the start of an observation: nothing written or started yet. -/
def World.start (store : Store) (rand : ℕ → Draw) (failAt : ℕ → Bool) (now : ℤ) : World :=
  { store := store, rand := rand, randPos := 0, failAt := failAt, calls := 0, now := now,
    trace := [], started := [] }

/-- The writes applied between two worlds. -/
def World.writesSince (w w' : World) : List Write := w'.trace.drop w.trace.length

/-- The rows appended to `alerts` between two worlds. -/
def World.alertsSince (w w' : World) : List Alert :=
  w'.store.alerts.drop w.store.alerts.length

/-- The rows appended to `drone_nodes` between two worlds. -/
def World.nodesSince (w w' : World) : List DroneNode :=
  w'.store.drone_nodes.drop w.store.drone_nodes.length

/-- The number written by a list of decimal digits. -/
def decValue (cs : List Char) : ℕ := cs.foldl (fun acc c => 10 * acc + (c.toNat - 48)) 0

/-- The number behind the four-character prefix of a node identifier. -/
def nodeIndex (nodeId : String) : ℕ := decValue (nodeId.data.drop 4)

/-- How far a background sequence has come: `stage k` after the first `k`
progress updates (`k ≤ 5`), and `children a n i j` after the final update that
wrote `attacks_detected = a` and `total_nodes = n`, with `i` alerts and `j`
drone nodes inserted so far. -/
inductive Phase where
  | stage (k : ℕ)
  | children (a n : ℤ) (i j : ℕ)

/-- The sequence has not written everything it writes when no call fails. -/
def Phase.Unfinished : Phase → Prop
  | .stage _ => True
  | .children a n i j => i < a.toNat ∨ j < n.toNat

/-- The alert row built by one turn of the loop of `generateSampleAlerts` from
its six draws, in the order in which they are drawn. -/
def alertRow (analysisId : ℕ) (totalNodes : ℤ) (now : ℤ) (d₁ d₂ d₃ d₄ d₅ d₆ : Draw) : Alert :=
  { analysis_id := analysisId,
    attack_type := arrayGet ["Blackhole", "Wormhole", "Sybil", "Flooding", "Jamming"]
      (mathFloor (d₁.val * (5 : ℕ))),
    affected_node_id := uavNodeId (mathFloor (d₄.val * totalNodes) + 1),
    severity := arrayGet ["low", "medium", "high", "critical"] (mathFloor (d₂.val * (4 : ℕ))),
    confidence := 0.6 + d₅.val * 0.4,
    detection_method := arrayGet ["rule-based", "ml-isolation-forest", "ml-lstm"]
      (mathFloor (d₃.val * (3 : ℕ))),
    packet_timestamp := newDate (now - d₆.val * 3600000),
    description :=
      templateString (arrayGet ["Blackhole", "Wormhole", "Sybil", "Flooding", "Jamming"]
        (mathFloor (d₁.val * (5 : ℕ)))) ++ " attack detected on node " ++
      uavNodeId (mathFloor (d₄.val * totalNodes) + 1) ++ " via " ++
      templateString (arrayGet ["rule-based", "ml-isolation-forest", "ml-lstm"]
        (mathFloor (d₃.val * (3 : ℕ)))) }

/-- The node row built by one turn of the loop of `generateSampleDroneNodes`
for the index `i` from its seven draws, in the order in which they are drawn. -/
def droneNodeRow (analysisId : ℕ) (i : ℕ) (now : ℤ) (d₁ d₂ d₃ d₄ d₅ d₆ d₇ : Draw) : DroneNode :=
  { analysis_id := analysisId, node_id := uavNodeId i,
    trust_score := 0.6 + d₁.val * 0.4, status := droneStatus (0.6 + d₁.val * 0.4),
    x_position := d₂.val * 300, y_position := d₃.val * 300, z_position := 30 + d₄.val * 50,
    packets_sent := mathFloor (d₅.val * 2000),
    packets_received := mathFloor (mathFloor (d₅.val * 2000) * (0.8 + d₆.val * 0.2)),
    packets_dropped := mathFloor (mathFloor (d₅.val * 2000) * d₇.val * 0.1),
    last_seen := now }

/-- The final update issued by `simulateAnalysisProcessing` from its six draws,
in the order in which they are drawn. -/
def completionStmt (analysisId : ℕ) (d₁ d₂ d₃ d₄ d₅ d₆ : Draw) : Stmt :=
  .updateCompleted 100 "completed" (0.65 + d₁.val * 0.3) (mathFloor (d₂.val * 6))
    (d₃.val * 0.5) (5000 + mathFloor (d₄.val * 15000)) (8 + mathFloor (d₅.val * 12))
    (25 + mathFloor (d₆.val * 40)) analysisId

/-- The write that a successful store call appends to the trace. -/
def Store.write (s : Store) (now : ℤ) (stmt : Stmt) : Write :=
  ⟨stmt, s, (s.exec now stmt).1⟩

/-- The row that the insert of `POST` adds to `analyses` for an uploaded file. -/
def uploadedRow (w : World) (name : String) (size : ℕ) : Analysis :=
  w.store.newAnalysis w.now name size "processing" 0

/-- The world that an accepted upload leaves behind. -/
def uploadedWorld (w : World) (name : String) (size : ℕ) : World :=
  { w with
    store := (w.store.exec w.now (.insertAnalysis name size "processing" 0)).1,
    calls := w.calls + 1,
    trace := w.trace ++ [w.store.write w.now (.insertAnalysis name size "processing" 0)],
    started := w.started ++ [w.store.nextId] }

/-- The node inserted for index 1 of analysis 1 when every draw is `1/2`. -/
def sampleNode : DroneNode :=
  { analysis_id := 1, node_id := "UAV_01", trust_score := 0.8, status := "suspicious",
    x_position := 150, y_position := 150, z_position := 55, packets_sent := 1000,
    packets_received := 900, packets_dropped := 50, last_seen := 1700000000000 }

/-- The invariant of an analysis row: its status is `completed` exactly when its
progress is 100 and its six summary fields are set. -/
def Analysis.CompletedIff (a : Analysis) : Prop :=
  a.status = "completed" ↔
    (a.progress = 100 ∧ a.trust_score ≠ none ∧ a.attacks_detected ≠ none ∧
      a.anomaly_score ≠ none ∧ a.total_packets ≠ none ∧ a.total_nodes ≠ none ∧
      a.analysis_duration ≠ none)

/-- Every row of `analyses` satisfies the invariant. -/
def Store.Consistent (s : Store) : Prop := ∀ a ∈ s.analyses, a.CompletedIff

/-- The serial counter is ahead of every identifier in use, so that a new row
receives an identifier that no row has. -/
def Store.SerialFresh (s : Store) : Prop := ∀ a ∈ s.analyses, a.id < s.nextId

/-- The progress of the row with the given identifier, if there is one. -/
def Store.progressOf (s : Store) (id : ℕ) : Option ℤ :=
  (s.analyses.find? (fun a => a.id = id)).map (·.progress)

/-- The identifier and the progress value that a statement writes into a row of
`analyses`, for the two update statements. -/
def Stmt.progressWritten : Stmt → Option (ℕ × ℤ)
  | .updateProgress progress id => some (id, progress)
  | .updateCompleted progress _ _ _ _ _ _ _ id => some (id, progress)
  | _ => none

/-- The `attacks_detected` and `total_nodes` values that a statement writes into
a row of `analyses`, for the final update. -/
def Stmt.countsWritten : Stmt → Option (ℤ × ℤ)
  | .updateCompleted _ _ _ attacks _ _ nodes _ _ => some (attacks, nodes)
  | _ => none

/-- The `trust_score` that a statement writes into a row of `analyses`, for the
final update. -/
def Stmt.trustWritten : Stmt → Option ℚ
  | .updateCompleted _ _ trust _ _ _ _ _ _ => some trust
  | _ => none

/-! ## Test data -/

/-- The draw `1/2`. -/
def halfDraw : Draw := ⟨1 / 2, by norm_num, by norm_num⟩

/-- The store with no rows. -/
def emptyStore : Store :=
  { analyses := [], alerts := [], drone_nodes := [], nextId := 1, network_metrics := [],
    detectedDefault := fun now => some now }

/-- The stream in which every draw is `1/2`. -/
def halfDraws : ℕ → Draw := fun _ => halfDraw

/-- The oracle under which no store call fails. -/
def noFailure : ℕ → Bool := fun _ => false

/-- The oracle under which the first two store calls succeed and all later ones fail. -/
def twoCalls : ℕ → Bool := fun n => decide (2 ≤ n)

/-- An empty store in which no call fails and every draw is `1/2`. -/
def emptyWorld : World := World.start emptyStore halfDraws noFailure 1700000000000

/-- A form holding `capture1.pcap` with 1024 bytes. -/
def captureForm : List (String × FormEntry) := [("file", .file "capture1.pcap" 1024)]

/-- An upload of `capture1.pcap` with 1024 bytes. -/
def captureRequest : Request := ⟨some captureForm⟩

/-- A form holding a file whose name has the suffix in upper case. -/
def upperCaseForm : List (String × FormEntry) := [("file", .file "capture1.PCAP" 1024)]

/-- The write of the upload of `capture1.pcap` into the empty store. -/
def uploadWrite : Write :=
  emptyStore.write 1700000000000 (.insertAnalysis "capture1.pcap" 1024 "processing" 0)

/-- The write of the first stage of the sequence for that upload. -/
def firstStageWrite : Write :=
  uploadWrite.after.write 1700000002000 (.updateProgress 20 1)

/-- The six summary values that a statement writes into a row of `analyses`, for
the final update. -/
structure Summary where
  trust_score : ℚ
  attacks_detected : ℤ
  anomaly_score : ℚ
  total_packets : ℤ
  total_nodes : ℤ
  analysis_duration : ℤ

/-- The summary values written by a statement, for the final update. -/
def Stmt.summaryWritten : Stmt → Option Summary
  | .updateCompleted _ _ trust attacks anomaly packets nodes duration _ =>
      some ⟨trust, attacks, anomaly, packets, nodes, duration⟩
  | _ => none

/-- The row as `generateSampleAlerts` left it in the table: the inserted columns
and the value the store gave to `timestamp_detected`. -/
def Alert.stored (row : Alert) (detected : Option ℤ) : Alert :=
  { row with timestamp_detected := detected }

/-- An analysis row as `POST` inserts it and as the stage updates leave it: in
processing, without summary and without completion time. -/
def Analysis.Pending (a : Analysis) : Prop :=
  a.status = "processing" ∧ a.trust_score = none ∧ a.attacks_detected = none ∧
    a.anomaly_score = none ∧ a.total_packets = none ∧ a.total_nodes = none ∧
    a.analysis_duration = none ∧ a.completed_at = none

/-- An analysis row as the final update leaves it: completed at progress 100,
with its six summary fields and its completion time. -/
def Analysis.Done (a : Analysis) : Prop :=
  a.status = "completed" ∧ a.progress = 100 ∧ a.trust_score ≠ none ∧
    a.attacks_detected ≠ none ∧ a.anomaly_score ≠ none ∧ a.total_packets ≠ none ∧
    a.total_nodes ≠ none ∧ a.analysis_duration ≠ none ∧ a.completed_at ≠ none

/-- What one write of the sequence for `id` does to the rows of that analysis:
a progress update takes pending rows to pending rows, the final update takes
pending rows to done rows, and an insert of a child record finds the rows done
and leaves `analyses` as it was. -/
def Write.RowStep (id : ℕ) (wr : Write) : Prop :=
  ((∃ p, wr.stmt = .updateProgress p id) ∧
    (∀ a ∈ wr.before.analyses, a.id = id → a.Pending) ∧
    (∀ a ∈ wr.after.analyses, a.id = id → a.Pending)) ∨
  (wr.stmt.summaryWritten ≠ none ∧
    (∀ a ∈ wr.before.analyses, a.id = id → a.Pending) ∧
    (∀ a ∈ wr.after.analyses, a.id = id → a.Done)) ∨
  (((∃ row, wr.stmt = .insertAlert row) ∨ (∃ row, wr.stmt = .insertDroneNode row)) ∧
    (∀ a ∈ wr.before.analyses, a.id = id → a.Done) ∧
    wr.after.analyses = wr.before.analyses)

/-- The oracle under which the first seven store calls succeed and all later
ones fail: for an upload and its sequence these are the insert, the five
progress updates and the final update. -/
def sevenCalls : ℕ → Bool := fun n => decide (7 ≤ n)

/-- The row of the upload of `capture1.pcap` after the final update of its
sequence, when every draw is `1/2`. -/
def captureCompleted : Analysis :=
  { id := 1, filename := "capture1.pcap", file_size := 1024,
    upload_timestamp := 1700000000000, status := "completed", progress := 100,
    trust_score := some 0.8, attacks_detected := some 3, anomaly_score := some 0.25,
    total_packets := some 12500, total_nodes := some 14, analysis_duration := some 45,
    completed_at := some 1700000012000 }

/-- The world left by the upload of `capture1.pcap` into the empty store, when
every draw is `1/2` and the store fails as the oracle says. -/
def captureWorld (failAt : ℕ → Bool) : World :=
  ((POST captureRequest).run (World.start emptyStore halfDraws failAt 1700000000000)).2

/-- The alert inserted for analysis 1 with 14 nodes when every draw is `1/2` and
the store fills `timestamp_detected` with its current time. -/
def sampleAlert : Alert :=
  { analysis_id := 1, attack_type := some "Sybil", affected_node_id := "UAV_08",
    severity := some "high", confidence := 0.8,
    detection_method := some "ml-isolation-forest", packet_timestamp := 1699998200000,
    description := "Sybil attack detected on node UAV_08 via ml-isolation-forest",
    timestamp_detected := some 1700000000000 }

/-- The summary written by the final update when every draw is `1/2`. -/
def sampleSummary : Summary :=
  ⟨0.65 + halfDraw.val * 0.3, mathFloor (halfDraw.val * 6), halfDraw.val * 0.5,
    5000 + mathFloor (halfDraw.val * 15000), 8 + mathFloor (halfDraw.val * 12),
    25 + mathFloor (halfDraw.val * 40)⟩

/-- What a sequence for `id` that started in the store `start` has done when it
is in the given phase, `s` being the store now and `ext` the writes applied:
in `stage k` the first `k` progress updates and nothing else, the rows of the
analysis being pending below progress 100; in `children a n i j` also the
final update with these counts, then `i ≤ a` alerts and, once the alerts are
all there, the nodes of the indices `1..j` with `j ≤ n`, the rows of the
analysis being done. -/
def Phase.Describes (ph : Phase) (id : ℕ) (start s : Store) (ext : List Write) : Prop :=
  match ph with
  | .stage k =>
      k ≤ 5 ∧
      ext.map (·.stmt) = (steps.take k).map (fun st => Stmt.updateProgress st.progress id) ∧
      s.alerts = start.alerts ∧ s.drone_nodes = start.drone_nodes ∧
      ∀ a ∈ s.analyses, a.id = id → a.Pending ∧ a.progress < 100
  | .children a n i j =>
      ext.filterMap (fun wr => wr.stmt.countsWritten) = [(a, n)] ∧
      0 ≤ a ∧ 8 ≤ n ∧ i ≤ a.toNat ∧ j ≤ n.toNat ∧ (0 < j → i = a.toNat) ∧
      (∃ alerts : List Alert, s.alerts = start.alerts ++ alerts ∧ alerts.length = i ∧
        ∀ alert ∈ alerts, alert.analysis_id = id) ∧
      (∃ nodes : List DroneNode, s.drone_nodes = start.drone_nodes ++ nodes ∧
        nodes.map (fun r => (r.analysis_id, r.node_id)) =
          (List.range' 1 j).map (fun i : ℕ => (id, uavNodeId (i : ℤ)))) ∧
      ∀ a ∈ s.analyses, a.id = id → a.Done

/-- The progress of a row after the first `k` stage updates, `b` being its
progress before the sequence. -/
def progressAfter (k : ℕ) (b : ℤ) : ℤ :=
  match k with
  | 0 => b
  | j + 1 => ((steps[j]?).map (·.progress)).getD b

/-- What the sequence for `id` started in `w` has done in `w'` when exactly its
first `i` stage updates have been applied. -/
def World.StagesApplied (w : World) (id i : ℕ) (w' : World) : Prop :=
  (∃ ext, w'.trace = w.trace ++ ext ∧
    ext.map (·.stmt) = (steps.take i).map (fun st => Stmt.updateProgress st.progress id)) ∧
  w'.store.alerts = w.store.alerts ∧ w'.store.drone_nodes = w.store.drone_nodes ∧
  ∀ b, w.store.progressOf id = some b → w'.store.progressOf id = some (progressAfter i b)

/-- No alert and no drone node of the store belongs to the analysis `id`. -/
def Store.ChildFree (s : Store) (id : ℕ) : Prop :=
  (∀ alert ∈ s.alerts, alert.analysis_id ≠ id) ∧ (∀ node ∈ s.drone_nodes, node.analysis_id ≠ id)

/-- Every analysis in processing has no alert and no drone node. -/
def Store.ProcessingChildFree (s : Store) : Prop :=
  ∀ a ∈ s.analyses, a.status = "processing" → s.ChildFree a.id

/-- The child records refer to identifiers that the serial counter has given out. -/
def Store.ChildrenReferExisting (s : Store) : Prop :=
  (∀ alert ∈ s.alerts, alert.analysis_id < s.nextId) ∧
    (∀ node ∈ s.drone_nodes, node.analysis_id < s.nextId)

/-- The world that `POST` leaves when it handles a request in a store on which
nothing has been observed yet. -/
def afterPost (store : Store) (rand : ℕ → Draw) (failAt : ℕ → Bool) (now : ℤ)
    (request : Request) : World :=
  ((POST request).run (World.start store rand failAt now)).2

/-- The world that the sequence for `id` leaves when it runs in `w`. -/
def afterSequence (id : ℕ) (w : World) : World :=
  ((simulateAnalysisProcessing id).run w).2

/-- A store with two analyses, the first of them with one alert. -/
def detailStore : Store :=
  { emptyStore with
    analyses := [emptyStore.newAnalysis 1700000000000 "capture1.pcap" 1024 "processing" 0,
      { emptyStore.newAnalysis 1700000000000 "capture2.pcap" 2048 "processing" 0 with id := 2 }],
    alerts := [sampleAlert], nextId := 3 }

/-- The draw `9/10`. -/
def highDraw : Draw := ⟨9 / 10, by norm_num, by norm_num⟩

/-- The stream in which every draw is `9/10`. -/
def highDraws : ℕ → Draw := fun _ => highDraw

/-- The node inserted for index 1 of analysis 1 when every draw is `9/10`. -/
def busyNode : DroneNode :=
  { analysis_id := 1, node_id := "UAV_01", trust_score := 0.96, status := "trusted",
    x_position := 270, y_position := 270, z_position := 75, packets_sent := 1800,
    packets_received := 1764, packets_dropped := 162, last_seen := 1700000000000 }

/-! ## `src/components/UploadAnalysisView.jsx` -/

/-- The client function `handleFileUpload` together with the upload mutation it
calls: a file whose name lacks the suffix is refused with an alert and nothing
is sent (`none`); any other file is appended to a form under the name `file`
and posted to `/api/analyses`. -/
def handleFileUpload (name : String) (size : ℕ) : Option Request :=
  if !endsWith name ".pcap" then
    none
  else
    some ⟨some [("file", .file name size)]⟩

/-- A form whose `file` entry is the string `notes`. -/
def notesForm : List (String × FormEntry) := [("file", .text "notes")]

/-- The size of 100 MB in bytes. -/
def hundredMegabytes : ℕ := 100 * 1024 * 1024

/-- An upload of `capture1.pcap` with 200 000 000 bytes. -/
def largeRequest : Request := ⟨some [("file", .file "capture1.pcap" 200000000)]⟩

/-! ## The list route of `src/app/api/analyses/route.js` -/

/-- A positional parameter of a statement of the list route: a string or a number. -/
inductive Param where
  | str (value : String)
  | num (value : ℤ)
  deriving DecidableEq

/-- A request seen through the query part of its URL: the pairs of
`url.searchParams`, in their order. -/
structure UrlRequest where
  searchParams : List (String × String)

/-- The call `url.searchParams.get(name)`: the first value of that name, or `null`. -/
def searchGet (searchParams : List (String × String)) (name : String) : Option String :=
  searchParams.lookup name

/-- The white space and line terminators that `parseInt` skips in front of a
numeral, by code point. -/
def isStrWhiteSpaceChar (c : Char) : Bool :=
  [9, 10, 11, 12, 13, 32, 160, 5760, 8232, 8233, 8239, 8287, 12288, 65279].contains c.toNat ||
    (8192 ≤ c.toNat && c.toNat ≤ 8202)

/-- The value of a character as a digit: `0` to `9`, then the letters of either
case from 10 on. -/
def digitValue (c : Char) : Option ℕ :=
  if 48 ≤ c.toNat ∧ c.toNat ≤ 57 then some (c.toNat - 48)
  else if 97 ≤ c.toNat ∧ c.toNat ≤ 122 then some (c.toNat - 87)
  else if 65 ≤ c.toNat ∧ c.toNat ≤ 90 then some (c.toNat - 55)
  else none

/-- The character is a digit of the given radix. -/
def isRadixDigit (radix : ℕ) (c : Char) : Bool :=
  match digitValue c with
  | some d => d < radix
  | none => false

/-- The library call `parseInt(string)` without a radix; `none` stands for `NaN`.
Leading white space is skipped, a sign is read, the prefix `0x` or `0X` selects
radix 16, and the longest run of digits that follows is the numeral; there is
no number when that run is empty. -/
def parseInt (string : String) : Option ℤ :=
  let s := string.data.dropWhile isStrWhiteSpaceChar
  let sign : ℤ := if s.head? = some '-' then -1 else 1
  let s := if s.head? = some '-' ∨ s.head? = some '+' then s.tail else s
  let hex : Bool := s.take 2 == ['0', 'x'] || s.take 2 == ['0', 'X']
  let radix : ℕ := if hex then 16 else 10
  let s := if hex then s.drop 2 else s
  let z := s.takeWhile (isRadixDigit radix)
  if z = [] then none
  else some (sign * ((z.foldl (fun acc c => radix * acc + (digitValue c).getD 0) 0 : ℕ) : ℤ))

/-- The conversion to a string that `parseInt` applies to its argument: `null`
becomes the text `null`. -/
def nullableToString : Option String → String
  | some s => s
  | none => "null"

/-- The expression `x || d` for a number `x` that may be `NaN`: `NaN` and 0 are
falsy and give `d`. -/
def numberOr (x : Option ℤ) (d : ℤ) : ℤ :=
  match x with
  | some n => if n = 0 then d else n
  | none => d

/-- The template literal first assigned to `query` in `GET`. -/
def selectAnalyses : String :=
  "\n      SELECT id, filename, file_size, upload_timestamp, status, progress, \n" ++
  "             trust_score, attacks_detected, anomaly_score, total_packets, \n" ++
  "             total_nodes, analysis_duration, completed_at\n" ++
  "      FROM analyses\n    "

/-- The statement that `GET` builds before it calls the store (lines 6 to 24 of
the route): the query text and the parameter list.  The test `if (status)` is
false for `null` and for the empty string. -/
def listStatement (request : UrlRequest) : String × List Param :=
  let limit := numberOr (parseInt (nullableToString (searchGet request.searchParams "limit"))) 50
  let status := searchGet request.searchParams "status"
  let query := selectAnalyses
  let params : List Param := []
  let (query, params) : String × List Param :=
    match status with
    | some status =>
        if status.isEmpty then (query, params)
        else
          (query ++ " WHERE status = $" ++ numberToString ((params.length + 1 : ℕ) : ℤ),
            params ++ [Param.str status])
    | none => (query, params)
  let query := query ++ " ORDER BY upload_timestamp DESC LIMIT $" ++
    numberToString ((params.length + 1 : ℕ) : ℤ)
  let params := params ++ [Param.num limit]
  (query, params)

/-- The analyses with the given status, or all of them, newest upload first, cut
to the limit.  Rows with equal upload time come in the order of their
insertion. -/
def Store.listAnalyses (s : Store) (status : Option String) (limit : ℕ) : List Row :=
  (((s.analyses.filter (fun a => decide (status = none ∨ status = some a.status))).insertionSort
    (fun a b => b.upload_timestamp ≤ a.upload_timestamp)).take limit).map .analysis

/-- Modelled from the spec: the store behind `utils/sql.js` is not part of the
sources.  The answer of the store to a statement text of the list route: the
store understands the two texts that carry one placeholder per parameter, with
a string bound to `status` and a number bound to `LIMIT`, and rejects (`none`)
any other text, any other parameter list and a negative limit. -/
def Store.answer (s : Store) (query : String) (params : List Param) : Option (List Row) :=
  if query = selectAnalyses ++ " WHERE status = $1 ORDER BY upload_timestamp DESC LIMIT $2" then
    match params with
    | [Param.str status, Param.num limit] =>
        if 0 ≤ limit then some (s.listAnalyses (some status) limit.toNat) else none
    | _ => none
  else if query = selectAnalyses ++ " ORDER BY upload_timestamp DESC LIMIT $1" then
    match params with
    | [Param.num limit] => if 0 ≤ limit then some (s.listAnalyses none limit.toNat) else none
    | _ => none
  else none

/-- Modelled from the spec: the helper `utils/sql.js` is not part of the sources.
The call `await sql(query, params)` with a statement text either throws, when
the oracle says so or the store rejects the statement, or returns the rows; it
leaves the store as it was. -/
def sqlQuery (query : String) (params : List Param) : Async (List Row) := fun w =>
  if w.failAt w.calls then
    (.error (.store w.calls), { w with calls := w.calls + 1 })
  else
    match w.store.answer query params with
    | some rows => (.ok rows, { w with calls := w.calls + 1 })
    | none => (.error (.store w.calls), { w with calls := w.calls + 1 })

/-- The handler `GET` of `src/app/api/analyses/route.js`. -/
def GET (request : UrlRequest) : Async Response :=
  tryCatch (do
    let (query, params) := listStatement request
    let analyses ← sqlQuery query params
    return { status := 200, body := .list analyses })
    (fun _ => pure { status := 500, body := .failure "Failed to fetch analyses" })

/-- The request `GET /api/analyses?status=completed&limit=10`. -/
def completedRequest : UrlRequest := ⟨[("status", "completed"), ("limit", "10")]⟩

/-- The request `GET /api/analyses?status=&limit=0`. -/
def plainRequest : UrlRequest := ⟨[("status", ""), ("limit", "0")]⟩

/-! ## `src/app/api/dashboard/stats/route.js` -/

/-- The aggregate `AVG` over the given numbers: `null` when there is none. -/
def average (xs : List ℚ) : Option ℚ :=
  if xs = [] then none else some (xs.sum / xs.length)

/-- The test `column > NOW() - INTERVAL ...` on a nullable time: the time is
later than `since`; a null is not. -/
def laterThan (since : ℤ) : Option ℤ → Bool
  | some t => decide (since < t)
  | none => false

/-- The rows of `SELECT COUNT(*) as count FROM analyses`. -/
def Store.countAnalyses (s : Store) (_now : ℤ) : List CountRow :=
  [⟨s.analyses.length⟩]

/-- The rows of `SELECT COUNT(*) as count FROM alerts WHERE timestamp_detected >
NOW() - INTERVAL '24 hours'`; times are in milliseconds. -/
def Store.countActiveThreats (s : Store) (now : ℤ) : List CountRow :=
  [⟨(s.alerts.filter (fun a => laterThan (now - 86400000) a.timestamp_detected)).length⟩]

/-- The rows of `SELECT AVG(trust_score) as avg_score FROM analyses WHERE status =
'completed' AND trust_score IS NOT NULL`. -/
def Store.averageTrust (s : Store) (_now : ℤ) : List AvgRow :=
  [⟨average ((s.analyses.filter (fun a => a.status = "completed")).filterMap (·.trust_score))⟩]

/-- The rows of `SELECT AVG(trust_score) as health_score FROM analyses WHERE status =
'completed' AND completed_at > NOW() - INTERVAL '7 days' AND trust_score IS NOT NULL`. -/
def Store.recentHealth (s : Store) (now : ℤ) : List HealthRow :=
  [⟨average ((s.analyses.filter (fun a =>
      decide (a.status = "completed") && laterThan (now - 604800000) a.completed_at)).filterMap
    (·.trust_score))⟩]

/-- The rows of the recent-threat query: the alerts joined with their analyses,
latest detection first, cut to five. -/
def Store.recentThreats (s : Store) (_now : ℤ) : List ThreatRow :=
  (((s.alerts.insertionSort detectedBefore).map (fun a =>
    (s.analyses.filter (fun an => an.id = a.analysis_id)).map (fun an =>
      (⟨a.attack_type, a.affected_node_id, a.severity, a.timestamp_detected,
        an.filename⟩ : ThreatRow)))).flatten).take 5

/-- The rows of the threat-distribution query: for each attack type among the
alerts of the last 30 days the number of those alerts, largest count first. -/
def Store.threatDistribution (s : Store) (now : ℤ) : List TypeCount :=
  let recent := (s.alerts.filter (fun a =>
    laterThan (now - 2592000000) a.timestamp_detected)).map (·.attack_type)
  (recent.dedup.map (fun t => (⟨t, recent.count t⟩ : TypeCount))).insertionSort
    (fun a b => b.count ≤ a.count)

/-- Modelled from the spec: the helper `utils/sql.js` is not part of the sources.
The call `await sql(query)` of a reading statement of the dashboard either
throws, when the oracle says so, or returns the rows that the store computes at
its current time; it leaves the store as it was. -/
def sqlRead {α : Type} (rows : Store → ℤ → α) : Async α := fun w =>
  if w.failAt w.calls then
    (.error (.store w.calls), { w with calls := w.calls + 1 })
  else
    (.ok (rows w.store w.now), { w with calls := w.calls + 1 })

/-- The expression `x || d` for a number `x` that may be `null` or `undefined`:
these and 0 are falsy and give `d`. -/
def scoreOr (x : Option ℚ) (d : ℚ) : ℚ :=
  match x with
  | some v => if v = 0 then d else v
  | none => d

namespace Dashboard

/-- The handler `GET` of `src/app/api/dashboard/stats/route.js`.  Reading a
member of `undefined`, as in `totalAnalyses[0].count` for an empty result,
throws. -/
def GET (_request : UrlRequest) : Async Response :=
  tryCatch (do
    let totalAnalyses ← sqlRead Store.countAnalyses
    let activeThreats ← sqlRead Store.countActiveThreats
    let avgTrustScore ← sqlRead Store.averageTrust
    let recentAnalyses ← sqlRead Store.recentHealth
    let recentThreats ← sqlRead Store.recentThreats
    let threatDistribution ← sqlRead Store.threatDistribution
    let healthScore := scoreOr (recentAnalyses[0]?.bind (·.health_score)) 0
    let networkHealth :=
      if healthScore > 0.8 then "Excellent"
      else if healthScore > 0.6 then "Good"
      else if healthScore > 0.4 then "Fair"
      else "Poor"
    match totalAnalyses[0]?, activeThreats[0]?, avgTrustScore[0]? with
    | some total, some active, some avg =>
        return { status := 200,
                 body := .stats
                   { totalAnalyses := total.count, activeThreats := active.count,
                     averageTrustScore := scoreOr avg.avg_score 0,
                     networkHealth := networkHealth, healthScore := healthScore }
                   recentThreats threatDistribution }
    | _, _, _ => throwJs .typeError)
    (fun _ => pure { status := 500, body := .failure "Failed to fetch dashboard statistics" })

end Dashboard

/-- A store with the completed analysis of `capture1.pcap`, whose trust score
is 0.8, and the alert of the sample run. -/
def completedStore : Store :=
  { emptyStore with analyses := [captureCompleted], alerts := [sampleAlert], nextId := 2 }

/-! ## The envelope of the responses and the failures of the store -/

/-- The envelope of a response: a document with `success` false carries an
`error` string and has status 400, 404 or 500, and a document with `success`
true has status 200. -/
def Response.Enveloped (r : Response) : Prop :=
  (r.body.success = false →
    (∃ error, r.body = .failure error ∧ r.body.error = some error) ∧
    (r.status = 400 ∨ r.status = 404 ∨ r.status = 500) ∧
    ¬ (200 ≤ r.status ∧ r.status < 300)) ∧
  (r.body.success = true → r.status = 200)

/-- The handler `m` answers in `w`: its run returns a response, which has the
envelope. -/
def Answers (m : Async Response) (w : World) : Prop :=
  ∃ resp, (m.run w).1 = .ok resp ∧ resp.Enveloped

/-- What a failing store call does to the handler `m` run in `w`, a handler with
`queries` statements: the handler makes at most `queries` store calls, and when
one of the calls it makes fails, it answers with status 500 and the given
message, `success` false, and that call is the last store call it makes. -/
def FailsOnce (m : Async Response) (w : World) (queries : ℕ) (message : String) : Prop :=
  (m.run w).2.calls ≤ w.calls + queries ∧
  ∀ k, w.calls ≤ k → k < (m.run w).2.calls → w.failAt k = true →
    (m.run w).1 = .ok ⟨500, .failure message⟩ ∧
    (Body.failure message).success = false ∧ (m.run w).2.calls = k + 1

/-- The oracle under which the third store call fails and no other. -/
def thirdCall : ℕ → Bool := fun n => decide (n = 2)

/-- The row that turn number `i`, counted from 0, of the loop of
`generateSampleAlerts` started in `w` passes to its insert: it is built at the
time of `w` from the six draws of that turn, the sixth of which gives the
packet time. -/
def drawnAlert (analysisId : ℕ) (totalNodes : ℤ) (w : World) (i : ℕ) : Alert :=
  alertRow analysisId totalNodes w.now (w.rand (w.randPos + 6 * i))
    (w.rand (w.randPos + 6 * i + 1)) (w.rand (w.randPos + 6 * i + 2))
    (w.rand (w.randPos + 6 * i + 3)) (w.rand (w.randPos + 6 * i + 4))
    (w.rand (w.randPos + 6 * i + 5))

/-- The store with no rows whose column `alerts.timestamp_detected` has no
default: a row inserted without the column holds a null. -/
def undatedStore : Store := { emptyStore with detectedDefault := fun _ => none }

/-- The world of the sample run over the store without a default for
`timestamp_detected`. -/
def undatedWorld : World := World.start undatedStore halfDraws noFailure 1700000000000

/-! ## The parameters of the alert insert -/

/-- The row that `generateSampleAlerts` passes to its insert names no
`timestamp_detected`. -/
@[simp] theorem alertRow_timestamp_detected (analysisId : ℕ) (totalNodes now : ℤ)
    (d₁ d₂ d₃ d₄ d₅ d₆ : Draw) :
    (alertRow analysisId totalNodes now d₁ d₂ d₃ d₄ d₅ d₆).timestamp_detected = none := rfl

/-! ## Rules of the weakest precondition -/

section Wp

variable {α β : Type} {Q : α → World → Prop} {E : JsError → World → Prop} {w : World}

@[simp] theorem wp_pure (a : α) : wp (pure a) Q E w ↔ Q a w := Iff.rfl

@[simp] theorem wp_bind (m : Async β) (f : β → Async α) :
    wp (m >>= f) Q E w ↔ wp m (fun b w' => wp (f b) Q E w') E w := by
  unfold wp Async.run
  show (match (match m w with
      | (.ok a, w') => f a w'
      | (.error e, w') => (.error e, w')) with
    | (.ok a, w') => Q a w'
    | (.error e, w') => E e w') ↔ _
  rcases h : m w with ⟨r, w'⟩
  cases r <;> simp

@[simp] theorem wp_throwJs (e : JsError) : wp (throwJs e : Async α) Q E w ↔ E e w := Iff.rfl

@[simp] theorem wp_mathRandom {Q : Draw → World → Prop} :
    wp mathRandom Q E w ↔ Q (w.rand w.randPos) { w with randPos := w.randPos + 1 } := Iff.rfl

@[simp] theorem wp_dateNow {Q : ℤ → World → Prop} : wp dateNow Q E w ↔ Q w.now w := Iff.rfl

@[simp] theorem wp_sleep {Q : Unit → World → Prop} (ms : ℕ) :
    wp (sleep ms) Q E w ↔ Q () { w with now := w.now + ms } := Iff.rfl

@[simp] theorem wp_startBackground {Q : Unit → World → Prop} (analysisId : ℕ) :
    wp (startBackground analysisId) Q E w ↔
      Q () { w with started := w.started ++ [analysisId] } := Iff.rfl

theorem wp_sql {Q : List SqlRow → World → Prop} (stmt : Stmt) :
    wp (sql stmt) Q E w ↔
      (w.failAt w.calls = true → E (.store w.calls) { w with calls := w.calls + 1 }) ∧
      (w.failAt w.calls = false →
        Q (w.store.exec w.now stmt).2
          { w with store := (w.store.exec w.now stmt).1, calls := w.calls + 1,
                   trace := w.trace ++ [⟨stmt, w.store, (w.store.exec w.now stmt).1⟩] }) := by
  unfold wp Async.run sql
  cases h : w.failAt w.calls <;> simp

@[simp] theorem wp_tryCatch (m : Async α) (h : JsError → Async α) :
    wp (tryCatch m h) Q E w ↔ wp m Q (fun e w' => wp (h e) Q E w') w := by
  unfold wp Async.run tryCatch
  rcases hm : m w with ⟨r, w'⟩
  cases r <;> simp

theorem wp_ite (c : Prop) [Decidable c] (m₁ m₂ : Async α) :
    wp (if c then m₁ else m₂) Q E w ↔ (c → wp m₁ Q E w) ∧ (¬c → wp m₂ Q E w) := by
  by_cases hc : c <;> simp [hc]

/-- Consequence: a weaker postcondition may replace a stronger one. -/
theorem wp_mono {m : Async α} {R : α → World → Prop} {F : JsError → World → Prop}
    (h : wp m Q E w) (hQ : ∀ a w', Q a w' → R a w') (hE : ∀ e w', E e w' → F e w') :
    wp m R F w := by
  unfold wp at *
  rcases hm : m.run w with ⟨r, w'⟩
  rw [hm] at h
  cases r with
  | ok a => exact hQ a w' h
  | error e => exact hE e w' h

/-- Loop rule: an invariant indexed by the loop variable is carried through
`forLoop`; a throw of the body leaves the loop with the body's exceptional
postcondition. -/
theorem wp_forLoop (I : ℕ → World → Prop) {E : JsError → World → Prop}
    (body : ℕ → Async Unit) :
    ∀ (count start : ℕ) (w : World), I start w →
      (∀ i w', start ≤ i → i < start + count → I i w' →
        wp (body i) (fun _ w'' => I (i + 1) w'') E w') →
      wp (forLoop body start count) (fun _ w' => I (start + count) w') E w := by
  intro count
  induction count with
  | zero => intro start w hI _; simpa [forLoop] using hI
  | succ n ih =>
    intro start w hI hbody
    simp only [forLoop, wp_bind]
    refine wp_mono (hbody start w le_rfl (by omega) hI) ?_ (fun _ _ h => h)
    intro _ w' hI'
    have := ih (start + 1) w' hI' (fun i w'' h1 h2 => hbody i w'' (by omega) (by omega))
    simpa [Nat.add_assoc, Nat.add_comm 1 n] using this

/-- The world left by a run satisfies whatever holds on both exits. -/
theorem wp_final {m : Async α} {P : World → Prop}
    (h : wp m (fun _ w' => P w') (fun _ w' => P w') w) : P (m.run w).2 := by
  unfold wp at h
  rcases hm : m.run w with ⟨r, w'⟩
  rw [hm] at h
  cases r <;> exact h

/-- The world left by a run that returned satisfies the normal postcondition. -/
theorem wp_returned {m : Async α} {P : World → Prop}
    (h : wp m (fun _ w' => P w') (fun _ _ => True) w) :
    ∀ a, (m.run w).1 = .ok a → P (m.run w).2 := by
  unfold wp at h
  rcases hm : m.run w with ⟨r, w'⟩
  rw [hm] at h
  cases r with
  | ok a => intro _ _; exact h
  | error e => intro a ha; cases ha

end Wp

/-! ## Decimal numerals and node identifiers -/

theorem digitChar_value (k : ℕ) (hk : k < 10) : (Nat.digitChar k).toNat - 48 = k := by
  interval_cases k <;> rfl

theorem decValue_toDigitsCore (fuel : ℕ) :
    ∀ (n : ℕ) (ds : List Char), n < fuel →
      (Nat.toDigitsCore 10 fuel n ds).foldl (fun acc c => 10 * acc + (c.toNat - 48)) 0 =
        ds.foldl (fun acc c => 10 * acc + (c.toNat - 48)) n := by
  induction fuel with
  | zero => intro n ds h; omega
  | succ fuel ih =>
    intro n ds h
    simp only [Nat.toDigitsCore]
    split
    · rename_i h0
      have hn : n % 10 = n := Nat.mod_eq_of_lt (by omega)
      have hd := digitChar_value (n % 10) (Nat.mod_lt _ (by norm_num))
      rw [hn] at hd
      simp [List.foldl_cons, hd, hn]
    · rename_i h0
      rw [ih (n / 10) _ (by omega)]
      simp only [List.foldl_cons, digitChar_value (n % 10) (Nat.mod_lt _ (by norm_num))]
      congr 1
      omega

theorem decValue_repr (n : ℕ) : decValue (Nat.repr n).data = n := by
  simp [decValue, Nat.repr, Nat.toDigits, List.asString, decValue_toDigitsCore (n + 1) n [] (by omega)]

theorem decValue_zeros (zs ds : List Char) (hz : ∀ c ∈ zs, c = '0') :
    decValue (zs ++ ds) = decValue ds := by
  induction zs with
  | nil => rfl
  | cons c zs ih =>
    have hc : c = '0' := hz c (by simp)
    have := ih (fun c hc => hz c (by simp [hc]))
    subst hc
    simpa [decValue] using this

/-- The index of a node can be read back from its identifier. -/
theorem nodeIndex_uavNodeId (n : ℕ) : nodeIndex (uavNodeId n) = n := by
  have hpre : ("UAV_" : String).data = ['U', 'A', 'V', '_'] := rfl
  have hrepr : numberToString (n : ℤ) = Nat.repr n := rfl
  simp only [nodeIndex, uavNodeId, padStart, String.data_append, hpre, hrepr]
  simp only [List.cons_append, List.nil_append, List.drop_succ_cons, List.drop_zero]
  rw [decValue_zeros _ _ ?_, decValue_repr]
  intro c hc
  have hc' := List.mem_of_mem_take hc
  simp only [List.mem_flatten, List.mem_replicate] at hc'
  obtain ⟨l, ⟨-, rfl⟩, hcl⟩ := hc'
  simpa using hcl

theorem uavNodeId_injective : Function.Injective (fun n : ℕ => uavNodeId n) := by
  intro a b h
  have := congrArg nodeIndex h
  simpa [nodeIndex_uavNodeId] using this

/-! ## The two generators and the stage sequence as transition systems

Each rule below says that the writes of a function follow a transition system:
whatever property of the store and the trace is carried by every transition is
carried by the run. -/

/-- Rule for `generateSampleAlerts`: a property `J i` of the store and the trace
after `i` inserted alerts, carried by every insert the loop body can issue,
holds after the run with `i = numAlerts` when the run returns and with some
smaller `i` when a store call fails. -/
theorem generateSampleAlerts_rule (analysisId : ℕ) (numAlerts totalNodes : ℤ)
    (J : ℕ → Store → List Write → Prop)
    (hstep : ∀ (i : ℕ) (s : Store) (tr : List Write) (now : ℤ) (d₁ d₂ d₃ d₄ d₅ d₆ : Draw),
      i < numAlerts.toNat → J i s tr →
      J (i + 1) (s.exec now (.insertAlert (alertRow analysisId totalNodes now d₁ d₂ d₃ d₄ d₅ d₆))).1
        (tr ++ [s.write now (.insertAlert (alertRow analysisId totalNodes now d₁ d₂ d₃ d₄ d₅ d₆))]))
    (w : World) (h0 : J 0 w.store w.trace) :
    wp (generateSampleAlerts analysisId numAlerts totalNodes)
      (fun _ w' => J numAlerts.toNat w'.store w'.trace)
      (fun _ w' => ∃ i, i < numAlerts.toNat ∧ J i w'.store w'.trace) w := by
  unfold generateSampleAlerts
  refine wp_mono (wp_forLoop (fun i w' => J i w'.store w'.trace) _ numAlerts.toNat 0 w h0 ?_)
    (fun _ w' h => by simpa using h) (fun _ _ h => h)
  intro i w' _ hi hJ
  simp only [wp_bind, wp_mathRandom, wp_dateNow, wp_sql, wp_pure, List.length_cons,
    List.length_nil]
  refine ⟨fun _ => ⟨i, by omega, hJ⟩, fun _ => ?_⟩
  exact hstep i w'.store w'.trace w'.now _ _ _ _ _ _ (by omega) hJ

/-- Rule for `generateSampleDroneNodes`: a property `J j` of the store and the
trace after `j` inserted nodes, carried by every insert the loop body can
issue (the insert number `j + 1` is for the index `j + 1`), holds after the run
with `j = totalNodes` when the run returns and with some smaller `j` when a
store call fails. -/
theorem generateSampleDroneNodes_rule (analysisId : ℕ) (totalNodes : ℤ)
    (J : ℕ → Store → List Write → Prop)
    (hstep : ∀ (j : ℕ) (s : Store) (tr : List Write) (now : ℤ) (d₁ d₂ d₃ d₄ d₅ d₆ d₇ : Draw),
      j < totalNodes.toNat → J j s tr →
      J (j + 1) (s.exec now (.insertDroneNode (droneNodeRow analysisId (j + 1) now d₁ d₂ d₃ d₄ d₅ d₆ d₇))).1
        (tr ++ [s.write now (.insertDroneNode (droneNodeRow analysisId (j + 1) now d₁ d₂ d₃ d₄ d₅ d₆ d₇))]))
    (w : World) (h0 : J 0 w.store w.trace) :
    wp (generateSampleDroneNodes analysisId totalNodes)
      (fun _ w' => J totalNodes.toNat w'.store w'.trace)
      (fun _ w' => ∃ j, j < totalNodes.toNat ∧ J j w'.store w'.trace) w := by
  unfold generateSampleDroneNodes
  refine wp_mono (wp_forLoop (fun i w' => J (i - 1) w'.store w'.trace) _ totalNodes.toNat 1 w
    h0 ?_) (fun _ w' h => by simpa using h) (fun _ _ h => h)
  intro i w' hi₁ hi₂ hJ
  simp only [wp_bind, wp_mathRandom, wp_dateNow, wp_sql, wp_pure]
  refine ⟨fun _ => ⟨i - 1, by omega, hJ⟩, fun _ => ?_⟩
  obtain ⟨j, rfl⟩ : ∃ j, i = j + 1 := ⟨i - 1, by omega⟩
  exact hstep j w'.store w'.trace w'.now _ _ _ _ _ _ _ (by omega) hJ

/-- Rule for `simulateAnalysisProcessing`: a property `Inv` of the store and the
trace, indexed by the phase of the sequence and carried by each of the four
kinds of write the sequence can issue, holds after the run: in the last phase
when the run returns, and in some unfinished phase when a store call fails. -/
theorem simulate_phases (analysisId : ℕ) (Inv : Phase → Store → List Write → Prop)
    (hstage : ∀ (k : ℕ) (step : Step) (s : Store) (tr : List Write) (now : ℤ),
      k < 5 → steps[k]? = some step → Inv (.stage k) s tr →
      Inv (.stage (k + 1)) (s.exec now (.updateProgress step.progress analysisId)).1
        (tr ++ [s.write now (.updateProgress step.progress analysisId)]))
    (hfinal : ∀ (s : Store) (tr : List Write) (now : ℤ) (d₁ d₂ d₃ d₄ d₅ d₆ : Draw),
      Inv (.stage 5) s tr →
      Inv (.children (mathFloor (d₂.val * 6)) (8 + mathFloor (d₅.val * 12)) 0 0)
        (s.exec now (completionStmt analysisId d₁ d₂ d₃ d₄ d₅ d₆)).1
        (tr ++ [s.write now (completionStmt analysisId d₁ d₂ d₃ d₄ d₅ d₆)]))
    (halert : ∀ (a n : ℤ) (i : ℕ) (s : Store) (tr : List Write) (now : ℤ)
      (d₁ d₂ d₃ d₄ d₅ d₆ : Draw), i < a.toNat → Inv (.children a n i 0) s tr →
      Inv (.children a n (i + 1) 0)
        (s.exec now (.insertAlert (alertRow analysisId n now d₁ d₂ d₃ d₄ d₅ d₆))).1
        (tr ++ [s.write now (.insertAlert (alertRow analysisId n now d₁ d₂ d₃ d₄ d₅ d₆))]))
    (hnode : ∀ (a n : ℤ) (j : ℕ) (s : Store) (tr : List Write) (now : ℤ)
      (d₁ d₂ d₃ d₄ d₅ d₆ d₇ : Draw), j < n.toNat → Inv (.children a n a.toNat j) s tr →
      Inv (.children a n a.toNat (j + 1))
        (s.exec now (.insertDroneNode (droneNodeRow analysisId (j + 1) now d₁ d₂ d₃ d₄ d₅ d₆ d₇))).1
        (tr ++ [s.write now
          (.insertDroneNode (droneNodeRow analysisId (j + 1) now d₁ d₂ d₃ d₄ d₅ d₆ d₇))]))
    (w : World) (h0 : Inv (.stage 0) w.store w.trace) :
    wp (simulateAnalysisProcessing analysisId)
      (fun _ w' => ∃ a n : ℤ, Inv (.children a n a.toNat n.toNat) w'.store w'.trace)
      (fun _ w' => ∃ ph : Phase, ph.Unfinished ∧ Inv ph w'.store w'.trace) w := by
  unfold simulateAnalysisProcessing
  refine wp_mono (wp_forLoop
    (fun i w' => if i ≤ 5 then Inv (.stage i) w'.store w'.trace
      else ∃ a n : ℤ, Inv (.children a n a.toNat n.toNat) w'.store w'.trace)
    _ steps.length 0 w (by simpa using h0) ?_)
    (fun _ w' h => by simpa [steps] using h) (fun _ _ h => h)
  intro i w' _ hi hI
  have hi' : i < 6 := by simpa [steps] using hi
  by_cases h5 : i = 5
  · subst h5
    simp only [Nat.le_refl, if_true] at hI
    simp only [simulateStep, steps, List.length_cons, List.length_nil, wp_bind, wp_sleep,
      wp_mathRandom, wp_sql, wp_ite, wp_pure, Nat.zero_add, Nat.reduceAdd, Nat.reduceSub,
      if_true, Nat.reduceLeDiff, if_false, true_implies, not_true, false_implies, and_true]
    refine ⟨fun _ => ⟨.stage 5, trivial, hI⟩, fun _ => ?_⟩
    have hc := hfinal w'.store w'.trace (w'.now + (2000 : ℕ)) (w'.rand w'.randPos)
      (w'.rand (w'.randPos + 1)) (w'.rand (w'.randPos + 1 + 1))
      (w'.rand (w'.randPos + 1 + 1 + 1)) (w'.rand (w'.randPos + 1 + 1 + 1 + 1))
      (w'.rand (w'.randPos + 1 + 1 + 1 + 1 + 1)) hI
    have hnodes : ∀ (a n : ℤ) (w₁ : World), Inv (.children a n a.toNat 0) w₁.store w₁.trace →
        wp (generateSampleDroneNodes analysisId n)
          (fun _ w'' => ∃ a n : ℤ, Inv (.children a n a.toNat n.toNat) w''.store w''.trace)
          (fun _ w'' => ∃ ph : Phase, ph.Unfinished ∧ Inv ph w''.store w''.trace) w₁ := by
      intro a n w₁ h
      refine wp_mono (generateSampleDroneNodes_rule analysisId n
        (fun j s tr => Inv (.children a n a.toNat j) s tr)
        (fun j s tr now d₁ d₂ d₃ d₄ d₅ d₆ d₇ hj hJ =>
          hnode a n j s tr now d₁ d₂ d₃ d₄ d₅ d₆ d₇ hj hJ) w₁ h)
        (fun _ w'' h' => ⟨a, n, h'⟩) ?_
      rintro _ w'' ⟨j, hj, h'⟩
      exact ⟨.children a n a.toNat j, Or.inr hj, h'⟩
    refine ⟨fun hpos => ?_, fun hnpos => ?_⟩
    · refine wp_mono (generateSampleAlerts_rule analysisId _ _
        (fun i s tr => Inv (.children _ _ i 0) s tr)
        (fun i s tr now d₁ d₂ d₃ d₄ d₅ d₆ hi hJ =>
          halert _ _ i s tr now d₁ d₂ d₃ d₄ d₅ d₆ hi hJ) _ hc)
        (fun _ w'' h' => hnodes _ _ w'' h') ?_
      rintro _ w'' ⟨i, hi, h'⟩
      exact ⟨.children _ _ i 0, Or.inl hi, h'⟩
    · refine hnodes (mathFloor ((w'.rand (w'.randPos + 1)).val * 6)) _ _ ?_
      have hz : (mathFloor ((w'.rand (w'.randPos + 1)).val * 6)).toNat = 0 :=
        Int.toNat_eq_zero.2 (not_lt.1 hnpos)
      rw [hz]
      exact hc
  · have hlt : i < 5 := by omega
    simp only [show i ≤ 5 from by omega, if_true] at hI
    simp only [show i + 1 ≤ 5 from by omega, if_true]
    obtain ⟨step, hstep⟩ : ∃ step, steps[i]? = some step := by
      interval_cases i <;> exact ⟨_, rfl⟩
    have hne : ¬ i = 6 - 1 := by omega
    have hbody : simulateStep analysisId i = (do
        sleep 2000
        let _ ← sql (.updateProgress step.progress analysisId)
        pure ()) := by
      have hlen : steps.length = 6 := rfl
      simp only [simulateStep, hlen, if_neg hne, hstep]
    rw [hbody]
    simp only [wp_bind, wp_sleep, wp_sql, wp_pure]
    exact ⟨fun _ => ⟨.stage i, trivial, hI⟩, fun _ => hstage i step _ _ _ hlt hstep hI⟩

/-! ## The handler `POST`, case by case -/

/-- The test of `endsWith` succeeds exactly on the strings that are some stem
followed by the suffix. -/
theorem endsWith_iff (s suffix : String) :
    endsWith s suffix = true ↔ ∃ stem : String, s = stem ++ suffix := by
  unfold endsWith
  rw [List.isSuffixOf_iff_suffix]
  constructor
  · rintro ⟨t, ht⟩
    exact ⟨⟨t⟩, String.ext (by simp [ht])⟩
  · rintro ⟨stem, rfl⟩
    exact ⟨stem.data, by simp⟩

/-- An unreadable body is answered with 500 and nothing is written. -/
theorem POST_unreadable (w : World) :
    (POST ⟨none⟩).run w = (.ok ⟨500, .failure "Failed to create analysis"⟩, w) := rfl

/-- A form without a `file` entry is answered with 400 and nothing is written. -/
theorem POST_no_file (form : List (String × FormEntry)) (w : World)
    (h : formGet form "file" = none) :
    (POST ⟨some form⟩).run w = (.ok ⟨400, .failure "No file provided"⟩, w) := by
  simp [POST, tryCatch, Async.run, Request.formData, h, isFalsy, bind, pure]

/-- A `file` entry that is a string is answered with 400 when the string is
empty and with 500 otherwise; nothing is written. -/
theorem POST_text (form : List (String × FormEntry)) (w : World) (value : String)
    (h : formGet form "file" = some (.text value)) :
    (POST ⟨some form⟩).run w =
      (.ok (if value.isEmpty then ⟨400, .failure "No file provided"⟩
        else ⟨500, .failure "Failed to create analysis"⟩), w) := by
  by_cases hv : value.isEmpty <;>
    simp [POST, tryCatch, Async.run, Request.formData, h, isFalsy, bind, pure, hv, throwJs]

/-- A file whose name lacks the suffix is answered with 400 and nothing is written. -/
theorem POST_wrong_name (form : List (String × FormEntry)) (w : World) (name : String)
    (size : ℕ) (h : formGet form "file" = some (.file name size))
    (hname : endsWith name ".pcap" = false) :
    (POST ⟨some form⟩).run w = (.ok ⟨400, .failure "Only .pcap files are supported"⟩, w) := by
  simp [POST, tryCatch, Async.run, Request.formData, h, isFalsy, bind, pure, hname]

/-- A well-named file whose insert fails is answered with 500; the store, the
trace and the started sequences are as before. -/
theorem POST_insert_failed (form : List (String × FormEntry)) (w : World) (name : String)
    (size : ℕ) (h : formGet form "file" = some (.file name size))
    (hname : endsWith name ".pcap" = true) (hfail : w.failAt w.calls = true) :
    (POST ⟨some form⟩).run w =
      (.ok ⟨500, .failure "Failed to create analysis"⟩, { w with calls := w.calls + 1 }) := by
  simp [POST, tryCatch, Async.run, Request.formData, h, isFalsy, bind, pure, hname, sql, hfail]

/-- A well-named file whose insert succeeds is answered with the new row. -/
theorem POST_accepted (form : List (String × FormEntry)) (w : World) (name : String)
    (size : ℕ) (h : formGet form "file" = some (.file name size))
    (hname : endsWith name ".pcap" = true) (hok : w.failAt w.calls = false) :
    (POST ⟨some form⟩).run w =
      (.ok ⟨200, .created (uploadedRow w name size).returning⟩, uploadedWorld w name size) := by
  simp [POST, tryCatch, Async.run, Request.formData, h, isFalsy, bind, pure, hname, sql, hok,
    Store.exec, startBackground, uploadedRow, uploadedWorld, Store.write, Analysis.returning,
    Store.newAnalysis]

/-! ## Properties of the upload handler -/

/-- Claim C9. A `POST` whose form has no `file` entry, or whose file has a name
that is not some stem followed by exactly `.pcap`, is answered with status 400
and `success: false`; the handler issues no store call, so no row is inserted
into `analyses`, and it starts no background sequence. -/
theorem post_rejects_missing_or_misnamed_file (form : List (String × FormEntry)) (w : World)
    (h : formGet form "file" = none ∨
      ∃ name size, formGet form "file" = some (.file name size) ∧
        ¬ ∃ stem : String, name = stem ++ ".pcap") :
    ∃ response : Response,
      ((POST ⟨some form⟩).run w).1 = .ok response ∧
      response.status = 400 ∧ response.body.success = false ∧
      ((POST ⟨some form⟩).run w).2.store = w.store ∧
      ((POST ⟨some form⟩).run w).2.trace = w.trace ∧
      ((POST ⟨some form⟩).run w).2.calls = w.calls ∧
      ((POST ⟨some form⟩).run w).2.started = w.started := by
  rcases h with h | ⟨name, size, h, hname⟩
  · rw [POST_no_file form w h]
    exact ⟨_, rfl, rfl, rfl, rfl, rfl, rfl, rfl⟩
  · have hends : endsWith name ".pcap" = false := by
      cases hb : endsWith name ".pcap"
      · rfl
      · exact absurd ((endsWith_iff _ _).1 hb) hname
    rw [POST_wrong_name form w name size h hends]
    exact ⟨_, rfl, rfl, rfl, rfl, rfl, rfl, rfl⟩

/-- Witness for C9: the upload of `capture1.PCAP` into the empty store is
rejected, the suffix being compared with its case. -/
theorem post_rejects_missing_or_misnamed_file_witness :
    (formGet upperCaseForm "file" = none ∨
      ∃ name size, formGet upperCaseForm "file" = some (.file name size) ∧
        ¬ ∃ stem : String, name = stem ++ ".pcap") ∧
    ∃ response : Response,
      ((POST ⟨some upperCaseForm⟩).run emptyWorld).1 = .ok response ∧
      response.status = 400 ∧ response.body.success = false ∧
      ((POST ⟨some upperCaseForm⟩).run emptyWorld).2.store = emptyWorld.store ∧
      ((POST ⟨some upperCaseForm⟩).run emptyWorld).2.trace = emptyWorld.trace ∧
      ((POST ⟨some upperCaseForm⟩).run emptyWorld).2.calls = emptyWorld.calls ∧
      ((POST ⟨some upperCaseForm⟩).run emptyWorld).2.started = emptyWorld.started :=
  have h : formGet upperCaseForm "file" = none ∨
      ∃ name size, formGet upperCaseForm "file" = some (.file name size) ∧
        ¬ ∃ stem : String, name = stem ++ ".pcap" :=
    Or.inr ⟨"capture1.PCAP", 1024, rfl, fun hs => by
      have := (endsWith_iff "capture1.PCAP" ".pcap").2 hs
      revert this
      decide⟩
  ⟨h, post_rejects_missing_or_misnamed_file upperCaseForm emptyWorld h⟩

/-- Claim C10. A `POST` carrying a file whose name ends in `.pcap`, when the insert
succeeds, appends exactly one row to `analyses` (the file's name and size,
status `processing`, progress 0, no summary), issues that insert and no other
write, starts the background sequence once, for the identifier of the new row,
and answers 200 with `success: true` and the inserted row; the answer is the
same whatever the later draws and the later store failures are. -/
theorem post_creates_processing_row (form : List (String × FormEntry)) (w : World)
    (name : String) (size : ℕ) (h : formGet form "file" = some (.file name size))
    (hname : ∃ stem : String, name = stem ++ ".pcap") (hok : w.failAt w.calls = false) :
    ((POST ⟨some form⟩).run w).2.store.analyses = w.store.analyses ++
      [{ id := w.store.nextId, filename := name, file_size := size, upload_timestamp := w.now,
         status := "processing", progress := 0, trust_score := none, attacks_detected := none,
         anomaly_score := none, total_packets := none, total_nodes := none,
         analysis_duration := none, completed_at := none }] ∧
    (w.writesSince ((POST ⟨some form⟩).run w).2).map (·.stmt) =
      [.insertAnalysis name size "processing" 0] ∧
    ((POST ⟨some form⟩).run w).2.started = w.started ++ [w.store.nextId] ∧
    ((POST ⟨some form⟩).run w).1 = .ok
      { status := 200,
        body := .created { id := w.store.nextId, filename := name, file_size := size,
                           upload_timestamp := w.now, status := "processing", progress := 0 } } ∧
    (Body.created { id := w.store.nextId, filename := name, file_size := size,
                    upload_timestamp := w.now, status := "processing",
                    progress := 0 }).success = true ∧
    ∀ (rand : ℕ → Draw) (failAt : ℕ → Bool), failAt w.calls = false →
      ((POST ⟨some form⟩).run { w with rand := rand, failAt := failAt }).1 =
        ((POST ⟨some form⟩).run w).1 := by
  have hends : endsWith name ".pcap" = true := (endsWith_iff _ _).2 hname
  rw [POST_accepted form w name size h hends hok]
  refine ⟨rfl, ?_, rfl, rfl, rfl, ?_⟩
  · simp [World.writesSince, uploadedWorld, Store.write]
  · intro rand failAt hf
    rw [POST_accepted form { w with rand := rand, failAt := failAt } name size h hends hf]
    rfl

/-- Witness for C10: the upload of `capture1.pcap` into the empty store. -/
theorem post_creates_processing_row_witness :
    formGet captureForm "file" = some (.file "capture1.pcap" 1024) ∧
    (∃ stem : String, "capture1.pcap" = stem ++ ".pcap") ∧
    emptyWorld.failAt emptyWorld.calls = false ∧
    ((POST ⟨some captureForm⟩).run emptyWorld).2.store.analyses =
      [{ id := 1, filename := "capture1.pcap", file_size := 1024,
         upload_timestamp := 1700000000000, status := "processing", progress := 0,
         trust_score := none, attacks_detected := none, anomaly_score := none,
         total_packets := none, total_nodes := none, analysis_duration := none,
         completed_at := none }] ∧
    (emptyWorld.writesSince ((POST ⟨some captureForm⟩).run emptyWorld).2).map (·.stmt) =
      [.insertAnalysis "capture1.pcap" 1024 "processing" 0] ∧
    ((POST ⟨some captureForm⟩).run emptyWorld).2.started = [1] ∧
    ((POST ⟨some captureForm⟩).run emptyWorld).1 = .ok
      { status := 200,
        body := .created { id := 1, filename := "capture1.pcap", file_size := 1024,
                           upload_timestamp := 1700000000000, status := "processing",
                           progress := 0 } } :=
  have hname : ∃ stem : String, "capture1.pcap" = stem ++ ".pcap" := ⟨"capture1", by decide⟩
  have h := post_creates_processing_row captureForm emptyWorld "capture1.pcap" 1024 rfl
    hname rfl
  ⟨rfl, hname, rfl, h.1, h.2.1, h.2.2.1, h.2.2.2.1⟩

/-! ## Evaluating runs -/

theorem run_bind {α β : Type} (m : Async β) (f : β → Async α) (w : World) :
    (m >>= f).run w = match m.run w with
      | (.ok a, w') => (f a).run w'
      | (.error e, w') => (.error e, w') := rfl

theorem run_pure {α : Type} (a : α) (w : World) : (pure a : Async α).run w = (.ok a, w) := rfl

theorem run_mathRandom (w : World) :
    mathRandom.run w = (.ok (w.rand w.randPos), { w with randPos := w.randPos + 1 }) := rfl

theorem run_dateNow (w : World) : dateNow.run w = (.ok w.now, w) := rfl

theorem run_sleep (ms : ℕ) (w : World) :
    (sleep ms).run w = (.ok (), { w with now := w.now + ms }) := rfl

theorem run_sql (stmt : Stmt) (w : World) :
    (sql stmt).run w = if w.failAt w.calls then
        (.error (.store w.calls), { w with calls := w.calls + 1 })
      else
        (.ok (w.store.exec w.now stmt).2,
          { w with store := (w.store.exec w.now stmt).1, calls := w.calls + 1,
                   trace := w.trace ++ [⟨stmt, w.store, (w.store.exec w.now stmt).1⟩] }) := rfl

/-- The run of `generateSampleDroneNodes` for one node in the empty store. -/
theorem generateSampleDroneNodes_sample :
    ((generateSampleDroneNodes 1 1).run emptyWorld).1 = .ok () ∧
    ((generateSampleDroneNodes 1 1).run emptyWorld).2.store.drone_nodes = [sampleNode] := by
  simp [generateSampleDroneNodes, forLoop, run_bind, run_pure, run_mathRandom, run_dateNow,
    run_sql, emptyWorld, World.start, emptyStore, halfDraws, noFailure, halfDraw, Store.exec,
    sampleNode]
  refine ⟨by decide, ?_, ?_, ?_, ?_, ?_⟩
  all_goals norm_num [droneStatus, mathFloor, Int.floor_eq_iff]

theorem sampleNode_mem :
    sampleNode ∈ emptyWorld.nodesSince ((generateSampleDroneNodes 1 1).run emptyWorld).2 := by
  rw [World.nodesSince, generateSampleDroneNodes_sample.2]
  simp [emptyWorld, World.start, emptyStore]

/-! ## Properties of the generated drone nodes -/

/-- Every row that a run of `generateSampleDroneNodes` appends to `drone_nodes`,
whether the run returns or is cut short by a store failure, satisfies any
property that holds of the rows built by the loop body. -/
theorem generateSampleDroneNodes_rows (Φ : DroneNode → Prop) (analysisId : ℕ)
    (hΦ : ∀ (i : ℕ) (now : ℤ) (d₁ d₂ d₃ d₄ d₅ d₆ d₇ : Draw),
      Φ (droneNodeRow analysisId i now d₁ d₂ d₃ d₄ d₅ d₆ d₇))
    (totalNodes : ℤ) (w : World) :
    ∀ row ∈ w.nodesSince ((generateSampleDroneNodes analysisId totalNodes).run w).2, Φ row := by
  have key := generateSampleDroneNodes_rule analysisId totalNodes
    (fun _ s _ => ∃ ext, s.drone_nodes = w.store.drone_nodes ++ ext ∧ ∀ r ∈ ext, Φ r)
    (by
      rintro j s tr now d₁ d₂ d₃ d₄ d₅ d₆ d₇ - ⟨ext, hext, hall⟩
      refine ⟨ext ++ [droneNodeRow analysisId (j + 1) now d₁ d₂ d₃ d₄ d₅ d₆ d₇], ?_, ?_⟩
      · simp [Store.exec, hext]
      · intro r hr
        rcases List.mem_append.1 hr with h | h
        · exact hall r h
        · rw [List.mem_singleton.1 h]; exact hΦ _ _ _ _ _ _ _ _ _)
    w ⟨[], by simp, by simp⟩
  obtain ⟨ext, hext, hall⟩ := wp_final (wp_mono key (fun _ _ h => h) (fun _ _ ⟨_, _, h⟩ => h))
  intro row hrow
  simp only [World.nodesSince, hext, List.drop_left] at hrow
  exact hall row hrow

/-- Claim C7. The status stored with every drone node inserted by
`generateSampleDroneNodes` follows from the stored trust score by the threshold
rule: `trusted` above 0.8, `suspicious` above 0.5 and up to 0.8, `malicious`
otherwise. -/
theorem node_status_follows_thresholds (analysisId : ℕ) (totalNodes : ℤ) (w : World)
    (row : DroneNode)
    (hrow : row ∈ w.nodesSince ((generateSampleDroneNodes analysisId totalNodes).run w).2) :
    (0.8 < row.trust_score → row.status = "trusted") ∧
    (0.5 < row.trust_score ∧ row.trust_score ≤ 0.8 → row.status = "suspicious") ∧
    (row.trust_score ≤ 0.5 → row.status = "malicious") := by
  refine generateSampleDroneNodes_rows
    (fun row => (0.8 < row.trust_score → row.status = "trusted") ∧
      (0.5 < row.trust_score ∧ row.trust_score ≤ 0.8 → row.status = "suspicious") ∧
      (row.trust_score ≤ 0.5 → row.status = "malicious"))
    analysisId ?_ totalNodes w row hrow
  intro i now d₁ d₂ d₃ d₄ d₅ d₆ d₇
  simp only [droneNodeRow, droneStatus]
  refine ⟨fun h => by simp [h], fun h => ?_, fun h => ?_⟩
  · rw [if_neg (not_lt.2 h.2), if_pos h.1]
  · have h8 : ¬ (0.6 + d₁.val * 0.4 > 0.8) := by
      have : (0.5 : ℚ) < 0.8 := by norm_num
      exact not_lt.2 (le_trans h this.le)
    rw [if_neg h8, if_neg (not_lt.2 h)]

/-- Witness for C7: the node generated from the draw `1/2` has trust score 0.8
and is `suspicious`. -/
theorem node_status_follows_thresholds_witness :
    sampleNode ∈ emptyWorld.nodesSince ((generateSampleDroneNodes 1 1).run emptyWorld).2 ∧
    (0.5 < sampleNode.trust_score ∧ sampleNode.trust_score ≤ 0.8 →
      sampleNode.status = "suspicious") :=
  ⟨sampleNode_mem, (node_status_follows_thresholds 1 1 emptyWorld sampleNode sampleNode_mem).2.1⟩

/-- Claim C8. For every drone node inserted by `generateSampleDroneNodes` the three
packet counts are non-negative integers, and neither the received nor the
dropped count exceeds the sent count. -/
theorem node_packet_counts_bounded (analysisId : ℕ) (totalNodes : ℤ) (w : World)
    (row : DroneNode)
    (hrow : row ∈ w.nodesSince ((generateSampleDroneNodes analysisId totalNodes).run w).2) :
    0 ≤ row.packets_sent ∧ 0 ≤ row.packets_received ∧ 0 ≤ row.packets_dropped ∧
    row.packets_received ≤ row.packets_sent ∧ row.packets_dropped ≤ row.packets_sent := by
  refine generateSampleDroneNodes_rows
    (fun row => 0 ≤ row.packets_sent ∧ 0 ≤ row.packets_received ∧ 0 ≤ row.packets_dropped ∧
      row.packets_received ≤ row.packets_sent ∧ row.packets_dropped ≤ row.packets_sent)
    analysisId ?_ totalNodes w row hrow
  intro i now d₁ d₂ d₃ d₄ d₅ d₆ d₇
  simp only [droneNodeRow, mathFloor]
  have h5 := d₅.nonneg
  have h6 := d₆.nonneg
  have h6' := d₆.lt_one
  have h7 := d₇.nonneg
  have h7' := d₇.lt_one
  have hs : (0 : ℤ) ≤ ⌊d₅.val * 2000⌋ := Int.floor_nonneg.2 (by positivity)
  have hsq : (0 : ℚ) ≤ (⌊d₅.val * 2000⌋ : ℤ) := by exact_mod_cast hs
  have hr : (⌊d₅.val * 2000⌋ : ℚ) * (0.8 + d₆.val * 0.2) ≤ (⌊d₅.val * 2000⌋ : ℤ) := by
    apply mul_le_of_le_one_right hsq
    norm_num
    linarith
  have hd : (⌊d₅.val * 2000⌋ : ℚ) * d₇.val * 0.1 ≤ (⌊d₅.val * 2000⌋ : ℤ) := by
    rw [mul_assoc]
    apply mul_le_of_le_one_right hsq
    norm_num
    linarith
  refine ⟨hs, Int.floor_nonneg.2 ?_, Int.floor_nonneg.2 ?_, ?_, ?_⟩
  · apply mul_nonneg hsq
    norm_num
    linarith
  · apply mul_nonneg (mul_nonneg hsq h7)
    norm_num
  · simpa using Int.floor_mono hr
  · simpa using Int.floor_mono hd

/-- Witness for C8: the node generated from the draws `1/2` sent 1000 packets,
received 900 and dropped 50. -/
theorem node_packet_counts_bounded_witness :
    sampleNode ∈ emptyWorld.nodesSince ((generateSampleDroneNodes 1 1).run emptyWorld).2 ∧
    (0 ≤ sampleNode.packets_sent ∧ 0 ≤ sampleNode.packets_received ∧
      0 ≤ sampleNode.packets_dropped ∧ sampleNode.packets_received ≤ sampleNode.packets_sent ∧
      sampleNode.packets_dropped ≤ sampleNode.packets_sent) :=
  ⟨sampleNode_mem, node_packet_counts_bounded 1 1 emptyWorld sampleNode sampleNode_mem⟩

/-! ## The outcome of `POST`, summarised -/

/-- Either `POST` leaves the store, the trace and the started sequences as they
were, or it accepted a file and left the world of an accepted upload. -/
theorem POST_cases (request : Request) (w : World) :
    (((POST request).run w).2.store = w.store ∧ ((POST request).run w).2.trace = w.trace ∧
      ((POST request).run w).2.started = w.started) ∨
    ∃ name size, ((POST request).run w).2 = uploadedWorld w name size := by
  rcases request with ⟨_ | form⟩
  · left; rw [POST_unreadable]; exact ⟨rfl, rfl, rfl⟩
  · rcases h : formGet form "file" with _ | ⟨name, size⟩ | value
    · left; rw [POST_no_file form w h]; exact ⟨rfl, rfl, rfl⟩
    · cases hname : endsWith name ".pcap"
      · left; rw [POST_wrong_name form w name size h hname]; exact ⟨rfl, rfl, rfl⟩
      · cases hf : w.failAt w.calls
        · right; exact ⟨name, size, by rw [POST_accepted form w name size h hname hf]⟩
        · left; rw [POST_insert_failed form w name size h hname hf]; exact ⟨rfl, rfl, rfl⟩
    · left; rw [POST_text form w value h]; exact ⟨rfl, rfl, rfl⟩

/-! ## The invariant of analysis rows -/

theorem processing_ne_completed : ("processing" : String) ≠ "completed" := by decide

/-- A row in processing with progress other than 100 satisfies the invariant. -/
theorem Analysis.completedIff_of_processing (a : Analysis) (hs : a.status = "processing")
    (hp : a.progress ≠ 100) : a.CompletedIff := by
  unfold Analysis.CompletedIff
  constructor
  · intro h; rw [hs] at h; exact absurd h processing_ne_completed
  · intro h; exact absurd h.1 hp

/-- The stage targets before the last are below 100. -/
theorem stage_progress_lt (k : ℕ) (step : Step) (hk : k < 5) (h : steps[k]? = some step) :
    step.progress < 100 := by
  interval_cases k <;> simp [steps] at h <;> subst h <;> norm_num

/-- The sequence keeps the invariant of analysis rows in every store state it
produces, provided the rows it updates are in processing when it starts. -/
theorem simulate_keeps_consistent (analysisId : ℕ) (w : World)
    (htrace : ∀ wr ∈ w.trace, wr.after.Consistent) (hstore : w.store.Consistent)
    (hrow : ∀ a ∈ w.store.analyses, a.id = analysisId → a.status = "processing") :
    ∀ wr ∈ ((simulateAnalysisProcessing analysisId).run w).2.trace, wr.after.Consistent := by
  have key := simulate_phases analysisId
    (fun ph s tr => (∀ wr ∈ tr, wr.after.Consistent) ∧ s.Consistent ∧
      match ph with
      | .stage _ => ∀ a ∈ s.analyses, a.id = analysisId → a.status = "processing"
      | .children _ _ _ _ => True)
    ?_ ?_ ?_ ?_ w ⟨htrace, hstore, hrow⟩
  · exact (wp_final (wp_mono key (fun _ _ ⟨_, _, h⟩ => h.1) (fun _ _ ⟨_, _, h⟩ => h.1)))
  · -- a progress update of a stage before the last
    rintro k step s tr now hk hstep ⟨htr, hs, hproc⟩
    have hlt := stage_progress_lt k step hk hstep
    have hnew : (s.exec now (.updateProgress step.progress analysisId)).1.Consistent := by
      intro a ha
      simp only [Store.exec, List.mem_map] at ha
      obtain ⟨b, hb, rfl⟩ := ha
      by_cases hid : b.id = analysisId
      · rw [if_pos hid]
        exact Analysis.completedIff_of_processing _ (hproc b hb hid) (by simpa using hlt.ne)
      · rw [if_neg hid]; exact hs b hb
    refine ⟨?_, hnew, ?_⟩
    · intro wr hwr
      rcases List.mem_append.1 hwr with h | h
      · exact htr wr h
      · rw [List.mem_singleton.1 h]; exact hnew
    · intro a ha hid
      simp only [Store.exec, List.mem_map] at ha
      obtain ⟨b, hb, rfl⟩ := ha
      by_cases hid' : b.id = analysisId
      · rw [if_pos hid']; exact hproc b hb hid'
      · rw [if_neg hid'] at hid; exact absurd hid hid'
  · -- the final update
    rintro s tr now d₁ d₂ d₃ d₄ d₅ d₆ ⟨htr, hs, -⟩
    have hnew : (s.exec now (completionStmt analysisId d₁ d₂ d₃ d₄ d₅ d₆)).1.Consistent := by
      intro a ha
      simp only [completionStmt, Store.exec, List.mem_map] at ha
      obtain ⟨b, hb, rfl⟩ := ha
      by_cases hid : b.id = analysisId
      · rw [if_pos hid]; simp [Analysis.CompletedIff]
      · rw [if_neg hid]; exact hs b hb
    refine ⟨?_, hnew, trivial⟩
    intro wr hwr
    rcases List.mem_append.1 hwr with h | h
    · exact htr wr h
    · rw [List.mem_singleton.1 h]; exact hnew
  · -- an alert insert
    rintro a n i s tr now d₁ d₂ d₃ d₄ d₅ d₆ - ⟨htr, hs, -⟩
    refine ⟨?_, hs, trivial⟩
    intro wr hwr
    rcases List.mem_append.1 hwr with h | h
    · exact htr wr h
    · rw [List.mem_singleton.1 h]; exact hs
  · -- a node insert
    rintro a n j s tr now d₁ d₂ d₃ d₄ d₅ d₆ d₇ - ⟨htr, hs, -⟩
    refine ⟨?_, hs, trivial⟩
    intro wr hwr
    rcases List.mem_append.1 hwr with h | h
    · exact htr wr h
    · rw [List.mem_singleton.1 h]; exact hs

/-- The store of an accepted upload: the old rows and the new row in processing. -/
theorem uploadedWorld_analyses (w : World) (name : String) (size : ℕ) :
    (uploadedWorld w name size).store.analyses = w.store.analyses ++ [uploadedRow w name size] :=
  rfl

/-- Claim C1. Start from any store whose rows satisfy the invariant and whose serial
counter is fresh, let `POST` handle any request, and let the sequence it
started run under any draws and any failure of store calls.  In every store
state that a write of the handler or of the sequence leaves, each analysis row
has status `completed` if and only if its progress is 100 and its six summary
fields are non-null. -/
theorem completed_iff_progress_100_and_summary (store : Store) (rand : ℕ → Draw)
    (failAt : ℕ → Bool) (now : ℤ) (request : Request)
    (hcons : store.Consistent) (hserial : store.SerialFresh) (analysisId : ℕ)
    (hid : analysisId ∈ ((POST request).run (World.start store rand failAt now)).2.started)
    (wr : Write)
    (hwr : wr ∈ ((simulateAnalysisProcessing analysisId).run
      ((POST request).run (World.start store rand failAt now)).2).2.trace) :
    wr.after.Consistent := by
  rcases POST_cases request (World.start store rand failAt now) with ⟨-, -, hst⟩ | ⟨name, size, hw⟩
  · rw [hst] at hid; simp [World.start] at hid
  · rw [hw] at hid hwr
    have hidv : analysisId = store.nextId := by
      simpa [uploadedWorld, World.start] using hid
    subst hidv
    have hnewrow : (uploadedRow (World.start store rand failAt now) name size).CompletedIff :=
      Analysis.completedIff_of_processing _ rfl (by simp [uploadedRow, Store.newAnalysis])
    have hstore : (uploadedWorld (World.start store rand failAt now) name size).store.Consistent := by
      intro a ha
      rw [uploadedWorld_analyses] at ha
      rcases List.mem_append.1 ha with h | h
      · exact hcons a h
      · rw [List.mem_singleton.1 h]; exact hnewrow
    refine simulate_keeps_consistent store.nextId _ ?_ hstore ?_ wr hwr
    · intro wr' hwr'
      have : wr' = (World.start store rand failAt now).store.write now
          (.insertAnalysis name size "processing" 0) := by
        simpa [uploadedWorld, World.start] using hwr'
      rw [this]
      exact hstore
    · intro a ha hida
      rw [uploadedWorld_analyses] at ha
      rcases List.mem_append.1 ha with h | h
      · have := hserial a h
        omega
      · rw [List.mem_singleton.1 h]; rfl

/-- The upload of `capture1.pcap` into the empty store is accepted whenever the
first store call succeeds. -/
theorem capture_upload (rand : ℕ → Draw) (failAt : ℕ → Bool) (now : ℤ)
    (h : failAt 0 = false) :
    (POST captureRequest).run (World.start emptyStore rand failAt now) =
      (.ok ⟨200, .created (uploadedRow (World.start emptyStore rand failAt now)
          "capture1.pcap" 1024).returning⟩,
        uploadedWorld (World.start emptyStore rand failAt now) "capture1.pcap" 1024) :=
  POST_accepted _ _ "capture1.pcap" 1024 rfl (by decide) h

/-- The trace of the upload of `capture1.pcap` and its sequence when only the
first two store calls succeed: the insert and the first progress update. -/
theorem capture_trace_twoCalls :
    ((simulateAnalysisProcessing 1).run
      ((POST captureRequest).run
        (World.start emptyStore halfDraws twoCalls 1700000000000)).2).2.trace =
      [uploadWrite, firstStageWrite] := by
  rw [capture_upload _ _ _ rfl]
  simp [simulateAnalysisProcessing, forLoop, simulateStep, steps, run_bind, run_pure, run_sleep,
    run_sql, uploadedWorld, World.start, twoCalls, emptyStore, uploadWrite, firstStageWrite,
    Store.write, Store.exec, Store.newAnalysis]

/-- Witness for C1: the upload of `capture1.pcap` into the empty store, with the
store failing from the third call on; the state left by the first progress
update satisfies the invariant. -/
theorem completed_iff_progress_100_and_summary_witness :
    emptyStore.Consistent ∧ emptyStore.SerialFresh ∧
    1 ∈ ((POST captureRequest).run
      (World.start emptyStore halfDraws twoCalls 1700000000000)).2.started ∧
    firstStageWrite ∈ ((simulateAnalysisProcessing 1).run
      ((POST captureRequest).run
        (World.start emptyStore halfDraws twoCalls 1700000000000)).2).2.trace ∧
    firstStageWrite.after.Consistent :=
  have h₁ : emptyStore.Consistent := fun a ha => by cases ha
  have h₂ : emptyStore.SerialFresh := fun a ha => by cases ha
  have h₃ : 1 ∈ ((POST captureRequest).run
      (World.start emptyStore halfDraws twoCalls 1700000000000)).2.started := by
    rw [capture_upload _ _ _ rfl]; simp [uploadedWorld, World.start, emptyStore]
  have h₄ : firstStageWrite ∈ ((simulateAnalysisProcessing 1).run
      ((POST captureRequest).run
        (World.start emptyStore halfDraws twoCalls 1700000000000)).2).2.trace := by
    rw [capture_trace_twoCalls]; simp
  ⟨h₁, h₂, h₃, h₄,
    completed_iff_progress_100_and_summary emptyStore halfDraws twoCalls 1700000000000
      captureRequest h₁ h₂ 1 h₃ firstStageWrite h₄⟩

/-! ## Progress over the writes of a sequence -/

theorem find_map_progress (rows : List Analysis) (id : ℕ) (f : Analysis → Analysis)
    (hid : ∀ a, (f a).id = a.id) :
    (rows.map (fun a => if a.id = id then f a else a)).find? (fun a => a.id = id) =
      (rows.find? (fun a => a.id = id)).map f := by
  induction rows with
  | nil => rfl
  | cons a rows ih =>
    by_cases h : a.id = id
    · simp [List.find?_cons, h, hid]
    · simp [List.find?_cons, h, ih]

/-- A progress update of an existing row sets the progress read for its identifier. -/
theorem progressOf_updateProgress (s : Store) (now : ℤ) (p : ℤ) (id : ℕ) (b : ℤ)
    (h : s.progressOf id = some b) :
    (s.exec now (.updateProgress p id)).1.progressOf id = some p := by
  unfold Store.progressOf at *
  simp only [Store.exec]
  rw [find_map_progress _ _ (fun a => { a with progress := p }) (fun _ => rfl)]
  cases hf : s.analyses.find? (fun a => a.id = id) with
  | none => simp [hf] at h
  | some a => rfl

/-- The final update of an existing row sets the progress read for its identifier. -/
theorem progressOf_completion (s : Store) (now : ℤ) (id : ℕ) (d₁ d₂ d₃ d₄ d₅ d₆ : Draw)
    (b : ℤ) (h : s.progressOf id = some b) :
    (s.exec now (completionStmt id d₁ d₂ d₃ d₄ d₅ d₆)).1.progressOf id = some 100 := by
  unfold Store.progressOf at *
  simp only [Store.exec, completionStmt]
  rw [find_map_progress _ _
    (fun a =>
      { a with
        progress := 100, status := "completed", trust_score := some (0.65 + d₁.val * 0.3),
        attacks_detected := some (mathFloor (d₂.val * 6)), anomaly_score := some (d₃.val * 0.5),
        total_packets := some (5000 + mathFloor (d₄.val * 15000)),
        total_nodes := some (8 + mathFloor (d₅.val * 12)),
        analysis_duration := some (25 + mathFloor (d₆.val * 40)), completed_at := some now })
    (fun _ => rfl)]
  cases hf : s.analyses.find? (fun a => a.id = id) with
  | none => simp [hf] at h
  | some a => rfl

/-- The successive stage targets do not decrease. -/
theorem stage_progress_mono (k : ℕ) (step next : Step) (h : steps[k]? = some step)
    (h' : steps[k + 1]? = some next) : step.progress ≤ next.progress := by
  have hk : k < 5 := by
    by_contra hk
    have : steps.length ≤ k + 1 := by simp [steps]; omega
    rw [List.getElem?_eq_none this] at h'
    cases h'
  interval_cases k <;> simp [steps] at h h' <;> subst h <;> subst h' <;> norm_num

/-- One more progress value at the end of a non-decreasing history. -/
theorem history_snoc (tr : List Write) (wr : Write) (id : ℕ) (vs : List ℤ) (p q : ℤ)
    (hmap : tr.map (fun wr => wr.after.progressOf id) = (vs ++ [p]).map some)
    (hchain : (vs ++ [p]).Chain' (· ≤ ·)) (hhead : (vs ++ [p]).head? = some 0)
    (hafter : wr.after.progressOf id = some q) (hpq : p ≤ q) :
    (tr ++ [wr]).map (fun wr => wr.after.progressOf id) = ((vs ++ [p]) ++ [q]).map some ∧
    ((vs ++ [p]) ++ [q]).Chain' (· ≤ ·) ∧ ((vs ++ [p]) ++ [q]).head? = some 0 := by
  refine ⟨by simp [hmap, hafter], ?_, ?_⟩
  · rw [List.append_assoc, List.singleton_append, List.chain'_split]
    exact ⟨hchain, by simp [hpq]⟩
  · rw [List.head?_append_of_ne_nil _ (by simp)]
    exact hhead

/-- The progress of the updated row never decreases over the writes of the
sequence, provided the row exists with some progress not above the first stage
target when the sequence starts. -/
theorem simulate_progress_history (analysisId : ℕ) (w : World) (vs : List ℤ) (p : ℤ)
    (hmap : w.trace.map (fun wr => wr.after.progressOf analysisId) = (vs ++ [p]).map some)
    (hchain : (vs ++ [p]).Chain' (· ≤ ·)) (hhead : (vs ++ [p]).head? = some 0)
    (hcur : w.store.progressOf analysisId = some p) (hp : p ≤ 20)
    (hwrites : ∀ wr ∈ w.trace.tail, ∃ b a, wr.before.progressOf analysisId = some b ∧
      wr.after.progressOf analysisId = some a ∧ b ≤ a) :
    (∃ values : List ℤ,
      ((simulateAnalysisProcessing analysisId).run w).2.trace.map
        (fun wr => wr.after.progressOf analysisId) = values.map some ∧
      values.head? = some 0 ∧ values.Chain' (· ≤ ·)) ∧
    ∀ wr ∈ ((simulateAnalysisProcessing analysisId).run w).2.trace.tail,
      ∃ b a, wr.before.progressOf analysisId = some b ∧
        wr.after.progressOf analysisId = some a ∧ b ≤ a := by
  have key := simulate_phases analysisId
    (fun ph s tr => ∃ (vs : List ℤ) (p : ℤ),
      tr.map (fun wr => wr.after.progressOf analysisId) = (vs ++ [p]).map some ∧
      (vs ++ [p]).Chain' (· ≤ ·) ∧ (vs ++ [p]).head? = some 0 ∧
      s.progressOf analysisId = some p ∧
      (∀ wr ∈ tr.tail, ∃ b a, wr.before.progressOf analysisId = some b ∧
        wr.after.progressOf analysisId = some a ∧ b ≤ a) ∧
      match ph with
      | .stage k => ∀ step, steps[k]? = some step → p ≤ step.progress
      | .children _ _ _ _ => True)
    ?_ ?_ ?_ ?_ w ⟨vs, p, hmap, hchain, hhead, hcur, hwrites, ?_⟩
  · have hfin := wp_final (wp_mono key
      (R := fun _ w' => (∃ values : List ℤ,
        w'.trace.map (fun wr => wr.after.progressOf analysisId) = values.map some ∧
        values.head? = some 0 ∧ values.Chain' (· ≤ ·)) ∧
        ∀ wr ∈ w'.trace.tail, ∃ b a, wr.before.progressOf analysisId = some b ∧
          wr.after.progressOf analysisId = some a ∧ b ≤ a)
      (F := fun _ w' => (∃ values : List ℤ,
        w'.trace.map (fun wr => wr.after.progressOf analysisId) = values.map some ∧
        values.head? = some 0 ∧ values.Chain' (· ≤ ·)) ∧
        ∀ wr ∈ w'.trace.tail, ∃ b a, wr.before.progressOf analysisId = some b ∧
          wr.after.progressOf analysisId = some a ∧ b ≤ a)
      ?_ ?_)
    · exact hfin
    · rintro _ w' ⟨_, _, vs', p', h1, h2, h3, -, h5, -⟩
      exact ⟨⟨_, h1, h3, h2⟩, h5⟩
    · rintro _ w' ⟨_, _, vs', p', h1, h2, h3, -, h5, -⟩
      exact ⟨⟨_, h1, h3, h2⟩, h5⟩
  · -- a progress update of a stage before the last
    rintro k step s tr now hk hstep ⟨vs', p', h1, h2, h3, h4, h5, h6⟩
    have hafter := progressOf_updateProgress s now step.progress analysisId p' h4
    have hle : p' ≤ step.progress := h6 step hstep
    obtain ⟨g1, g2, g3⟩ := history_snoc tr (s.write now (.updateProgress step.progress analysisId))
      analysisId vs' p' step.progress h1 h2 h3 hafter hle
    refine ⟨vs' ++ [p'], step.progress, g1, g2, g3, hafter, ?_, ?_⟩
    · have hne : tr ≠ [] := by
        intro h; rw [h] at h1; simp at h1
      rw [List.tail_append_of_ne_nil hne]
      intro wr hwr
      rcases List.mem_append.1 hwr with h | h
      · exact h5 wr h
      · rw [List.mem_singleton.1 h]; exact ⟨p', step.progress, h4, hafter, hle⟩
    · intro next hnext
      exact stage_progress_mono k step next hstep hnext
  · -- the final update
    rintro s tr now d₁ d₂ d₃ d₄ d₅ d₆ ⟨vs', p', h1, h2, h3, h4, h5, h6⟩
    have hafter := progressOf_completion s now analysisId d₁ d₂ d₃ d₄ d₅ d₆ p' h4
    have hle : p' ≤ 100 := h6 ⟨100, "Analysis complete"⟩ rfl
    obtain ⟨g1, g2, g3⟩ := history_snoc tr (s.write now (completionStmt analysisId d₁ d₂ d₃ d₄ d₅ d₆))
      analysisId vs' p' 100 h1 h2 h3 hafter hle
    refine ⟨vs' ++ [p'], 100, g1, g2, g3, hafter, ?_, trivial⟩
    have hne : tr ≠ [] := by
      intro h; rw [h] at h1; simp at h1
    rw [List.tail_append_of_ne_nil hne]
    intro wr hwr
    rcases List.mem_append.1 hwr with h | h
    · exact h5 wr h
    · rw [List.mem_singleton.1 h]; exact ⟨p', 100, h4, hafter, hle⟩
  · -- an alert insert
    rintro a n i s tr now d₁ d₂ d₃ d₄ d₅ d₆ - ⟨vs', p', h1, h2, h3, h4, h5, -⟩
    have hafter : (s.exec now (.insertAlert (alertRow analysisId n now d₁ d₂ d₃ d₄ d₅ d₆))).1.progressOf
        analysisId = some p' := h4
    obtain ⟨g1, g2, g3⟩ := history_snoc tr
      (s.write now (.insertAlert (alertRow analysisId n now d₁ d₂ d₃ d₄ d₅ d₆)))
      analysisId vs' p' p' h1 h2 h3 hafter le_rfl
    refine ⟨vs' ++ [p'], p', g1, g2, g3, hafter, ?_, trivial⟩
    have hne : tr ≠ [] := by
      intro h; rw [h] at h1; simp at h1
    rw [List.tail_append_of_ne_nil hne]
    intro wr hwr
    rcases List.mem_append.1 hwr with h | h
    · exact h5 wr h
    · rw [List.mem_singleton.1 h]; exact ⟨p', p', h4, hafter, le_rfl⟩
  · -- a node insert
    rintro a n j s tr now d₁ d₂ d₃ d₄ d₅ d₆ d₇ - ⟨vs', p', h1, h2, h3, h4, h5, -⟩
    have hafter : (s.exec now (.insertDroneNode
        (droneNodeRow analysisId (j + 1) now d₁ d₂ d₃ d₄ d₅ d₆ d₇))).1.progressOf
        analysisId = some p' := h4
    obtain ⟨g1, g2, g3⟩ := history_snoc tr
      (s.write now (.insertDroneNode (droneNodeRow analysisId (j + 1) now d₁ d₂ d₃ d₄ d₅ d₆ d₇)))
      analysisId vs' p' p' h1 h2 h3 hafter le_rfl
    refine ⟨vs' ++ [p'], p', g1, g2, g3, hafter, ?_, trivial⟩
    have hne : tr ≠ [] := by
      intro h; rw [h] at h1; simp at h1
    rw [List.tail_append_of_ne_nil hne]
    intro wr hwr
    rcases List.mem_append.1 hwr with h | h
    · exact h5 wr h
    · rw [List.mem_singleton.1 h]; exact ⟨p', p', h4, hafter, le_rfl⟩
  · intro step hstep
    have : step.progress = 20 := by
      simp [steps] at hstep; subst hstep; rfl
    omega

/-- After an accepted upload into a store with a fresh serial counter, the
progress read for the new identifier is the inserted value 0. -/
theorem uploadedWorld_progressOf (w : World) (name : String) (size : ℕ)
    (hserial : w.store.SerialFresh) :
    (uploadedWorld w name size).store.progressOf w.store.nextId = some 0 := by
  unfold Store.progressOf
  rw [uploadedWorld_analyses, List.find?_append]
  have hnone : w.store.analyses.find? (fun a => decide (a.id = w.store.nextId)) = none := by
    rw [List.find?_eq_none]
    intro a ha
    have := hserial a ha
    simp only [decide_eq_true_eq]
    omega
  rw [hnone]
  simp [uploadedRow, Store.newAnalysis]

/-- Claim C2. Start from any store with a fresh serial counter, let `POST` handle any
request, and let the sequence it started run under any draws and any failure
of store calls.  The progress values that the new row takes over the store
states left by the insert and by the writes of the sequence start at the
inserted value 0 and never decrease, and each write of the sequence sets a
progress that is at least the one it replaces. -/
theorem progress_non_decreasing (store : Store) (rand : ℕ → Draw) (failAt : ℕ → Bool) (now : ℤ)
    (request : Request) (hserial : store.SerialFresh) (analysisId : ℕ)
    (hid : analysisId ∈ ((POST request).run (World.start store rand failAt now)).2.started) :
    (∃ values : List ℤ,
      ((simulateAnalysisProcessing analysisId).run
        ((POST request).run (World.start store rand failAt now)).2).2.trace.map
          (fun wr => wr.after.progressOf analysisId) = values.map some ∧
      values.head? = some 0 ∧ values.Chain' (· ≤ ·)) ∧
    ∀ wr ∈ ((simulateAnalysisProcessing analysisId).run
        ((POST request).run (World.start store rand failAt now)).2).2.trace.tail,
      ∃ b a, wr.before.progressOf analysisId = some b ∧
        wr.after.progressOf analysisId = some a ∧ b ≤ a := by
  rcases POST_cases request (World.start store rand failAt now) with ⟨-, -, hst⟩ | ⟨name, size, hw⟩
  · rw [hst] at hid; simp [World.start] at hid
  · rw [hw] at hid ⊢
    have hidv : analysisId = store.nextId := by
      simpa [uploadedWorld, World.start] using hid
    subst hidv
    have hcur := uploadedWorld_progressOf (World.start store rand failAt now) name size hserial
    refine simulate_progress_history store.nextId _ [] 0 ?_ (by simp) rfl hcur (by norm_num) ?_
    · have : (uploadedWorld (World.start store rand failAt now) name size).trace =
          [⟨.insertAnalysis name size "processing" 0, store,
            (uploadedWorld (World.start store rand failAt now) name size).store⟩] := rfl
      rw [this]
      simpa using hcur
    · intro wr hwr
      have : (uploadedWorld (World.start store rand failAt now) name size).trace.tail = [] := rfl
      rw [this] at hwr
      cases hwr

/-- Witness for C2: the upload of `capture1.pcap` into the empty store, with the
store failing from the third call on; the new row takes the progress values 0
and 20. -/
theorem progress_non_decreasing_witness :
    emptyStore.SerialFresh ∧
    1 ∈ ((POST captureRequest).run
      (World.start emptyStore halfDraws twoCalls 1700000000000)).2.started ∧
    ((∃ values : List ℤ,
      ((simulateAnalysisProcessing 1).run
        ((POST captureRequest).run
          (World.start emptyStore halfDraws twoCalls 1700000000000)).2).2.trace.map
          (fun wr => wr.after.progressOf 1) = values.map some ∧
      values.head? = some 0 ∧ values.Chain' (· ≤ ·)) ∧
    ∀ wr ∈ ((simulateAnalysisProcessing 1).run
        ((POST captureRequest).run
          (World.start emptyStore halfDraws twoCalls 1700000000000)).2).2.trace.tail,
      ∃ b a, wr.before.progressOf 1 = some b ∧ wr.after.progressOf 1 = some a ∧ b ≤ a) :=
  have h₁ : emptyStore.SerialFresh := fun a ha => by cases ha
  have h₂ : 1 ∈ ((POST captureRequest).run
      (World.start emptyStore halfDraws twoCalls 1700000000000)).2.started := by
    rw [capture_upload _ _ _ rfl]; simp [uploadedWorld, World.start, emptyStore]
  ⟨h₁, h₂, progress_non_decreasing emptyStore halfDraws twoCalls 1700000000000 captureRequest
    h₁ 1 h₂⟩

/-! ## Runs in which no store call fails -/

/-- A run that cannot throw returns. -/
theorem wp_returns {m : Async Unit} {Q : Unit → World → Prop} {w : World}
    (h : wp m Q (fun _ _ => False) w) : (m.run w).1 = .ok () := by
  unfold wp at h
  rcases hm : m.run w with ⟨r, w'⟩
  rw [hm] at h
  cases r with
  | ok a => rfl
  | error e => exact h.elim

theorem generateSampleAlerts_returns (analysisId : ℕ) (numAlerts totalNodes : ℤ) (w : World)
    (h : ∀ n, w.failAt n = false) :
    wp (generateSampleAlerts analysisId numAlerts totalNodes)
      (fun _ w' => w'.failAt = w.failAt) (fun _ _ => False) w := by
  unfold generateSampleAlerts
  refine wp_mono (wp_forLoop (fun _ w' => w'.failAt = w.failAt) _ numAlerts.toNat 0 w rfl ?_)
    (fun _ w' h => h) (fun _ _ h => h)
  intro i w' _ _ hI
  simp only [wp_bind, wp_mathRandom, wp_dateNow, wp_sql, wp_pure]
  refine ⟨fun hf => ?_, fun _ => hI⟩
  rw [hI, h] at hf
  cases hf

theorem generateSampleDroneNodes_returns (analysisId : ℕ) (totalNodes : ℤ) (w : World)
    (h : ∀ n, w.failAt n = false) :
    wp (generateSampleDroneNodes analysisId totalNodes)
      (fun _ w' => w'.failAt = w.failAt) (fun _ _ => False) w := by
  unfold generateSampleDroneNodes
  refine wp_mono (wp_forLoop (fun _ w' => w'.failAt = w.failAt) _ totalNodes.toNat 1 w rfl ?_)
    (fun _ w' h => h) (fun _ _ h => h)
  intro i w' _ _ hI
  simp only [wp_bind, wp_mathRandom, wp_dateNow, wp_sql, wp_pure]
  refine ⟨fun hf => ?_, fun _ => hI⟩
  rw [hI, h] at hf
  cases hf

/-- The loop body of `simulateAnalysisProcessing` for a stage before the last. -/
theorem simulateStep_of_lt (analysisId i : ℕ) (step : Step) (hi : i < 5)
    (hstep : steps[i]? = some step) :
    simulateStep analysisId i = (do
      sleep 2000
      let _ ← sql (.updateProgress step.progress analysisId)
      pure ()) := by
  have hlen : steps.length = 6 := rfl
  have hne : ¬ i = 6 - 1 := by omega
  simp only [simulateStep, hlen, if_neg hne, hstep]

/-- When no store call fails, `simulateAnalysisProcessing` runs to its end. -/
theorem simulate_returns (analysisId : ℕ) (w : World) (h : ∀ n, w.failAt n = false) :
    ((simulateAnalysisProcessing analysisId).run w).1 = .ok () := by
  refine wp_returns (Q := fun _ w' => w'.failAt = w.failAt) ?_
  unfold simulateAnalysisProcessing
  refine wp_mono (wp_forLoop (fun _ w' => w'.failAt = w.failAt) _ steps.length 0 w rfl ?_)
    (fun _ w' h => h) (fun _ _ h => h)
  intro i w' _ hi hI
  have hi' : i < 6 := by simpa [steps] using hi
  have hno : ∀ n, w'.failAt n = false := fun n => by rw [hI]; exact h n
  by_cases h5 : i = 5
  · subst h5
    simp only [simulateStep, steps, List.length_cons, List.length_nil, wp_bind, wp_sleep,
      wp_mathRandom, wp_sql, wp_ite, wp_pure, Nat.zero_add, Nat.reduceAdd, Nat.reduceSub,
      if_true, true_implies, not_true, false_implies, and_true]
    refine ⟨fun hf => ?_, fun _ => ?_⟩
    · rw [hno] at hf; cases hf
    · have hnodes : ∀ (n : ℤ) (w₁ : World), w₁.failAt = w.failAt →
          wp (generateSampleDroneNodes analysisId n) (fun _ w'' => w''.failAt = w.failAt)
            (fun _ _ => False) w₁ := by
        intro n w₁ h₁
        exact wp_mono (generateSampleDroneNodes_returns analysisId n w₁
          (fun k => by rw [h₁]; exact h k)) (fun _ _ h' => h'.trans h₁) (fun _ _ h' => h')
      refine ⟨fun _ => ?_, fun _ => hnodes _ _ hI⟩
      exact wp_mono (generateSampleAlerts_returns analysisId _ _ _ hno)
        (fun _ w'' h' => hnodes _ w'' (h'.trans hI)) (fun _ _ h' => h')
  · obtain ⟨step, hstep⟩ : ∃ step, steps[i]? = some step := by
      interval_cases i <;> exact ⟨_, rfl⟩
    rw [simulateStep_of_lt analysisId i step (by omega) hstep]
    simp only [wp_bind, wp_sleep, wp_sql, wp_pure]
    refine ⟨fun hf => ?_, fun _ => hI⟩
    rw [hno] at hf; cases hf

/-! ## The six progress updates -/

/-- Claim C3. When no store call fails, `simulateAnalysisProcessing` runs to its end
and the updates it applies to rows of `analyses` are exactly six, all for the
given identifier, writing the progress values 20, 40, 60, 80, 90, 100 in that
order; these are the targets of the six entries of `steps`, which increase
strictly. -/
theorem six_progress_updates_in_order (analysisId : ℕ) (w : World)
    (hok : ∀ n, w.failAt n = false) :
    ((simulateAnalysisProcessing analysisId).run w).1 = .ok () ∧
    (w.writesSince ((simulateAnalysisProcessing analysisId).run w).2).filterMap
        (fun wr => wr.stmt.progressWritten) =
      [(analysisId, 20), (analysisId, 40), (analysisId, 60), (analysisId, 80),
        (analysisId, 90), (analysisId, 100)] ∧
    steps.map (·.progress) = [20, 40, 60, 80, 90, 100] ∧
    (steps.map (·.progress)).Chain' (· < ·) := by
  have hret := simulate_returns analysisId w hok
  have key := simulate_phases analysisId
    (fun ph s tr => ∃ ext, tr = w.trace ++ ext ∧
      ext.filterMap (fun wr => wr.stmt.progressWritten) =
        match ph with
        | .stage k => (steps.take k).map (fun st => (analysisId, st.progress))
        | .children _ _ _ _ => steps.map (fun st => (analysisId, st.progress)))
    ?_ ?_ ?_ ?_ w ⟨[], by simp, by simp⟩
  · refine ⟨hret, ?_, rfl, by simp [steps]⟩
    obtain ⟨a, n, ext, hext, hmap⟩ :=
      wp_returned (wp_mono key (fun _ _ h => h) (fun _ _ _ => trivial)) () hret
    simp only [World.writesSince, hext, List.drop_left]
    rw [hmap]
    rfl
  · rintro k step s tr now hk hstep ⟨ext, rfl, hmap⟩
    refine ⟨ext ++ [s.write now (.updateProgress step.progress analysisId)], by simp, ?_⟩
    simp only [List.filterMap_append, hmap, List.take_succ, hstep, List.map_append]
    rfl
  · rintro s tr now d₁ d₂ d₃ d₄ d₅ d₆ ⟨ext, rfl, hmap⟩
    refine ⟨ext ++ [s.write now (completionStmt analysisId d₁ d₂ d₃ d₄ d₅ d₆)], by simp, ?_⟩
    simp only [List.filterMap_append, hmap]
    rfl
  · rintro a n i s tr now d₁ d₂ d₃ d₄ d₅ d₆ - ⟨ext, rfl, hmap⟩
    refine ⟨ext ++ [s.write now (.insertAlert (alertRow analysisId n now d₁ d₂ d₃ d₄ d₅ d₆))],
      by simp, ?_⟩
    simp only [List.filterMap_append, hmap]
    simp [Store.write, Stmt.progressWritten]
  · rintro a n j s tr now d₁ d₂ d₃ d₄ d₅ d₆ d₇ - ⟨ext, rfl, hmap⟩
    refine ⟨ext ++ [s.write now
      (.insertDroneNode (droneNodeRow analysisId (j + 1) now d₁ d₂ d₃ d₄ d₅ d₆ d₇))], by simp, ?_⟩
    simp only [List.filterMap_append, hmap]
    simp [Store.write, Stmt.progressWritten]

/-- Witness for C3: the sequence of analysis 1 in the empty store, where no call
fails. -/
theorem six_progress_updates_in_order_witness :
    (∀ n, emptyWorld.failAt n = false) ∧
    ((simulateAnalysisProcessing 1).run emptyWorld).1 = .ok () ∧
    (emptyWorld.writesSince ((simulateAnalysisProcessing 1).run emptyWorld).2).filterMap
        (fun wr => wr.stmt.progressWritten) =
      [(1, 20), (1, 40), (1, 60), (1, 80), (1, 90), (1, 100)] :=
  have h := six_progress_updates_in_order 1 emptyWorld (fun _ => rfl)
  ⟨fun _ => rfl, h.1, h.2.1⟩

/-! ## The child records of a completed analysis -/

/-- What a run of `simulateAnalysisProcessing` that returns has written: one
final update, carrying some `attacks_detected = a` and `total_nodes = n` that
are then stored in the updated rows, then `a` alerts of the analysis, then one
drone node of the analysis for each index `1..n`. -/
theorem simulate_children (analysisId : ℕ) (w : World)
    (hret : ((simulateAnalysisProcessing analysisId).run w).1 = .ok ()) :
    ∃ a n : ℤ, 0 ≤ a ∧ 0 ≤ n ∧
      (w.writesSince ((simulateAnalysisProcessing analysisId).run w).2).filterMap
        (fun wr => wr.stmt.countsWritten) = [(a, n)] ∧
      (∀ row ∈ ((simulateAnalysisProcessing analysisId).run w).2.store.analyses,
        row.id = analysisId → row.attacks_detected = some a ∧ row.total_nodes = some n) ∧
      (w.alertsSince ((simulateAnalysisProcessing analysisId).run w).2).length = a.toNat ∧
      (∀ alert ∈ w.alertsSince ((simulateAnalysisProcessing analysisId).run w).2,
        alert.analysis_id = analysisId) ∧
      (w.nodesSince ((simulateAnalysisProcessing analysisId).run w).2).map
          (fun r => (r.analysis_id, r.node_id)) =
        (List.range' 1 n.toNat).map (fun i : ℕ => (analysisId, uavNodeId (i : ℤ))) := by
  have key := simulate_phases analysisId
    (fun ph s tr => ∃ (ext : List Write) (alerts : List Alert) (nodes : List DroneNode),
      tr = w.trace ++ ext ∧ s.alerts = w.store.alerts ++ alerts ∧
      s.drone_nodes = w.store.drone_nodes ++ nodes ∧
      match ph with
      | .stage _ =>
          ext.filterMap (fun wr => wr.stmt.countsWritten) = [] ∧ alerts = [] ∧ nodes = []
      | .children a n i j =>
          ext.filterMap (fun wr => wr.stmt.countsWritten) = [(a, n)] ∧ 0 ≤ a ∧ 0 ≤ n ∧
          (∀ row ∈ s.analyses, row.id = analysisId →
            row.attacks_detected = some a ∧ row.total_nodes = some n) ∧
          alerts.length = i ∧ (∀ alert ∈ alerts, alert.analysis_id = analysisId) ∧
          nodes.map (fun r => (r.analysis_id, r.node_id)) =
            (List.range' 1 j).map (fun i : ℕ => (analysisId, uavNodeId (i : ℤ))))
    ?_ ?_ ?_ ?_ w ⟨[], [], [], by simp, by simp, by simp, by simp⟩
  · obtain ⟨a, n, ext, alerts, nodes, hext, hal, hno, hcounts, ha, hn, hrows, hlen, hids, hnodes⟩ :=
      wp_returned (wp_mono key (fun _ _ h => h) (fun _ _ _ => trivial)) () hret
    refine ⟨a, n, ha, hn, ?_, hrows, ?_, ?_, ?_⟩
    · simp only [World.writesSince, hext, List.drop_left]; exact hcounts
    · simp only [World.alertsSince, hal, List.drop_left]; exact hlen
    · simp only [World.alertsSince, hal, List.drop_left]; exact hids
    · simp only [World.nodesSince, hno, List.drop_left]; exact hnodes
  · -- a progress update of a stage before the last
    rintro k step s tr now hk hstep ⟨ext, alerts, nodes, rfl, hal, hno, hcounts, rfl, rfl⟩
    refine ⟨ext ++ [s.write now (.updateProgress step.progress analysisId)], [], [], by simp,
      hal, hno, ?_, rfl, rfl⟩
    rw [List.filterMap_append, hcounts]; rfl
  · -- the final update
    rintro s tr now d₁ d₂ d₃ d₄ d₅ d₆ ⟨ext, alerts, nodes, rfl, hal, hno, hcounts, rfl, rfl⟩
    refine ⟨ext ++ [s.write now (completionStmt analysisId d₁ d₂ d₃ d₄ d₅ d₆)], [], [], by simp,
      hal, hno, ?_, ?_, ?_, ?_, rfl, by simp, by simp⟩
    · rw [List.filterMap_append, hcounts]; rfl
    · exact Int.floor_nonneg.2 (mul_nonneg d₂.nonneg (by norm_num))
    · have : (0 : ℤ) ≤ mathFloor (d₅.val * 12) :=
        Int.floor_nonneg.2 (mul_nonneg d₅.nonneg (by norm_num))
      omega
    · intro row hrow hid
      simp only [completionStmt, Store.exec, List.mem_map] at hrow
      obtain ⟨b, -, rfl⟩ := hrow
      by_cases hb : b.id = analysisId
      · rw [if_pos hb]; exact ⟨rfl, rfl⟩
      · rw [if_neg hb] at hid; exact absurd hid hb
  · -- an alert insert
    rintro a n i s tr now d₁ d₂ d₃ d₄ d₅ d₆ -
      ⟨ext, alerts, nodes, rfl, hal, hno, hcounts, ha, hn, hrows, hlen, hids, hnodes⟩
    refine ⟨ext ++ [s.write now (.insertAlert (alertRow analysisId n now d₁ d₂ d₃ d₄ d₅ d₆))],
      alerts ++ [{ alertRow analysisId n now d₁ d₂ d₃ d₄ d₅ d₆ with
        timestamp_detected := s.detectedDefault now }], nodes, by simp, ?_, hno, ?_, ha, hn,
      hrows, by simp [hlen], ?_, hnodes⟩
    · simp [Store.exec, hal]
    · rw [List.filterMap_append, hcounts]; rfl
    · intro alert halert
      rcases List.mem_append.1 halert with h | h
      · exact hids alert h
      · rw [List.mem_singleton.1 h]; rfl
  · -- a node insert
    rintro a n j s tr now d₁ d₂ d₃ d₄ d₅ d₆ d₇ -
      ⟨ext, alerts, nodes, rfl, hal, hno, hcounts, ha, hn, hrows, hlen, hids, hnodes⟩
    refine ⟨ext ++ [s.write now
        (.insertDroneNode (droneNodeRow analysisId (j + 1) now d₁ d₂ d₃ d₄ d₅ d₆ d₇))],
      alerts, nodes ++ [droneNodeRow analysisId (j + 1) now d₁ d₂ d₃ d₄ d₅ d₆ d₇], by simp, hal,
      ?_, ?_, ha, hn, hrows, hlen, hids, ?_⟩
    · simp [Store.exec, hno]
    · rw [List.filterMap_append, hcounts]; rfl
    · simp only [List.map_append, hnodes, List.map_cons, List.map_nil, List.range'_concat,
        Nat.one_mul, Nat.add_comm 1 j]
      rfl

/-- Every statement that a run of `simulateAnalysisProcessing` applies, whether
the run returns or is cut short by a store failure, satisfies any property that
holds of the four kinds of statement the sequence can issue. -/
theorem simulate_stmts (Ψ : Stmt → Prop) (analysisId : ℕ)
    (hstage : ∀ (k : ℕ) (step : Step), k < 5 → steps[k]? = some step →
      Ψ (.updateProgress step.progress analysisId))
    (hfinal : ∀ d₁ d₂ d₃ d₄ d₅ d₆ : Draw, Ψ (completionStmt analysisId d₁ d₂ d₃ d₄ d₅ d₆))
    (halert : ∀ (n now : ℤ) (d₁ d₂ d₃ d₄ d₅ d₆ : Draw),
      Ψ (.insertAlert (alertRow analysisId n now d₁ d₂ d₃ d₄ d₅ d₆)))
    (hnode : ∀ (i : ℕ) (now : ℤ) (d₁ d₂ d₃ d₄ d₅ d₆ d₇ : Draw),
      Ψ (.insertDroneNode (droneNodeRow analysisId i now d₁ d₂ d₃ d₄ d₅ d₆ d₇)))
    (w : World) :
    ∀ wr ∈ w.writesSince ((simulateAnalysisProcessing analysisId).run w).2, Ψ wr.stmt := by
  have step : ∀ (tr : List Write) (wr : Write), Ψ wr.stmt →
      (∃ ext, tr = w.trace ++ ext ∧ ∀ wr ∈ ext, Ψ wr.stmt) →
      ∃ ext, tr ++ [wr] = w.trace ++ ext ∧ ∀ wr ∈ ext, Ψ wr.stmt := by
    rintro tr wr hwr ⟨ext, rfl, hall⟩
    refine ⟨ext ++ [wr], by simp, fun wr' h => ?_⟩
    rcases List.mem_append.1 h with h | h
    · exact hall wr' h
    · rw [List.mem_singleton.1 h]; exact hwr
  have key := simulate_phases analysisId
    (fun _ _ tr => ∃ ext, tr = w.trace ++ ext ∧ ∀ wr ∈ ext, Ψ wr.stmt)
    (fun k st s tr now hk hst h => step tr _ (hstage k st hk hst) h)
    (fun s tr now d₁ d₂ d₃ d₄ d₅ d₆ h => step tr _ (hfinal d₁ d₂ d₃ d₄ d₅ d₆) h)
    (fun a n i s tr now d₁ d₂ d₃ d₄ d₅ d₆ _ h => step tr _ (halert n now d₁ d₂ d₃ d₄ d₅ d₆) h)
    (fun a n j s tr now d₁ d₂ d₃ d₄ d₅ d₆ d₇ _ h =>
      step tr _ (hnode (j + 1) now d₁ d₂ d₃ d₄ d₅ d₆ d₇) h)
    w ⟨[], by simp, by simp⟩
  obtain ⟨ext, hext, hall⟩ :=
    wp_final (wp_mono key (fun _ _ ⟨_, _, h⟩ => h) (fun _ _ ⟨_, _, h⟩ => h))
  intro wr hwr
  simp only [World.writesSince, hext, List.drop_left] at hwr
  exact hall wr hwr

/-- The upload of `capture1.pcap` into the empty store leaves a world in which
no store call fails. -/
theorem capture_world_noFailure (n : ℕ) :
    ((POST captureRequest).run emptyWorld).2.failAt n = false := by
  have := capture_upload halfDraws noFailure 1700000000000 rfl
  rw [emptyWorld, this]
  rfl

/-- Claim C4. Whenever `simulateAnalysisProcessing` has run to its end, the number
of alert records it inserted for the analysis equals the `attacks_detected`
value that its final update wrote, and that the updated rows then hold; this
includes the case of no alert for the value 0. -/
theorem alert_count_equals_attacks_detected (analysisId : ℕ) (w : World)
    (hret : ((simulateAnalysisProcessing analysisId).run w).1 = .ok ()) :
    ∃ a : ℤ,
      (w.writesSince ((simulateAnalysisProcessing analysisId).run w).2).filterMap
        (fun wr => wr.stmt.countsWritten.map Prod.fst) = [a] ∧
      (∀ row ∈ ((simulateAnalysisProcessing analysisId).run w).2.store.analyses,
        row.id = analysisId → row.attacks_detected = some a) ∧
      (((w.alertsSince ((simulateAnalysisProcessing analysisId).run w).2).filter
        (fun alert => alert.analysis_id = analysisId)).length : ℤ) = a ∧
      (a = 0 → w.alertsSince ((simulateAnalysisProcessing analysisId).run w).2 = []) := by
  obtain ⟨a, n, ha, -, hcounts, hrows, hlen, hids, -⟩ := simulate_children analysisId w hret
  refine ⟨a, ?_, fun row hrow hid => (hrows row hrow hid).1, ?_, ?_⟩
  · have := congrArg (List.map Prod.fst) hcounts
    rw [List.map_filterMap] at this
    simpa using this
  · rw [List.filter_eq_self.2 (fun alert h => by simpa using hids alert h), hlen]
    exact Int.toNat_of_nonneg ha
  · intro h0
    rw [h0] at hlen
    exact List.length_eq_zero.1 hlen

/-- Witness for C4: the sequence of the upload of `capture1.pcap` into the empty
store, where no call fails. -/
theorem alert_count_equals_attacks_detected_witness :
    ((simulateAnalysisProcessing 1).run ((POST captureRequest).run emptyWorld).2).1 = .ok () ∧
    ∃ a : ℤ,
      (∀ row ∈ ((simulateAnalysisProcessing 1).run
          ((POST captureRequest).run emptyWorld).2).2.store.analyses,
        row.id = 1 → row.attacks_detected = some a) ∧
      (((((POST captureRequest).run emptyWorld).2.alertsSince
          ((simulateAnalysisProcessing 1).run ((POST captureRequest).run emptyWorld).2).2).filter
        (fun alert => alert.analysis_id = 1)).length : ℤ) = a :=
  have hret := simulate_returns 1 ((POST captureRequest).run emptyWorld).2 capture_world_noFailure
  have h := alert_count_equals_attacks_detected 1 ((POST captureRequest).run emptyWorld).2 hret
  ⟨hret, h.elim fun a ha => ⟨a, ha.2.1, ha.2.2.1⟩⟩

/-- The identifiers of the nodes `1..n` are pairwise distinct. -/
theorem uavNodeIds_nodup (n : ℕ) :
    ((List.range' 1 n).map (fun i : ℕ => uavNodeId (i : ℤ))).Nodup :=
  (List.nodup_range' 1 n).map uavNodeId_injective

/-- A run of `generateSampleDroneNodes` that returns has inserted one row for
each index `1..totalNodes`, in that order, all for the given analysis. -/
theorem generateSampleDroneNodes_ids (analysisId : ℕ) (totalNodes : ℤ) (w : World)
    (hret : ((generateSampleDroneNodes analysisId totalNodes).run w).1 = .ok ()) :
    (w.nodesSince ((generateSampleDroneNodes analysisId totalNodes).run w).2).map
        (fun r => (r.analysis_id, r.node_id)) =
      (List.range' 1 totalNodes.toNat).map (fun i : ℕ => (analysisId, uavNodeId (i : ℤ))) := by
  have key := generateSampleDroneNodes_rule analysisId totalNodes
    (fun j s _ => ∃ nodes, s.drone_nodes = w.store.drone_nodes ++ nodes ∧
      nodes.map (fun r => (r.analysis_id, r.node_id)) =
        (List.range' 1 j).map (fun i : ℕ => (analysisId, uavNodeId (i : ℤ))))
    (by
      rintro j s tr now d₁ d₂ d₃ d₄ d₅ d₆ d₇ - ⟨nodes, hno, hids⟩
      refine ⟨nodes ++ [droneNodeRow analysisId (j + 1) now d₁ d₂ d₃ d₄ d₅ d₆ d₇], ?_, ?_⟩
      · simp [Store.exec, hno]
      · simp only [List.map_append, hids, List.map_cons, List.map_nil, List.range'_concat,
          Nat.one_mul, Nat.add_comm 1 j]
        rfl)
    w ⟨[], by simp, by simp⟩
  obtain ⟨nodes, hno, hids⟩ :=
    wp_returned (wp_mono key (fun _ _ h => h) (fun _ _ _ => trivial)) () hret
  simp only [World.nodesSince, hno, List.drop_left]
  exact hids

/-- Claim C5. For every node count `N`, a run of `generateSampleDroneNodes` that
returns has inserted exactly `N` drone-node records for the analysis, one for
each index `1..N` in that order, the record of index `i` carrying the
identifier `UAV_` followed by `i` padded to two digits, and these identifiers
are pairwise distinct.  In a run of `simulateAnalysisProcessing` that returns,
`N` is the `total_nodes` value written by the final update and then held by the
updated rows. -/
theorem node_records_match_total_nodes (analysisId : ℕ) (w : World) :
    (∀ N : ℕ, ((generateSampleDroneNodes analysisId N).run w).1 = .ok () →
      (w.nodesSince ((generateSampleDroneNodes analysisId N).run w).2).map
          (fun r => (r.analysis_id, r.node_id)) =
        (List.range' 1 N).map (fun i : ℕ => (analysisId, uavNodeId (i : ℤ))) ∧
      (w.nodesSince ((generateSampleDroneNodes analysisId N).run w).2).length = N ∧
      ((w.nodesSince ((generateSampleDroneNodes analysisId N).run w).2).map
        (·.node_id)).Nodup) ∧
    (((simulateAnalysisProcessing analysisId).run w).1 = .ok () →
      ∃ N : ℕ,
        (w.writesSince ((simulateAnalysisProcessing analysisId).run w).2).filterMap
          (fun wr => wr.stmt.countsWritten.map Prod.snd) = [(N : ℤ)] ∧
        (∀ row ∈ ((simulateAnalysisProcessing analysisId).run w).2.store.analyses,
          row.id = analysisId → row.total_nodes = some (N : ℤ)) ∧
        (w.nodesSince ((simulateAnalysisProcessing analysisId).run w).2).map
            (fun r => (r.analysis_id, r.node_id)) =
          (List.range' 1 N).map (fun i : ℕ => (analysisId, uavNodeId (i : ℤ))) ∧
        (w.nodesSince ((simulateAnalysisProcessing analysisId).run w).2).length = N ∧
        ((w.nodesSince ((simulateAnalysisProcessing analysisId).run w).2).map
          (·.node_id)).Nodup) := by
  have hsnd : ∀ (nodes : List DroneNode) (N : ℕ),
      nodes.map (fun r => (r.analysis_id, r.node_id)) =
        (List.range' 1 N).map (fun i : ℕ => (analysisId, uavNodeId (i : ℤ))) →
      nodes.length = N ∧ (nodes.map (·.node_id)).Nodup := by
    intro nodes N h
    refine ⟨by simpa using congrArg List.length h, ?_⟩
    have h' := congrArg (List.map Prod.snd) h
    simp only [List.map_map] at h'
    have : nodes.map (·.node_id) = (List.range' 1 N).map (fun i : ℕ => uavNodeId (i : ℤ)) := h'
    rw [this]
    exact uavNodeIds_nodup N
  constructor
  · intro N hret
    have h := generateSampleDroneNodes_ids analysisId N w hret
    rw [Int.toNat_natCast] at h
    exact ⟨h, hsnd _ N h⟩
  · intro hret
    obtain ⟨a, n, -, hn, hcounts, hrows, -, -, hnodes⟩ := simulate_children analysisId w hret
    have hcast : ((n.toNat : ℕ) : ℤ) = n := Int.toNat_of_nonneg hn
    refine ⟨n.toNat, ?_, ?_, hnodes, hsnd _ _ hnodes⟩
    · have := congrArg (List.map Prod.snd) hcounts
      rw [List.map_filterMap] at this
      rw [hcast]
      simpa using this
    · intro row hrow hid
      rw [hcast]
      exact (hrows row hrow hid).2

/-- Witness for C5: one node generated in the empty store, and the sequence of
the upload of `capture1.pcap`, where no call fails. -/
theorem node_records_match_total_nodes_witness :
    ((generateSampleDroneNodes 1 (1 : ℕ)).run emptyWorld).1 = .ok () ∧
    (emptyWorld.nodesSince ((generateSampleDroneNodes 1 (1 : ℕ)).run emptyWorld).2).length = 1 ∧
    ((simulateAnalysisProcessing 1).run ((POST captureRequest).run emptyWorld).2).1 = .ok () ∧
    ∃ N : ℕ,
      (∀ row ∈ ((simulateAnalysisProcessing 1).run
          ((POST captureRequest).run emptyWorld).2).2.store.analyses,
        row.id = 1 → row.total_nodes = some (N : ℤ)) ∧
      (((POST captureRequest).run emptyWorld).2.nodesSince
        ((simulateAnalysisProcessing 1).run
          ((POST captureRequest).run emptyWorld).2).2).length = N :=
  have hgen : ((generateSampleDroneNodes 1 (1 : ℕ)).run emptyWorld).1 = .ok () :=
    generateSampleDroneNodes_sample.1
  have hret := simulate_returns 1 ((POST captureRequest).run emptyWorld).2 capture_world_noFailure
  ⟨hgen, ((node_records_match_total_nodes 1 emptyWorld).1 1 hgen).2.1, hret,
    ((node_records_match_total_nodes 1 ((POST captureRequest).run emptyWorld).2).2 hret).elim
      fun N h => ⟨N, h.2.1, h.2.2.2.1⟩⟩

/-! ## Ranges of the trust scores -/

/-- Claim C6. Every trust score stored with a drone node by
`generateSampleDroneNodes`, alone or inside the sequence, lies in `[0.6, 1.0]`,
and every trust score that the final update of `simulateAnalysisProcessing`
writes to an analysis lies in `[0.65, 0.95]`; the draws are rationals in
`[0, 1)` and the arithmetic is exact. -/
theorem trust_scores_in_range (analysisId : ℕ) (totalNodes : ℤ) (w : World) :
    (∀ row ∈ w.nodesSince ((generateSampleDroneNodes analysisId totalNodes).run w).2,
      0.6 ≤ row.trust_score ∧ row.trust_score ≤ 1.0) ∧
    (∀ wr ∈ w.writesSince ((simulateAnalysisProcessing analysisId).run w).2,
      (∀ row, wr.stmt = .insertDroneNode row →
        0.6 ≤ row.trust_score ∧ row.trust_score ≤ 1.0) ∧
      (∀ t, wr.stmt.trustWritten = some t → 0.65 ≤ t ∧ t ≤ 0.95)) := by
  have hnode : ∀ (i : ℕ) (now : ℤ) (d₁ d₂ d₃ d₄ d₅ d₆ d₇ : Draw),
      (0.6 : ℚ) ≤ (droneNodeRow analysisId i now d₁ d₂ d₃ d₄ d₅ d₆ d₇).trust_score ∧
      (droneNodeRow analysisId i now d₁ d₂ d₃ d₄ d₅ d₆ d₇).trust_score ≤ 1.0 := by
    intro i now d₁ d₂ d₃ d₄ d₅ d₆ d₇
    have h0 := d₁.nonneg
    have h1 := d₁.lt_one
    simp only [droneNodeRow]
    constructor <;> norm_num <;> linarith
  refine ⟨generateSampleDroneNodes_rows _ analysisId hnode totalNodes w, ?_⟩
  refine simulate_stmts
    (fun stmt => (∀ row, stmt = .insertDroneNode row →
        0.6 ≤ row.trust_score ∧ row.trust_score ≤ 1.0) ∧
      (∀ t, stmt.trustWritten = some t → 0.65 ≤ t ∧ t ≤ 0.95))
    analysisId ?_ ?_ ?_ ?_ w
  · intro k step _ _
    exact ⟨fun row h => (by cases h), fun t h => (by cases h)⟩
  · intro d₁ d₂ d₃ d₄ d₅ d₆
    refine ⟨fun row h => (by cases h), fun t h => ?_⟩
    have ht : 0.65 + d₁.val * 0.3 = t := by
      simpa [completionStmt, Stmt.trustWritten] using h
    have h0 := d₁.nonneg
    have h1 := d₁.lt_one
    rw [← ht]
    constructor <;> norm_num <;> linarith
  · intro n now d₁ d₂ d₃ d₄ d₅ d₆
    exact ⟨fun row h => (by cases h), fun t h => (by cases h)⟩
  · intro i now d₁ d₂ d₃ d₄ d₅ d₆ d₇
    refine ⟨fun row h => ?_, fun t h => (by cases h)⟩
    have hrow : droneNodeRow analysisId i now d₁ d₂ d₃ d₄ d₅ d₆ d₇ = row := by
      injection h
    rw [← hrow]
    exact hnode i now d₁ d₂ d₃ d₄ d₅ d₆ d₇

/-- Witness for C6: the node generated from the draw `1/2` has trust score 0.8. -/
theorem trust_scores_in_range_witness :
    sampleNode ∈ emptyWorld.nodesSince ((generateSampleDroneNodes 1 1).run emptyWorld).2 ∧
    0.6 ≤ sampleNode.trust_score ∧ sampleNode.trust_score ≤ 1.0 :=
  ⟨sampleNode_mem, (trust_scores_in_range 1 1 emptyWorld).1 sampleNode sampleNode_mem⟩

/-! ## Writes and rows of the sequence, in general -/

/-- Every write that a run of `simulateAnalysisProcessing` applies, whether the
run returns or is cut short by a store failure, is the effect of one of the
four kinds of statement the sequence can issue on the store it found, and so
satisfies any property `Ψ` that holds of all such writes. -/
theorem simulate_writes (Ψ : Write → Prop) (analysisId : ℕ)
    (hstage : ∀ (k : ℕ) (step : Step) (s : Store) (now : ℤ), k < 5 → steps[k]? = some step →
      Ψ (s.write now (.updateProgress step.progress analysisId)))
    (hfinal : ∀ (s : Store) (now : ℤ) (d₁ d₂ d₃ d₄ d₅ d₆ : Draw),
      Ψ (s.write now (completionStmt analysisId d₁ d₂ d₃ d₄ d₅ d₆)))
    (halert : ∀ (s : Store) (n now : ℤ) (d₁ d₂ d₃ d₄ d₅ d₆ : Draw),
      Ψ (s.write now (.insertAlert (alertRow analysisId n now d₁ d₂ d₃ d₄ d₅ d₆))))
    (hnode : ∀ (s : Store) (i : ℕ) (now : ℤ) (d₁ d₂ d₃ d₄ d₅ d₆ d₇ : Draw),
      Ψ (s.write now (.insertDroneNode (droneNodeRow analysisId i now d₁ d₂ d₃ d₄ d₅ d₆ d₇))))
    (w : World) :
    ∀ wr ∈ w.writesSince ((simulateAnalysisProcessing analysisId).run w).2, Ψ wr := by
  have step : ∀ (tr : List Write) (wr : Write), Ψ wr →
      (∃ ext, tr = w.trace ++ ext ∧ ∀ wr ∈ ext, Ψ wr) →
      ∃ ext, tr ++ [wr] = w.trace ++ ext ∧ ∀ wr ∈ ext, Ψ wr := by
    rintro tr wr hwr ⟨ext, rfl, hall⟩
    refine ⟨ext ++ [wr], by simp, fun wr' h => ?_⟩
    rcases List.mem_append.1 h with h | h
    · exact hall wr' h
    · rw [List.mem_singleton.1 h]; exact hwr
  have key := simulate_phases analysisId
    (fun _ _ tr => ∃ ext, tr = w.trace ++ ext ∧ ∀ wr ∈ ext, Ψ wr)
    (fun k st s tr now hk hst h => step tr _ (hstage k st s now hk hst) h)
    (fun s tr now d₁ d₂ d₃ d₄ d₅ d₆ h => step tr _ (hfinal s now d₁ d₂ d₃ d₄ d₅ d₆) h)
    (fun a n i s tr now d₁ d₂ d₃ d₄ d₅ d₆ _ h => step tr _ (halert s n now d₁ d₂ d₃ d₄ d₅ d₆) h)
    (fun a n j s tr now d₁ d₂ d₃ d₄ d₅ d₆ d₇ _ h =>
      step tr _ (hnode s (j + 1) now d₁ d₂ d₃ d₄ d₅ d₆ d₇) h)
    w ⟨[], by simp, by simp⟩
  obtain ⟨ext, hext, hall⟩ :=
    wp_final (wp_mono key (fun _ _ ⟨_, _, h⟩ => h) (fun _ _ ⟨_, _, h⟩ => h))
  intro wr hwr
  simp only [World.writesSince, hext, List.drop_left] at hwr
  exact hall wr hwr

/-- Every row that a run of `generateSampleAlerts` appends to `alerts`, whether
the run returns or is cut short by a store failure, is a row built by the loop
body with the store's value for `timestamp_detected`, and so satisfies any
property `Φ` that holds of all such rows. -/
theorem generateSampleAlerts_rows (Φ : Alert → Prop) (analysisId : ℕ) (totalNodes : ℤ)
    (hΦ : ∀ (now : ℤ) (d₁ d₂ d₃ d₄ d₅ d₆ : Draw) (detected : Option ℤ),
      Φ ((alertRow analysisId totalNodes now d₁ d₂ d₃ d₄ d₅ d₆).stored detected))
    (numAlerts : ℤ) (w : World) :
    ∀ row ∈ w.alertsSince ((generateSampleAlerts analysisId numAlerts totalNodes).run w).2,
      Φ row := by
  have key := generateSampleAlerts_rule analysisId numAlerts totalNodes
    (fun _ s _ => ∃ ext, s.alerts = w.store.alerts ++ ext ∧ ∀ r ∈ ext, Φ r)
    (by
      rintro i s tr now d₁ d₂ d₃ d₄ d₅ d₆ - ⟨ext, hext, hall⟩
      refine ⟨ext ++ [(alertRow analysisId totalNodes now d₁ d₂ d₃ d₄ d₅ d₆).stored
        (s.detectedDefault now)], ?_, ?_⟩
      · simp [Store.exec, hext, Alert.stored]
      · intro r hr
        rcases List.mem_append.1 hr with h | h
        · exact hall r h
        · rw [List.mem_singleton.1 h]; exact hΦ _ _ _ _ _ _ _ _)
    w ⟨[], by simp, by simp⟩
  obtain ⟨ext, hext, hall⟩ := wp_final (wp_mono key (fun _ _ h => h) (fun _ _ ⟨_, _, h⟩ => h))
  intro row hrow
  simp only [World.alertsSince, hext, List.drop_left] at hrow
  exact hall row hrow

/-- The index computed from a draw for a non-empty array is in bounds: the read
yields an element of the array. -/
theorem arrayGet_draw (xs : List String) (hxs : xs ≠ []) (d : Draw) :
    ∃ x ∈ xs, arrayGet xs (mathFloor (d.val * (xs.length : ℕ))) = some x := by
  have hlen : 0 < xs.length := List.length_pos.2 hxs
  have hlenq : (0 : ℚ) < (xs.length : ℕ) := by exact_mod_cast hlen
  have h0 : 0 ≤ mathFloor (d.val * (xs.length : ℕ)) :=
    Int.floor_nonneg.2 (mul_nonneg d.nonneg hlenq.le)
  have h1 : mathFloor (d.val * (xs.length : ℕ)) < (xs.length : ℕ) := by
    unfold mathFloor
    rw [Int.floor_lt]
    push_cast
    have := d.lt_one
    nlinarith
  have hi : (mathFloor (d.val * (xs.length : ℕ))).toNat < xs.length := by omega
  refine ⟨xs[(mathFloor (d.val * (xs.length : ℕ))).toNat], List.getElem_mem _, ?_⟩
  simp only [arrayGet, if_pos h0]
  exact List.getElem?_eq_getElem hi

/-! ## The states of the analysis row over a sequence -/

/-- A progress update keeps pending rows pending. -/
theorem pending_updateProgress (s : Store) (now p : ℤ) (id : ℕ)
    (h : ∀ a ∈ s.analyses, a.id = id → a.Pending) :
    ∀ a ∈ (s.exec now (.updateProgress p id)).1.analyses, a.id = id → a.Pending := by
  intro a ha hid
  simp only [Store.exec, List.mem_map] at ha
  obtain ⟨b, hb, rfl⟩ := ha
  by_cases hbid : b.id = id
  · rw [if_pos hbid]; exact h b hb hbid
  · rw [if_neg hbid] at hid; exact absurd hid hbid

/-- The final update leaves every row of the analysis done. -/
theorem done_completion (s : Store) (now : ℤ) (id : ℕ) (d₁ d₂ d₃ d₄ d₅ d₆ : Draw) :
    ∀ a ∈ (s.exec now (completionStmt id d₁ d₂ d₃ d₄ d₅ d₆)).1.analyses, a.id = id → a.Done := by
  intro a ha hid
  simp only [completionStmt, Store.exec, List.mem_map] at ha
  obtain ⟨b, hb, rfl⟩ := ha
  by_cases hbid : b.id = id
  · rw [if_pos hbid]; simp [Analysis.Done]
  · rw [if_neg hbid] at hid; exact absurd hid hbid

/-- Over a sequence that finds the rows of its analysis pending, every write is
a step of those rows from pending to pending, from pending to done, or from
done to done, and the run leaves them all pending or all done. -/
theorem simulate_row_states (analysisId : ℕ) (w : World)
    (hpending : ∀ a ∈ w.store.analyses, a.id = analysisId → a.Pending) :
    (∀ wr ∈ w.writesSince ((simulateAnalysisProcessing analysisId).run w).2,
      wr.RowStep analysisId) ∧
    ((∀ a ∈ ((simulateAnalysisProcessing analysisId).run w).2.store.analyses,
        a.id = analysisId → a.Pending) ∨
      (∀ a ∈ ((simulateAnalysisProcessing analysisId).run w).2.store.analyses,
        a.id = analysisId → a.Done)) := by
  have snoc : ∀ (ext : List Write) (wr : Write), wr.RowStep analysisId →
      (∀ wr ∈ ext, wr.RowStep analysisId) → ∀ wr' ∈ ext ++ [wr], wr'.RowStep analysisId := by
    intro ext wr hwr hall wr' h
    rcases List.mem_append.1 h with h | h
    · exact hall wr' h
    · rw [List.mem_singleton.1 h]; exact hwr
  have key := simulate_phases analysisId
    (fun ph s tr => ∃ ext, tr = w.trace ++ ext ∧ (∀ wr ∈ ext, wr.RowStep analysisId) ∧
      match ph with
      | .stage _ => ∀ a ∈ s.analyses, a.id = analysisId → a.Pending
      | .children _ _ _ _ => ∀ a ∈ s.analyses, a.id = analysisId → a.Done)
    ?_ ?_ ?_ ?_ w ⟨[], by simp, by simp, hpending⟩
  · have hfin := wp_final (wp_mono key
      (R := fun _ w' => ∃ ext, w'.trace = w.trace ++ ext ∧
        (∀ wr ∈ ext, wr.RowStep analysisId) ∧
        ((∀ a ∈ w'.store.analyses, a.id = analysisId → a.Pending) ∨
          (∀ a ∈ w'.store.analyses, a.id = analysisId → a.Done)))
      (F := fun _ w' => ∃ ext, w'.trace = w.trace ++ ext ∧
        (∀ wr ∈ ext, wr.RowStep analysisId) ∧
        ((∀ a ∈ w'.store.analyses, a.id = analysisId → a.Pending) ∨
          (∀ a ∈ w'.store.analyses, a.id = analysisId → a.Done)))
      ?_ ?_)
    · obtain ⟨ext, hext, hall, hst⟩ := hfin
      refine ⟨?_, hst⟩
      intro wr hwr
      simp only [World.writesSince, hext, List.drop_left] at hwr
      exact hall wr hwr
    · rintro _ w' ⟨a, n, ext, hext, hall, hst⟩
      exact ⟨ext, hext, hall, Or.inr hst⟩
    · rintro _ w' ⟨ph, -, ext, hext, hall, hst⟩
      refine ⟨ext, hext, hall, ?_⟩
      cases ph with
      | stage k => exact Or.inl hst
      | children a n i j => exact Or.inr hst
  · rintro k step s tr now hk hstep ⟨ext, rfl, hall, hst⟩
    have hafter := pending_updateProgress s now step.progress analysisId hst
    exact ⟨ext ++ [s.write now (.updateProgress step.progress analysisId)], by simp,
      snoc ext _ (Or.inl ⟨⟨_, rfl⟩, hst, hafter⟩) hall, hafter⟩
  · rintro s tr now d₁ d₂ d₃ d₄ d₅ d₆ ⟨ext, rfl, hall, hst⟩
    have hafter := done_completion s now analysisId d₁ d₂ d₃ d₄ d₅ d₆
    refine ⟨ext ++ [s.write now (completionStmt analysisId d₁ d₂ d₃ d₄ d₅ d₆)], by simp,
      snoc ext _ (Or.inr (Or.inl ⟨?_, hst, hafter⟩)) hall, hafter⟩
    simp [Store.write, completionStmt, Stmt.summaryWritten]
  · rintro a n i s tr now d₁ d₂ d₃ d₄ d₅ d₆ - ⟨ext, rfl, hall, hst⟩
    exact ⟨ext ++ [s.write now (.insertAlert (alertRow analysisId n now d₁ d₂ d₃ d₄ d₅ d₆))],
      by simp, snoc ext _ (Or.inr (Or.inr ⟨Or.inl ⟨_, rfl⟩, hst, rfl⟩)) hall, hst⟩
  · rintro a n j s tr now d₁ d₂ d₃ d₄ d₅ d₆ d₇ - ⟨ext, rfl, hall, hst⟩
    exact ⟨ext ++ [s.write now
        (.insertDroneNode (droneNodeRow analysisId (j + 1) now d₁ d₂ d₃ d₄ d₅ d₆ d₇))],
      by simp, snoc ext _ (Or.inr (Or.inr ⟨Or.inr ⟨_, rfl⟩, hst, rfl⟩)) hall, hst⟩

/-! ## A sequence cut short right after its final update -/

/-- The upload of `capture1.pcap` into the empty store and its sequence, when
every draw is `1/2` and the store fails from the eighth call on: the sequence
applies its five progress updates and its final update, and then throws at the
first insert of an alert. -/
theorem capture_run_sevenCalls :
    ((simulateAnalysisProcessing 1).run ((POST captureRequest).run
      (World.start emptyStore halfDraws sevenCalls 1700000000000)).2).1 = .error (.store 7) ∧
    ((simulateAnalysisProcessing 1).run ((POST captureRequest).run
      (World.start emptyStore halfDraws sevenCalls 1700000000000)).2).2.store.analyses =
        [captureCompleted] ∧
    ((simulateAnalysisProcessing 1).run ((POST captureRequest).run
      (World.start emptyStore halfDraws sevenCalls 1700000000000)).2).2.store.alerts = [] ∧
    ((simulateAnalysisProcessing 1).run ((POST captureRequest).run
      (World.start emptyStore halfDraws sevenCalls 1700000000000)).2).2.store.drone_nodes = [] ∧
    ((simulateAnalysisProcessing 1).run ((POST captureRequest).run
      (World.start emptyStore halfDraws sevenCalls 1700000000000)).2).2.trace.map (·.stmt) =
        [.insertAnalysis "capture1.pcap" 1024 "processing" 0, .updateProgress 20 1,
          .updateProgress 40 1, .updateProgress 60 1, .updateProgress 80 1,
          .updateProgress 90 1,
          completionStmt 1 halfDraw halfDraw halfDraw halfDraw halfDraw halfDraw] := by
  rw [capture_upload _ _ _ rfl]
  have hattacks : mathFloor (halfDraw.val * 6) = 3 := by norm_num [mathFloor, halfDraw]
  simp [simulateAnalysisProcessing, forLoop, simulateStep, steps, run_bind, run_pure, run_sleep,
    run_sql, run_mathRandom, uploadedWorld, World.start, sevenCalls, emptyStore, halfDraws,
    Store.write, Store.exec, Store.newAnalysis, hattacks, generateSampleAlerts, run_dateNow,
    completionStmt, captureCompleted]
  norm_num [mathFloor, halfDraw]

/-- The writes of the sequence of the upload of `capture1.pcap` when the store
fails from the eighth call on. -/
theorem capture_writes_sevenCalls :
    ((captureWorld sevenCalls).writesSince
      ((simulateAnalysisProcessing 1).run (captureWorld sevenCalls)).2).map (·.stmt) =
      [.updateProgress 20 1, .updateProgress 40 1, .updateProgress 60 1, .updateProgress 80 1,
        .updateProgress 90 1,
        completionStmt 1 halfDraw halfDraw halfDraw halfDraw halfDraw halfDraw] := by
  have h := capture_run_sevenCalls.2.2.2.2
  have hlen : (captureWorld sevenCalls).trace.length = 1 := by
    rw [captureWorld, capture_upload _ _ _ rfl]; rfl
  rw [World.writesSince, hlen, List.map_drop]
  unfold captureWorld
  rw [h]
  rfl

/-- The rows of the uploaded analysis are pending when its sequence starts. -/
theorem captureWorld_pending (failAt : ℕ → Bool) (h : failAt 0 = false) :
    ∀ a ∈ (captureWorld failAt).store.analyses, a.id = 1 → a.Pending := by
  rw [captureWorld, capture_upload _ _ _ h]
  intro a ha _
  have : a = uploadedRow (World.start emptyStore halfDraws failAt 1700000000000)
      "capture1.pcap" 1024 := by
    simpa [uploadedWorld_analyses, World.start, emptyStore] using ha
  rw [this]
  simp [Analysis.Pending, uploadedRow, Store.newAnalysis]

/-! ## Atomicity of the final update -/

/-- Claim C12. Let the sequence find the rows of its analysis pending (in
processing, no summary, no completion time) and let any store call fail,
in particular any call of the terminal stage.  Every write of the sequence
takes those rows from pending to pending, from pending to done (completed,
progress 100, six summary fields and completion time all set) or from done to
done; at most one write sets status and summary; and the run leaves the rows
all pending or all done, never completed with a summary field absent. -/
theorem terminal_stage_never_half_written (analysisId : ℕ) (w : World)
    (hpending : ∀ a ∈ w.store.analyses, a.id = analysisId → a.Pending) :
    (∀ wr ∈ w.writesSince ((simulateAnalysisProcessing analysisId).run w).2,
      wr.RowStep analysisId) ∧
    ((w.writesSince ((simulateAnalysisProcessing analysisId).run w).2).filterMap
      (fun wr => wr.stmt.summaryWritten)).length ≤ 1 ∧
    ((∀ a ∈ ((simulateAnalysisProcessing analysisId).run w).2.store.analyses,
        a.id = analysisId → a.Pending) ∨
      (∀ a ∈ ((simulateAnalysisProcessing analysisId).run w).2.store.analyses,
        a.id = analysisId → a.Done)) ∧
    ∀ a ∈ ((simulateAnalysisProcessing analysisId).run w).2.store.analyses,
      a.id = analysisId →
      ¬ (a.status = "completed" ∧
        (a.trust_score = none ∨ a.attacks_detected = none ∨ a.anomaly_score = none ∨
          a.total_packets = none ∨ a.total_nodes = none ∨ a.analysis_duration = none)) := by
  obtain ⟨hsteps, hfinal⟩ := simulate_row_states analysisId w hpending
  have key := simulate_phases analysisId
    (fun ph _ tr => ∃ ext, tr = w.trace ++ ext ∧
      (ext.filterMap (fun wr => wr.stmt.summaryWritten)).length =
        match ph with
        | .stage _ => 0
        | .children _ _ _ _ => 1)
    (by
      rintro k step s tr now - - ⟨ext, rfl, h⟩
      refine ⟨ext ++ [s.write now (.updateProgress step.progress analysisId)], by simp, ?_⟩
      rw [List.filterMap_append, List.length_append, h]; rfl)
    (by
      rintro s tr now d₁ d₂ d₃ d₄ d₅ d₆ ⟨ext, rfl, h⟩
      refine ⟨ext ++ [s.write now (completionStmt analysisId d₁ d₂ d₃ d₄ d₅ d₆)], by simp, ?_⟩
      rw [List.filterMap_append, List.length_append, h]; rfl)
    (by
      rintro a n i s tr now d₁ d₂ d₃ d₄ d₅ d₆ - ⟨ext, rfl, h⟩
      refine ⟨ext ++ [s.write now (.insertAlert (alertRow analysisId n now d₁ d₂ d₃ d₄ d₅ d₆))],
        by simp, ?_⟩
      rw [List.filterMap_append, List.length_append, h]; rfl)
    (by
      rintro a n j s tr now d₁ d₂ d₃ d₄ d₅ d₆ d₇ - ⟨ext, rfl, h⟩
      refine ⟨ext ++ [s.write now
        (.insertDroneNode (droneNodeRow analysisId (j + 1) now d₁ d₂ d₃ d₄ d₅ d₆ d₇))],
        by simp, ?_⟩
      rw [List.filterMap_append, List.length_append, h]; rfl)
    w ⟨[], by simp, rfl⟩
  have hcount := wp_final (wp_mono key
    (R := fun _ w' => ∃ ext, w'.trace = w.trace ++ ext ∧
      (ext.filterMap (fun wr => wr.stmt.summaryWritten)).length ≤ 1)
    (F := fun _ w' => ∃ ext, w'.trace = w.trace ++ ext ∧
      (ext.filterMap (fun wr => wr.stmt.summaryWritten)).length ≤ 1)
    (by rintro _ w' ⟨a, n, ext, hext, h⟩; exact ⟨ext, hext, h.le⟩)
    (by
      rintro _ w' ⟨ph, -, ext, hext, h⟩
      refine ⟨ext, hext, ?_⟩
      cases ph <;> simp only at h <;> omega))
  refine ⟨hsteps, ?_, hfinal, ?_⟩
  · obtain ⟨ext, hext, h⟩ := hcount
    simpa only [World.writesSince, hext, List.drop_left] using h
  · rintro a ha hid ⟨hst, hnone⟩
    rcases hfinal with h | h
    · have := (h a ha hid).1
      rw [hst] at this
      exact processing_ne_completed this.symm
    · obtain ⟨-, -, h1, h2, h3, h4, h5, h6, -⟩ := h a ha hid
      rcases hnone with e | e | e | e | e | e
      · exact h1 e
      · exact h2 e
      · exact h3 e
      · exact h4 e
      · exact h5 e
      · exact h6 e

/-- Witness for C12: the sequence of the upload of `capture1.pcap`, cut short at
the first alert insert of its terminal stage, leaves its row completed with
the whole summary. -/
theorem terminal_stage_never_half_written_witness :
    (∀ a ∈ (captureWorld sevenCalls).store.analyses, a.id = 1 → a.Pending) ∧
    ((simulateAnalysisProcessing 1).run (captureWorld sevenCalls)).1 = .error (.store 7) ∧
    captureCompleted ∈
      ((simulateAnalysisProcessing 1).run (captureWorld sevenCalls)).2.store.analyses ∧
    ¬ (captureCompleted.status = "completed" ∧
        (captureCompleted.trust_score = none ∨ captureCompleted.attacks_detected = none ∨
          captureCompleted.anomaly_score = none ∨ captureCompleted.total_packets = none ∨
          captureCompleted.total_nodes = none ∨ captureCompleted.analysis_duration = none)) :=
  have hp := captureWorld_pending sevenCalls rfl
  have hmem : captureCompleted ∈
      ((simulateAnalysisProcessing 1).run (captureWorld sevenCalls)).2.store.analyses := by
    unfold captureWorld
    rw [capture_run_sevenCalls.2.1]
    simp
  ⟨hp, capture_run_sevenCalls.1, hmem,
    (terminal_stage_never_half_written 1 (captureWorld sevenCalls) hp).2.2.2
      captureCompleted hmem rfl⟩

/-! ## The stage updates change the progress only -/

/-- The writes of the sequence of the upload of `capture1.pcap` when the store
fails from the third call on: the first progress update alone. -/
theorem capture_writes_twoCalls :
    (captureWorld twoCalls).writesSince
      ((simulateAnalysisProcessing 1).run (captureWorld twoCalls)).2 = [firstStageWrite] := by
  have hlen : (captureWorld twoCalls).trace.length = 1 := by
    rw [captureWorld, capture_upload _ _ _ rfl]; rfl
  rw [World.writesSince, hlen]
  unfold captureWorld
  rw [capture_trace_twoCalls]
  rfl

/-- Claim C16. Let the sequence find the rows of its analysis pending.  Each
progress update it applies is for the identifier of the sequence, writes one of
the targets 20, 40, 60, 80, 90 of the five stages before the last, replaces
the progress of the rows with that identifier and changes nothing else in the
store; those rows stay in processing, with the six summary fields and the
completion time null. -/
theorem stage_update_changes_only_progress (analysisId : ℕ) (w : World)
    (hpending : ∀ a ∈ w.store.analyses, a.id = analysisId → a.Pending)
    (wr : Write) (hwr : wr ∈ w.writesSince ((simulateAnalysisProcessing analysisId).run w).2)
    (p : ℤ) (i : ℕ) (hstmt : wr.stmt = .updateProgress p i) :
    i = analysisId ∧ p ∈ [20, 40, 60, 80, 90] ∧
    wr.after.analyses = wr.before.analyses.map
      (fun a => if a.id = analysisId then { a with progress := p } else a) ∧
    wr.after.alerts = wr.before.alerts ∧ wr.after.drone_nodes = wr.before.drone_nodes ∧
    wr.after.network_metrics = wr.before.network_metrics ∧
    wr.after.nextId = wr.before.nextId ∧
    ∀ a ∈ wr.after.analyses, a.id = analysisId →
      a.progress = p ∧ a.status = "processing" ∧ a.trust_score = none ∧
      a.attacks_detected = none ∧ a.anomaly_score = none ∧ a.total_packets = none ∧
      a.total_nodes = none ∧ a.analysis_duration = none ∧ a.completed_at = none := by
  have hframe := simulate_writes
    (fun wr => ∀ (p : ℤ) (i : ℕ), wr.stmt = .updateProgress p i →
      i = analysisId ∧ p ∈ [20, 40, 60, 80, 90] ∧
      wr.after.analyses = wr.before.analyses.map
        (fun a => if a.id = analysisId then { a with progress := p } else a) ∧
      wr.after.alerts = wr.before.alerts ∧ wr.after.drone_nodes = wr.before.drone_nodes ∧
      wr.after.network_metrics = wr.before.network_metrics ∧
      wr.after.nextId = wr.before.nextId)
    analysisId ?_ ?_ ?_ ?_ w wr hwr p i hstmt
  · obtain ⟨hi, hp, han, hal, hno, hme, hnx⟩ := hframe
    refine ⟨hi, hp, han, hal, hno, hme, hnx, ?_⟩
    intro a ha hid
    have hprog : a.progress = p := by
      rw [han, List.mem_map] at ha
      obtain ⟨b, -, rfl⟩ := ha
      by_cases hb : b.id = analysisId
      · rw [if_pos hb]
      · rw [if_neg hb] at hid; exact absurd hid hb
    have hrow := (simulate_row_states analysisId w hpending).1 wr hwr
    rcases hrow with ⟨-, -, h⟩ | ⟨h, -, -⟩ | ⟨h, -, -⟩
    · exact ⟨hprog, h a ha hid⟩
    · rw [hstmt] at h; exact absurd rfl h
    · rw [hstmt] at h
      rcases h with ⟨row, h⟩ | ⟨row, h⟩ <;> cases h
  · intro k step s now hk hstep q j hq
    have hq' : Stmt.updateProgress step.progress analysisId = .updateProgress q j := hq
    injection hq' with h1 h2
    subst h1 h2
    refine ⟨rfl, ?_, rfl, rfl, rfl, rfl, rfl⟩
    interval_cases k <;> simp [steps] at hstep <;> subst hstep <;> simp
  · intro s now d₁ d₂ d₃ d₄ d₅ d₆ q j hq
    cases hq
  · intro s n now d₁ d₂ d₃ d₄ d₅ d₆ q j hq
    cases hq
  · intro s j' now d₁ d₂ d₃ d₄ d₅ d₆ d₇ q j hq
    cases hq

/-- Witness for C16: the first progress update of the sequence of the upload of
`capture1.pcap`. -/
theorem stage_update_changes_only_progress_witness :
    (∀ a ∈ (captureWorld twoCalls).store.analyses, a.id = 1 → a.Pending) ∧
    firstStageWrite ∈ (captureWorld twoCalls).writesSince
      ((simulateAnalysisProcessing 1).run (captureWorld twoCalls)).2 ∧
    firstStageWrite.stmt = .updateProgress 20 1 ∧
    (20 : ℤ) ∈ [20, 40, 60, 80, 90] ∧
    ∀ a ∈ firstStageWrite.after.analyses, a.id = 1 →
      a.progress = 20 ∧ a.status = "processing" ∧ a.trust_score = none ∧
      a.attacks_detected = none ∧ a.anomaly_score = none ∧ a.total_packets = none ∧
      a.total_nodes = none ∧ a.analysis_duration = none ∧ a.completed_at = none :=
  have hp := captureWorld_pending twoCalls rfl
  have hmem : firstStageWrite ∈ (captureWorld twoCalls).writesSince
      ((simulateAnalysisProcessing 1).run (captureWorld twoCalls)).2 := by
    rw [capture_writes_twoCalls]; simp
  have h := stage_update_changes_only_progress 1 (captureWorld twoCalls) hp firstStageWrite hmem
    20 1 rfl
  ⟨hp, hmem, rfl, h.2.1, h.2.2.2.2.2.2.2⟩

/-! ## Ranges of the summary values and of the alert fields -/

/-- The floor of a draw times a positive whole number `k` is one of `0..k-1`. -/
theorem floor_draw_bounds (d : Draw) (q : ℚ) (k : ℤ) (hk : (k : ℚ) = q) (hq : 0 < q) :
    0 ≤ mathFloor (d.val * q) ∧ mathFloor (d.val * q) < k := by
  refine ⟨Int.floor_nonneg.2 (mul_nonneg d.nonneg hq.le), ?_⟩
  unfold mathFloor
  rw [Int.floor_lt, hk]
  have := d.lt_one
  nlinarith

/-- Claim C17. The summary values written by the final update of the sequence, for
draws in `[0, 1)` and exact arithmetic with floor, are: `attacks_detected` an
integer in `0..5`, `anomaly_score` in `[0, 0.5]`, `total_packets` an integer in
`[5000, 20000)`, `total_nodes` an integer in `[8, 20)` and `analysis_duration`
an integer in `[25, 65)`. -/
theorem summary_values_in_range (analysisId : ℕ) (w : World) (summary : Summary)
    (h : summary ∈ (w.writesSince ((simulateAnalysisProcessing analysisId).run w).2).filterMap
      (fun wr => wr.stmt.summaryWritten)) :
    0 ≤ summary.attacks_detected ∧ summary.attacks_detected ≤ 5 ∧
    0 ≤ summary.anomaly_score ∧ summary.anomaly_score ≤ 0.5 ∧
    5000 ≤ summary.total_packets ∧ summary.total_packets < 20000 ∧
    8 ≤ summary.total_nodes ∧ summary.total_nodes < 20 ∧
    25 ≤ summary.analysis_duration ∧ summary.analysis_duration < 65 := by
  obtain ⟨wr, hwr, hsum⟩ := List.mem_filterMap.1 h
  refine simulate_stmts
    (fun stmt => ∀ summary : Summary, stmt.summaryWritten = some summary →
      0 ≤ summary.attacks_detected ∧ summary.attacks_detected ≤ 5 ∧
      0 ≤ summary.anomaly_score ∧ summary.anomaly_score ≤ 0.5 ∧
      5000 ≤ summary.total_packets ∧ summary.total_packets < 20000 ∧
      8 ≤ summary.total_nodes ∧ summary.total_nodes < 20 ∧
      25 ≤ summary.analysis_duration ∧ summary.analysis_duration < 65)
    analysisId ?_ ?_ ?_ ?_ w wr hwr summary hsum
  · intro k step _ _ s hs
    cases hs
  · intro d₁ d₂ d₃ d₄ d₅ d₆ s hs
    simp only [completionStmt, Stmt.summaryWritten, Option.some.injEq] at hs
    subst hs
    obtain ⟨a0, a1⟩ := floor_draw_bounds d₂ 6 6 (by norm_num) (by norm_num)
    obtain ⟨p0, p1⟩ := floor_draw_bounds d₄ 15000 15000 (by norm_num) (by norm_num)
    obtain ⟨n0, n1⟩ := floor_draw_bounds d₅ 12 12 (by norm_num) (by norm_num)
    obtain ⟨t0, t1⟩ := floor_draw_bounds d₆ 40 40 (by norm_num) (by norm_num)
    have h3 := d₃.nonneg
    have h3' := d₃.lt_one
    dsimp only
    refine ⟨a0, by omega, ?_, ?_, by omega, by omega, by omega, by omega, by omega, by omega⟩
    · positivity
    · norm_num
      linarith
  · intro n now d₁ d₂ d₃ d₄ d₅ d₆ s hs
    cases hs
  · intro i now d₁ d₂ d₃ d₄ d₅ d₆ d₇ s hs
    cases hs

/-- Witness for C17: the summary written for the upload of `capture1.pcap` when
every draw is `1/2`. -/
theorem summary_values_in_range_witness :
    sampleSummary ∈ ((captureWorld sevenCalls).writesSince
      ((simulateAnalysisProcessing 1).run (captureWorld sevenCalls)).2).filterMap
        (fun wr => wr.stmt.summaryWritten) ∧
    0 ≤ sampleSummary.attacks_detected ∧ sampleSummary.attacks_detected ≤ 5 ∧
    8 ≤ sampleSummary.total_nodes ∧ sampleSummary.total_nodes < 20 :=
  have hmem : sampleSummary ∈ ((captureWorld sevenCalls).writesSince
      ((simulateAnalysisProcessing 1).run (captureWorld sevenCalls)).2).filterMap
        (fun wr => wr.stmt.summaryWritten) := by
    have h := congrArg (List.filterMap Stmt.summaryWritten) capture_writes_sevenCalls
    rw [List.filterMap_map] at h
    have h' : ((captureWorld sevenCalls).writesSince
        ((simulateAnalysisProcessing 1).run (captureWorld sevenCalls)).2).filterMap
          (fun wr => wr.stmt.summaryWritten) = [sampleSummary] := h
    rw [h']
    simp
  have h := summary_values_in_range 1 (captureWorld sevenCalls) sampleSummary hmem
  ⟨hmem, h.1, h.2.1, h.2.2.2.2.2.2.1, h.2.2.2.2.2.2.2.1⟩

/-- The run of `generateSampleAlerts` for one alert among 14 nodes in the empty
store. -/
theorem generateSampleAlerts_sample :
    ((generateSampleAlerts 1 1 14).run emptyWorld).2.store.alerts = [sampleAlert] := by
  simp [generateSampleAlerts, forLoop, run_bind, run_pure, run_mathRandom, run_dateNow,
    run_sql, emptyWorld, World.start, emptyStore, halfDraws, noFailure, halfDraw, Store.exec,
    sampleAlert]
  have h5 : mathFloor ((2 : ℚ)⁻¹ * 5) = 2 := by norm_num [mathFloor, Int.floor_eq_iff]
  have h4 : mathFloor ((2 : ℚ)⁻¹ * 4) = 2 := by norm_num [mathFloor, Int.floor_eq_iff]
  have h3 : mathFloor ((2 : ℚ)⁻¹ * 3) = 1 := by norm_num [mathFloor, Int.floor_eq_iff]
  have h14 : mathFloor ((2 : ℚ)⁻¹ * 14) = 7 := by norm_num [mathFloor, Int.floor_eq_iff]
  rw [h5, h4, h3, h14]
  refine ⟨by decide, by decide, by decide, ?_, by decide, ?_, by decide⟩
  · norm_num
  · norm_num [newDate, Int.floor_eq_iff]

theorem sampleAlert_mem :
    sampleAlert ∈ emptyWorld.alertsSince ((generateSampleAlerts 1 1 14).run emptyWorld).2 := by
  rw [World.alertsSince, generateSampleAlerts_sample]
  simp [emptyWorld, World.start, emptyStore]

/-- Claim C19. Every alert inserted by `generateSampleAlerts`, for draws in
`[0, 1)`, has an attack type among Blackhole, Wormhole, Sybil, Flooding and
Jamming, a severity among low, medium, high and critical, and a detection
method among rule-based, ml-isolation-forest and ml-lstm (each array index is
in bounds, so no field is `undefined`), and a confidence in `[0.6, 1.0]`. -/
theorem alert_fields_well_formed (analysisId : ℕ) (numAlerts totalNodes : ℤ) (w : World)
    (alert : Alert)
    (halert : alert ∈
      w.alertsSince ((generateSampleAlerts analysisId numAlerts totalNodes).run w).2) :
    (∃ s ∈ ["Blackhole", "Wormhole", "Sybil", "Flooding", "Jamming"],
      alert.attack_type = some s) ∧
    (∃ s ∈ ["low", "medium", "high", "critical"], alert.severity = some s) ∧
    (∃ s ∈ ["rule-based", "ml-isolation-forest", "ml-lstm"],
      alert.detection_method = some s) ∧
    0.6 ≤ alert.confidence ∧ alert.confidence ≤ 1.0 := by
  refine generateSampleAlerts_rows
    (fun alert =>
      (∃ s ∈ ["Blackhole", "Wormhole", "Sybil", "Flooding", "Jamming"],
        alert.attack_type = some s) ∧
      (∃ s ∈ ["low", "medium", "high", "critical"], alert.severity = some s) ∧
      (∃ s ∈ ["rule-based", "ml-isolation-forest", "ml-lstm"],
        alert.detection_method = some s) ∧
      0.6 ≤ alert.confidence ∧ alert.confidence ≤ 1.0)
    analysisId totalNodes ?_ numAlerts w alert halert
  intro now d₁ d₂ d₃ d₄ d₅ d₆ detected
  have h5 := d₅.nonneg
  have h5' := d₅.lt_one
  refine ⟨arrayGet_draw _ (by simp) d₁, arrayGet_draw _ (by simp) d₂,
    arrayGet_draw _ (by simp) d₃, ?_, ?_⟩
  · show (0.6 : ℚ) ≤ 0.6 + d₅.val * 0.4
    norm_num
    linarith
  · show 0.6 + d₅.val * 0.4 ≤ (1.0 : ℚ)
    norm_num
    linarith

/-- Witness for C19: the alert generated when every draw is `1/2`. -/
theorem alert_fields_well_formed_witness :
    sampleAlert ∈ emptyWorld.alertsSince ((generateSampleAlerts 1 1 14).run emptyWorld).2 ∧
    (∃ s ∈ ["Blackhole", "Wormhole", "Sybil", "Flooding", "Jamming"],
      sampleAlert.attack_type = some s) ∧
    0.6 ≤ sampleAlert.confidence ∧ sampleAlert.confidence ≤ 1.0 :=
  have h := alert_fields_well_formed 1 1 14 emptyWorld sampleAlert sampleAlert_mem
  ⟨sampleAlert_mem, h.1, h.2.2.2⟩

/-! ## The node an alert points at -/

/-- Claim C18. For a node count `N ≥ 1` and draws in `[0, 1)`, every alert inserted
by `generateSampleAlerts` names as affected node `UAV_` followed by the padded
number `k = floor(r * N) + 1`, where `1 ≤ k ≤ N`; this is the identifier of one
of the `N` drone nodes that a run of `generateSampleDroneNodes` for the same
analysis and the same `N` inserts when it returns. -/
theorem alert_node_is_generated_node (analysisId : ℕ) (numAlerts : ℤ) (N : ℕ) (hN : 1 ≤ N)
    (w w₂ : World) (alert : Alert)
    (halert : alert ∈ w.alertsSince ((generateSampleAlerts analysisId numAlerts N).run w).2)
    (hret : ((generateSampleDroneNodes analysisId N).run w₂).1 = .ok ()) :
    ∃ k : ℕ, 1 ≤ k ∧ k ≤ N ∧ alert.affected_node_id = uavNodeId (k : ℤ) ∧
      ∃ node ∈ w₂.nodesSince ((generateSampleDroneNodes analysisId N).run w₂).2,
        node.analysis_id = analysisId ∧ node.node_id = alert.affected_node_id := by
  have hk : ∃ k : ℕ, 1 ≤ k ∧ k ≤ N ∧ alert.affected_node_id = uavNodeId (k : ℤ) := by
    refine generateSampleAlerts_rows
      (fun alert => ∃ k : ℕ, 1 ≤ k ∧ k ≤ N ∧ alert.affected_node_id = uavNodeId (k : ℤ))
      analysisId N ?_ numAlerts w alert halert
    intro now d₁ d₂ d₃ d₄ d₅ d₆ detected
    have hNq : (0 : ℚ) < ((N : ℤ) : ℚ) := by exact_mod_cast hN
    obtain ⟨h0, h1⟩ := floor_draw_bounds d₄ ((N : ℤ) : ℚ) N rfl hNq
    refine ⟨(mathFloor (d₄.val * ((N : ℤ) : ℚ)) + 1).toNat, by omega, by omega, ?_⟩
    rw [Int.toNat_of_nonneg (by omega)]
    rfl
  obtain ⟨k, hk1, hkN, hid⟩ := hk
  refine ⟨k, hk1, hkN, hid, ?_⟩
  have hids := generateSampleDroneNodes_ids analysisId N w₂ hret
  rw [Int.toNat_natCast] at hids
  have hmem : (analysisId, uavNodeId (k : ℤ)) ∈
      (w₂.nodesSince ((generateSampleDroneNodes analysisId N).run w₂).2).map
        (fun r => (r.analysis_id, r.node_id)) := by
    rw [hids, List.mem_map]
    exact ⟨k, List.mem_range'_1.2 ⟨hk1, by omega⟩, rfl⟩
  obtain ⟨node, hnode, heq⟩ := List.mem_map.1 hmem
  simp only [Prod.mk.injEq] at heq
  exact ⟨node, hnode, heq.1, by rw [heq.2, hid]⟩

/-- When no store call fails, `generateSampleDroneNodes` runs to its end. -/
theorem generateSampleDroneNodes_returns_ok (analysisId : ℕ) (totalNodes : ℤ) (w : World)
    (h : ∀ n, w.failAt n = false) :
    ((generateSampleDroneNodes analysisId totalNodes).run w).1 = .ok () :=
  wp_returns (generateSampleDroneNodes_returns analysisId totalNodes w h)

/-- Witness for C18: the alert generated among 14 nodes when every draw is `1/2`
points at node 8, one of the 14 generated nodes. -/
theorem alert_node_is_generated_node_witness :
    1 ≤ 14 ∧
    sampleAlert ∈ emptyWorld.alertsSince
      ((generateSampleAlerts 1 1 ((14 : ℕ) : ℤ)).run emptyWorld).2 ∧
    ((generateSampleDroneNodes 1 ((14 : ℕ) : ℤ)).run emptyWorld).1 = .ok () ∧
    ∃ k : ℕ, 1 ≤ k ∧ k ≤ 14 ∧ sampleAlert.affected_node_id = uavNodeId (k : ℤ) ∧
      ∃ node ∈ emptyWorld.nodesSince
          ((generateSampleDroneNodes 1 ((14 : ℕ) : ℤ)).run emptyWorld).2,
        node.analysis_id = 1 ∧ node.node_id = sampleAlert.affected_node_id :=
  have hmem : sampleAlert ∈ emptyWorld.alertsSince
      ((generateSampleAlerts 1 1 ((14 : ℕ) : ℤ)).run emptyWorld).2 := by
    rw [Nat.cast_ofNat]; exact sampleAlert_mem
  have hret : ((generateSampleDroneNodes 1 ((14 : ℕ) : ℤ)).run emptyWorld).1 = .ok () :=
    generateSampleDroneNodes_returns_ok 1 _ emptyWorld (fun _ => rfl)
  ⟨by norm_num, hmem, hret,
    alert_node_is_generated_node 1 1 14 (by norm_num) emptyWorld emptyWorld sampleAlert
      hmem hret⟩

/-! ## What a sequence has done when it ends -/

/-- The world left by a run that threw satisfies the exceptional postcondition. -/
theorem wp_thrown {α : Type} {m : Async α} {Q : α → World → Prop}
    {E : JsError → World → Prop} {w : World} (h : wp m Q E w) :
    ∀ e, (m.run w).1 = .error e → E e (m.run w).2 := by
  unfold wp at h
  rcases hm : m.run w with ⟨r, w'⟩
  rw [hm] at h
  cases r with
  | ok a => intro e he; cases he
  | error e' =>
    intro e he
    cases he
    exact h

/-- A sequence that finds the rows of its analysis pending below progress 100
ends in a phase that describes what it has done: the last phase when it
returns, an unfinished phase when a store call fails. -/
theorem simulate_outcome (analysisId : ℕ) (w : World)
    (hstart : ∀ a ∈ w.store.analyses, a.id = analysisId → a.Pending ∧ a.progress < 100) :
    (((simulateAnalysisProcessing analysisId).run w).1 = .ok () →
      ∃ a n : ℤ, (Phase.children a n a.toNat n.toNat).Describes analysisId w.store
        ((simulateAnalysisProcessing analysisId).run w).2.store
        (w.writesSince ((simulateAnalysisProcessing analysisId).run w).2)) ∧
    (∀ e, ((simulateAnalysisProcessing analysisId).run w).1 = .error e →
      ∃ ph : Phase, ph.Unfinished ∧ ph.Describes analysisId w.store
        ((simulateAnalysisProcessing analysisId).run w).2.store
        (w.writesSince ((simulateAnalysisProcessing analysisId).run w).2)) := by
  have key := simulate_phases analysisId
    (fun ph s tr => ∃ ext, tr = w.trace ++ ext ∧ ph.Describes analysisId w.store s ext)
    ?_ ?_ ?_ ?_ w ⟨[], by simp, by simp, by simp [steps], rfl, rfl, hstart⟩
  · constructor
    · intro hret
      obtain ⟨a, n, ext, hext, h⟩ :=
        wp_returned (wp_mono key (fun _ _ h => h) (fun _ _ _ => trivial)) () hret
      refine ⟨a, n, ?_⟩
      simpa only [World.writesSince, hext, List.drop_left] using h
    · intro e he
      obtain ⟨ph, hun, ext, hext, h⟩ := wp_thrown key e he
      refine ⟨ph, hun, ?_⟩
      simpa only [World.writesSince, hext, List.drop_left] using h
  · -- a progress update of a stage before the last
    rintro k step s tr now hk hstep ⟨ext, rfl, -, hstmts, hal, hno, hrows⟩
    refine ⟨ext ++ [s.write now (.updateProgress step.progress analysisId)], by simp,
      by omega, ?_, hal, hno, ?_⟩
    · simp only [List.map_append, hstmts, List.take_succ, hstep]
      rfl
    · intro a ha hid
      refine ⟨pending_updateProgress s now step.progress analysisId
        (fun b hb hbid => (hrows b hb hbid).1) a ha hid, ?_⟩
      simp only [Store.exec, List.mem_map] at ha
      obtain ⟨b, hb, rfl⟩ := ha
      by_cases hbid : b.id = analysisId
      · rw [if_pos hbid]; exact stage_progress_lt k step hk hstep
      · rw [if_neg hbid] at hid; exact absurd hid hbid
  · -- the final update
    rintro s tr now d₁ d₂ d₃ d₄ d₅ d₆ ⟨ext, rfl, -, hstmts, hal, hno, hrows⟩
    refine ⟨ext ++ [s.write now (completionStmt analysisId d₁ d₂ d₃ d₄ d₅ d₆)], by simp, ?_,
      (floor_draw_bounds d₂ 6 6 (by norm_num) (by norm_num)).1, ?_, Nat.zero_le _,
      Nat.zero_le _, fun h => absurd h (lt_irrefl 0), ⟨[], by simpa using hal, rfl, by simp⟩,
      ⟨[], by simpa using hno, by simp⟩, done_completion s now analysisId d₁ d₂ d₃ d₄ d₅ d₆⟩
    · have hnone : ext.filterMap (fun wr => wr.stmt.countsWritten) = [] := by
        have h1 := congrArg (List.filterMap Stmt.countsWritten) hstmts
        rw [List.filterMap_map, List.filterMap_map] at h1
        exact h1.trans (List.filterMap_eq_nil_iff.2 (fun _ _ => rfl))
      rw [List.filterMap_append, hnone]
      rfl
    · have := (floor_draw_bounds d₅ 12 12 (by norm_num) (by norm_num)).1
      omega
  · -- an alert insert
    rintro a n i s tr now d₁ d₂ d₃ d₄ d₅ d₆ hi
      ⟨ext, rfl, hcounts, ha, hn, -, hj, -, ⟨alerts, hal, hlen, hids⟩, hnodes, hrows⟩
    refine ⟨ext ++ [s.write now (.insertAlert (alertRow analysisId n now d₁ d₂ d₃ d₄ d₅ d₆))],
      by simp, ?_, ha, hn, by omega, hj, fun h => absurd h (lt_irrefl 0),
      ⟨alerts ++ [(alertRow analysisId n now d₁ d₂ d₃ d₄ d₅ d₆).stored (s.detectedDefault now)],
        ?_, by simp [hlen], ?_⟩, hnodes, hrows⟩
    · rw [List.filterMap_append, hcounts]; rfl
    · simp [Store.exec, hal, Alert.stored]
    · intro alert halert
      rcases List.mem_append.1 halert with h | h
      · exact hids alert h
      · rw [List.mem_singleton.1 h]; rfl
  · -- a node insert
    rintro a n j s tr now d₁ d₂ d₃ d₄ d₅ d₆ d₇ hj
      ⟨ext, rfl, hcounts, ha, hn, hi, -, -, halerts, ⟨nodes, hno, hids⟩, hrows⟩
    refine ⟨ext ++ [s.write now
        (.insertDroneNode (droneNodeRow analysisId (j + 1) now d₁ d₂ d₃ d₄ d₅ d₆ d₇))],
      by simp, ?_, ha, hn, hi, by omega, fun _ => rfl, halerts,
      ⟨nodes ++ [droneNodeRow analysisId (j + 1) now d₁ d₂ d₃ d₄ d₅ d₆ d₇], ?_, ?_⟩, hrows⟩
    · rw [List.filterMap_append, hcounts]; rfl
    · simp [Store.exec, hno]
    · simp only [List.map_append, hids, List.map_cons, List.map_nil, List.range'_concat,
        Nat.one_mul, Nat.add_comm 1 j]
      rfl

/-! ## Where a failed sequence leaves the progress -/

/-- The rows of the uploaded analysis are pending at progress 0 when its
sequence starts. -/
theorem captureWorld_start (failAt : ℕ → Bool) (h : failAt 0 = false) :
    ∀ a ∈ (captureWorld failAt).store.analyses, a.id = 1 → a.Pending ∧ a.progress < 100 := by
  intro a ha hid
  refine ⟨captureWorld_pending failAt h a ha hid, ?_⟩
  rw [captureWorld, capture_upload _ _ _ h] at ha
  have : a = uploadedRow (World.start emptyStore halfDraws failAt 1700000000000)
      "capture1.pcap" 1024 := by
    simpa [uploadedWorld_analyses, World.start, emptyStore] using ha
  rw [this]
  simp [uploadedRow, Store.newAnalysis]

/-- Counterexample to C14: in the sequence of the upload of `capture1.pcap`, with
every draw `1/2`, the five progress updates and the final update succeed and
the next store call, the insert of the first of three alerts, fails.  The
sequence throws, and the row it found at progress 0 is left at progress 100,
which is not below 100. -/
theorem failed_insert_leaves_progress_100 :
    ((simulateAnalysisProcessing 1).run (captureWorld sevenCalls)).1 = .error (.store 7) ∧
    (captureWorld sevenCalls).store.progressOf 1 = some 0 ∧
    ((simulateAnalysisProcessing 1).run (captureWorld sevenCalls)).2.store.progressOf 1 =
      some 100 ∧
    ¬ ((100 : ℤ) < 100) := by
  refine ⟨capture_run_sevenCalls.1, ?_, ?_, by norm_num⟩
  · rw [captureWorld, capture_upload _ _ _ rfl]
    exact uploadedWorld_progressOf _ _ _ (fun a ha => by cases ha)
  · unfold Store.progressOf captureWorld
    rw [capture_run_sevenCalls.2.1]
    rfl

/-- Claim C14, amended. Let the sequence find the rows of its analysis pending
below progress 100 and let a store call fail.  If the final update has not been
applied (the failed call is a progress update or the final update), the rows
are left in processing with progress below 100.  If it has been applied (the
failed call is an insert of a generator), the rows are left completed at
progress 100, with fewer alerts or fewer drone nodes than the counts written. -/
theorem failed_sequence_progress (analysisId : ℕ) (w : World)
    (hstart : ∀ a ∈ w.store.analyses, a.id = analysisId → a.Pending ∧ a.progress < 100)
    (e : JsError) (herr : ((simulateAnalysisProcessing analysisId).run w).1 = .error e) :
    ((w.writesSince ((simulateAnalysisProcessing analysisId).run w).2).filterMap
        (fun wr => wr.stmt.countsWritten) = [] ∧
      ∀ a ∈ ((simulateAnalysisProcessing analysisId).run w).2.store.analyses,
        a.id = analysisId → a.status = "processing" ∧ a.progress < 100) ∨
    (∃ c n : ℤ,
      (w.writesSince ((simulateAnalysisProcessing analysisId).run w).2).filterMap
        (fun wr => wr.stmt.countsWritten) = [(c, n)] ∧
      (∀ a ∈ ((simulateAnalysisProcessing analysisId).run w).2.store.analyses,
        a.id = analysisId → a.status = "completed" ∧ a.progress = 100) ∧
      ((w.alertsSince ((simulateAnalysisProcessing analysisId).run w).2).length < c.toNat ∨
        (w.nodesSince ((simulateAnalysisProcessing analysisId).run w).2).length < n.toNat)) := by
  obtain ⟨ph, hun, hdesc⟩ := (simulate_outcome analysisId w hstart).2 e herr
  cases ph with
  | stage k =>
    obtain ⟨-, hstmts, -, -, hrows⟩ := hdesc
    left
    refine ⟨?_, fun a ha hid => ⟨(hrows a ha hid).1.1, (hrows a ha hid).2⟩⟩
    have h1 := congrArg (List.filterMap Stmt.countsWritten) hstmts
    rw [List.filterMap_map, List.filterMap_map] at h1
    exact h1.trans (List.filterMap_eq_nil_iff.2 (fun _ _ => rfl))
  | children c n i j =>
    obtain ⟨hcounts, -, -, -, -, -, ⟨alerts, hal, hlen, -⟩, ⟨nodes, hno, hids⟩, hrows⟩ := hdesc
    right
    refine ⟨c, n, hcounts, fun a ha hid => ⟨(hrows a ha hid).1, (hrows a ha hid).2.1⟩, ?_⟩
    have hj : nodes.length = j := by simpa using congrArg List.length hids
    simp only [World.alertsSince, World.nodesSince, hal, hno, List.drop_left, hlen, hj]
    exact hun

/-- Witness for the amended C14: the sequence of the upload of `capture1.pcap`
that fails at its first alert insert leaves the row completed at progress 100
with no alert. -/
theorem failed_sequence_progress_witness :
    (∀ a ∈ (captureWorld sevenCalls).store.analyses, a.id = 1 → a.Pending ∧ a.progress < 100) ∧
    ((simulateAnalysisProcessing 1).run (captureWorld sevenCalls)).1 = .error (.store 7) ∧
    ((((captureWorld sevenCalls).writesSince
        ((simulateAnalysisProcessing 1).run (captureWorld sevenCalls)).2).filterMap
        (fun wr => wr.stmt.countsWritten) = [] ∧
      ∀ a ∈ ((simulateAnalysisProcessing 1).run (captureWorld sevenCalls)).2.store.analyses,
        a.id = 1 → a.status = "processing" ∧ a.progress < 100) ∨
    (∃ c n : ℤ,
      ((captureWorld sevenCalls).writesSince
        ((simulateAnalysisProcessing 1).run (captureWorld sevenCalls)).2).filterMap
        (fun wr => wr.stmt.countsWritten) = [(c, n)] ∧
      (∀ a ∈ ((simulateAnalysisProcessing 1).run (captureWorld sevenCalls)).2.store.analyses,
        a.id = 1 → a.status = "completed" ∧ a.progress = 100) ∧
      (((captureWorld sevenCalls).alertsSince
          ((simulateAnalysisProcessing 1).run (captureWorld sevenCalls)).2).length < c.toNat ∨
        ((captureWorld sevenCalls).nodesSince
          ((simulateAnalysisProcessing 1).run (captureWorld sevenCalls)).2).length < n.toNat))) :=
  ⟨captureWorld_start sevenCalls rfl, capture_run_sevenCalls.1,
    failed_sequence_progress 1 (captureWorld sevenCalls) (captureWorld_start sevenCalls rfl)
      (.store 7) capture_run_sevenCalls.1⟩

/-! ## A failed stage stops the sequence -/

/-- One more stage update applied. -/
theorem World.StagesApplied.next {w w' : World} {id i : ℕ} (h : w.StagesApplied id i w')
    (step : Step) (hstep : steps[i]? = some step) (now : ℤ) (randPos calls : ℕ) :
    w.StagesApplied id (i + 1)
      { w' with
        store := (w'.store.exec now (.updateProgress step.progress id)).1,
        randPos := randPos, calls := calls, now := now,
        trace := w'.trace ++ [⟨.updateProgress step.progress id, w'.store,
          (w'.store.exec now (.updateProgress step.progress id)).1⟩] } := by
  obtain ⟨⟨ext, htr, hstmts⟩, hal, hno, hprog⟩ := h
  refine ⟨⟨ext ++ [⟨.updateProgress step.progress id, w'.store,
    (w'.store.exec now (.updateProgress step.progress id)).1⟩], by simp [htr], ?_⟩, hal, hno, ?_⟩
  · simp only [List.map_append, hstmts, List.take_succ, hstep]
    rfl
  · intro b hb
    have := progressOf_updateProgress w'.store now step.progress id _ (hprog b hb)
    simpa [progressAfter, hstep] using this

/-- A change of clock, draws and call counter leaves what has been applied. -/
theorem World.StagesApplied.frame {w w' : World} {id i : ℕ} (h : w.StagesApplied id i w')
    (now : ℤ) (randPos calls : ℕ) :
    w.StagesApplied id i { w' with randPos := randPos, calls := calls, now := now } := h

/-- Claim C13. Let the stage of index `k` be the first whose update of the analysis
row fails: the store calls of the stages before succeed and the call that
follows them fails.  Then the sequence throws that failure after exactly the
`k` updates of the stages before `k`: no write of stage `k` or of a later stage
is applied, no child record is inserted, and a row that had progress `b` keeps
the target of the last stage before `k` (`b` itself when `k = 0`). -/
theorem failed_stage_stops_sequence (analysisId : ℕ) (w : World) (k : ℕ) (hk : k ≤ 5)
    (hok : ∀ j, j < k → w.failAt (w.calls + j) = false)
    (hfail : w.failAt (w.calls + k) = true) :
    ((simulateAnalysisProcessing analysisId).run w).1 = .error (.store (w.calls + k)) ∧
    (w.writesSince ((simulateAnalysisProcessing analysisId).run w).2).map (·.stmt) =
      (steps.take k).map (fun st => Stmt.updateProgress st.progress analysisId) ∧
    (w.writesSince ((simulateAnalysisProcessing analysisId).run w).2).filterMap
      (fun wr => wr.stmt.progressWritten) =
        (steps.take k).map (fun st => (analysisId, st.progress)) ∧
    ((simulateAnalysisProcessing analysisId).run w).2.store.alerts = w.store.alerts ∧
    ((simulateAnalysisProcessing analysisId).run w).2.store.drone_nodes = w.store.drone_nodes ∧
    ∀ b, w.store.progressOf analysisId = some b →
      ((simulateAnalysisProcessing analysisId).run w).2.store.progressOf analysisId =
        some (progressAfter k b) := by
  have key : wp (simulateAnalysisProcessing analysisId) (fun _ _ => False)
      (fun e w' => e = .store (w.calls + k) ∧ w.StagesApplied analysisId k w') w := by
    unfold simulateAnalysisProcessing
    refine wp_mono (wp_forLoop
      (fun i w' => i ≤ k ∧ w'.failAt = w.failAt ∧ w'.calls = w.calls + i ∧
        w.StagesApplied analysisId i w')
      _ steps.length 0 w ⟨Nat.zero_le _, rfl, rfl, ⟨[], by simp, by simp⟩, rfl, rfl,
        fun b hb => hb⟩ ?_)
      (fun _ w' h => by
        have h6 : (0 + steps.length) ≤ k := h.1
        simp [steps] at h6
        omega)
      (fun _ _ h => h)
    rintro i w' - hi ⟨hik, hfa, hcalls, happlied⟩
    have hi' : i < 6 := by simpa [steps] using hi
    have hcall : w'.failAt w'.calls = w.failAt (w.calls + i) := by rw [hfa, hcalls]
    by_cases h5 : i = 5
    · subst h5
      have hk5 : k = 5 := by omega
      subst hk5
      simp only [simulateStep, steps, List.length_cons, List.length_nil, wp_bind, wp_sleep,
        wp_mathRandom, wp_sql, wp_ite, wp_pure, Nat.zero_add, Nat.reduceAdd, Nat.reduceSub,
        if_true, true_implies, not_true, false_implies, and_true]
      refine ⟨fun _ => ⟨by rw [hcalls], happlied.frame _ _ _⟩, fun hf => ?_⟩
      rw [hcall, hfail] at hf
      cases hf
    · obtain ⟨step, hstep⟩ : ∃ step, steps[i]? = some step := by
        interval_cases i <;> exact ⟨_, rfl⟩
      rw [simulateStep_of_lt analysisId i step (by omega) hstep]
      simp only [wp_bind, wp_sleep, wp_sql, wp_pure]
      by_cases hlt : i < k
      · refine ⟨fun hf => ?_, fun _ => ⟨by omega, hfa, by simp [hcalls]; omega, ?_⟩⟩
        · rw [hcall, hok i hlt] at hf
          cases hf
        · exact happlied.next step hstep _ _ _
      · have hik' : i = k := by omega
        subst hik'
        refine ⟨fun _ => ⟨by rw [hcalls], happlied.frame _ _ _⟩, fun hf => ?_⟩
        rw [hcall, hfail] at hf
        cases hf
  have hthrow : ∃ e, ((simulateAnalysisProcessing analysisId).run w).1 = .error e := by
    unfold wp at key
    rcases hm : (simulateAnalysisProcessing analysisId).run w with ⟨r, w'⟩
    rw [hm] at key
    cases r with
    | ok a => exact key.elim
    | error e => exact ⟨e, rfl⟩
  obtain ⟨e, he⟩ := hthrow
  obtain ⟨rfl, ⟨ext, htr, hstmts⟩, hal, hno, hprog⟩ := wp_thrown key e he
  refine ⟨he, ?_, ?_, hal, hno, hprog⟩
  · simp only [World.writesSince, htr, List.drop_left]
    exact hstmts
  · simp only [World.writesSince, htr, List.drop_left]
    have h1 := congrArg (List.filterMap Stmt.progressWritten) hstmts
    rw [List.filterMap_map, List.filterMap_map] at h1
    refine h1.trans ?_
    rw [← List.filterMap_map]
    induction (List.take k steps) with
    | nil => rfl
    | cons st l ih => simpa [Stmt.progressWritten] using ih

/-- The world left by the upload of `capture1.pcap` when the insert succeeds. -/
theorem captureWorld_eq (failAt : ℕ → Bool) (h : failAt 0 = false) :
    captureWorld failAt =
      uploadedWorld (World.start emptyStore halfDraws failAt 1700000000000) "capture1.pcap"
        1024 := by
  rw [captureWorld, capture_upload _ _ _ h]

/-- Witness for C13: in the sequence of the upload of `capture1.pcap`, the update of
the second stage (index 1) fails; the sequence throws after the update of the
first stage and the row keeps progress 20. -/
theorem failed_stage_stops_sequence_witness :
    (∀ j, j < 1 → (captureWorld twoCalls).failAt ((captureWorld twoCalls).calls + j) = false) ∧
    (captureWorld twoCalls).failAt ((captureWorld twoCalls).calls + 1) = true ∧
    ((simulateAnalysisProcessing 1).run (captureWorld twoCalls)).1 =
      .error (.store ((captureWorld twoCalls).calls + 1)) ∧
    ((captureWorld twoCalls).writesSince
      ((simulateAnalysisProcessing 1).run (captureWorld twoCalls)).2).map (·.stmt) =
      (steps.take 1).map (fun st => Stmt.updateProgress st.progress 1) ∧
    ((simulateAnalysisProcessing 1).run (captureWorld twoCalls)).2.store.progressOf 1 =
      some (progressAfter 1 0) :=
  have hok : ∀ j, j < 1 →
      (captureWorld twoCalls).failAt ((captureWorld twoCalls).calls + j) = false := by
    rw [captureWorld_eq twoCalls rfl]
    intro j hj
    interval_cases j
    rfl
  have hfail : (captureWorld twoCalls).failAt ((captureWorld twoCalls).calls + 1) = true := by
    rw [captureWorld_eq twoCalls rfl]
    rfl
  have hprog : (captureWorld twoCalls).store.progressOf 1 = some 0 := by
    rw [captureWorld_eq twoCalls rfl]
    exact uploadedWorld_progressOf _ _ _ (fun a ha => by cases ha)
  have h := failed_stage_stops_sequence 1 (captureWorld twoCalls) 1 (by norm_num) hok hfail
  ⟨hok, hfail, h.1, h.2.1, h.2.2.2.2.2 0 hprog⟩

/-! ## Child records exist only for completed analyses -/

/-- The sequence keeps every analysis in processing free of child records, in
every store state it produces, provided the analysis it advances has no child
record when it starts. -/
theorem simulate_keeps_childfree (analysisId : ℕ) (w : World)
    (htrace : ∀ wr ∈ w.trace, wr.after.ProcessingChildFree)
    (hstore : w.store.ProcessingChildFree) (hfree : w.store.ChildFree analysisId) :
    ∀ wr ∈ ((simulateAnalysisProcessing analysisId).run w).2.trace,
      wr.after.ProcessingChildFree := by
  have snoc : ∀ (tr : List Write) (wr : Write), wr.after.ProcessingChildFree →
      (∀ wr ∈ tr, wr.after.ProcessingChildFree) →
      ∀ wr' ∈ tr ++ [wr], wr'.after.ProcessingChildFree := by
    intro tr wr hwr hall wr' h
    rcases List.mem_append.1 h with h | h
    · exact hall wr' h
    · rw [List.mem_singleton.1 h]; exact hwr
  have key := simulate_phases analysisId
    (fun ph s tr => (∀ wr ∈ tr, wr.after.ProcessingChildFree) ∧ s.ProcessingChildFree ∧
      match ph with
      | .stage _ => s.ChildFree analysisId
      | .children _ _ _ _ => ∀ a ∈ s.analyses, a.id = analysisId → a.status = "completed")
    ?_ ?_ ?_ ?_ w ⟨htrace, hstore, hfree⟩
  · exact wp_final (wp_mono key (fun _ _ ⟨_, _, h⟩ => h.1) (fun _ _ ⟨_, _, h⟩ => h.1))
  · -- a progress update of a stage before the last
    rintro k step s tr now hk hstep ⟨htr, hs, hfr⟩
    have hnew : (s.exec now (.updateProgress step.progress analysisId)).1.ProcessingChildFree := by
      intro a ha hst
      simp only [Store.exec, List.mem_map] at ha
      obtain ⟨b, hb, rfl⟩ := ha
      by_cases hid : b.id = analysisId
      · rw [if_pos hid] at hst ⊢
        exact hs b hb hst
      · rw [if_neg hid] at hst ⊢
        exact hs b hb hst
    exact ⟨snoc tr _ hnew htr, hnew, hfr⟩
  · -- the final update
    rintro s tr now d₁ d₂ d₃ d₄ d₅ d₆ ⟨htr, hs, hfr⟩
    have hnew : (s.exec now (completionStmt analysisId d₁ d₂ d₃ d₄ d₅ d₆)).1.ProcessingChildFree := by
      intro a ha hst
      simp only [completionStmt, Store.exec, List.mem_map] at ha
      obtain ⟨b, hb, rfl⟩ := ha
      by_cases hid : b.id = analysisId
      · rw [if_pos hid] at hst
        exact absurd hst.symm processing_ne_completed
      · rw [if_neg hid] at hst ⊢
        exact hs b hb hst
    refine ⟨snoc tr _ hnew htr, hnew, ?_⟩
    intro a ha hid
    exact (done_completion s now analysisId d₁ d₂ d₃ d₄ d₅ d₆ a ha hid).1
  · -- an alert insert
    rintro a n i s tr now d₁ d₂ d₃ d₄ d₅ d₆ - ⟨htr, hs, hdone⟩
    have hnew : (s.exec now (.insertAlert
        (alertRow analysisId n now d₁ d₂ d₃ d₄ d₅ d₆))).1.ProcessingChildFree := by
      intro b hb hst
      have hne : b.id ≠ analysisId := by
        intro hid
        have := hdone b hb hid
        rw [hst] at this
        exact processing_ne_completed this
      obtain ⟨h1, h2⟩ := hs b hb hst
      refine ⟨?_, h2⟩
      intro alert halert
      simp only [Store.exec, List.mem_append, List.mem_singleton] at halert
      rcases halert with h | h
      · exact h1 alert h
      · rw [h]; exact fun e => hne e.symm
    exact ⟨snoc tr _ hnew htr, hnew, hdone⟩
  · -- a node insert
    rintro a n j s tr now d₁ d₂ d₃ d₄ d₅ d₆ d₇ - ⟨htr, hs, hdone⟩
    have hnew : (s.exec now (.insertDroneNode
        (droneNodeRow analysisId (j + 1) now d₁ d₂ d₃ d₄ d₅ d₆ d₇))).1.ProcessingChildFree := by
      intro b hb hst
      have hne : b.id ≠ analysisId := by
        intro hid
        have := hdone b hb hid
        rw [hst] at this
        exact processing_ne_completed this
      obtain ⟨h1, h2⟩ := hs b hb hst
      refine ⟨h1, ?_⟩
      intro node hnode
      simp only [Store.exec, List.mem_append, List.mem_singleton] at hnode
      rcases hnode with h | h
      · exact h2 node h
      · rw [h]; exact fun e => hne e.symm
    exact ⟨snoc tr _ hnew htr, hnew, hdone⟩

/-- Whatever way a sequence ends, some phase describes what it has done. -/
theorem simulate_described (analysisId : ℕ) (w : World)
    (hstart : ∀ a ∈ w.store.analyses, a.id = analysisId → a.Pending ∧ a.progress < 100) :
    ∃ ph : Phase, ph.Describes analysisId w.store (afterSequence analysisId w).store
      (w.writesSince (afterSequence analysisId w)) := by
  obtain ⟨hok, herr⟩ := simulate_outcome analysisId w hstart
  rcases hr : ((simulateAnalysisProcessing analysisId).run w).1 with e | u
  · obtain ⟨ph, -, h⟩ := herr e hr
    exact ⟨ph, h⟩
  · obtain ⟨a, n, h⟩ := hok hr
    exact ⟨_, h⟩

/-- In the world of an accepted upload into a store with a fresh serial counter,
the rows with the new identifier are the new row: pending at progress 0. -/
theorem uploadedWorld_start (w : World) (name : String) (size : ℕ)
    (hserial : w.store.SerialFresh) :
    ∀ a ∈ (uploadedWorld w name size).store.analyses, a.id = w.store.nextId →
      a.Pending ∧ a.progress < 100 := by
  intro a ha hid
  rw [uploadedWorld_analyses] at ha
  rcases List.mem_append.1 ha with h | h
  · have := hserial a h
    omega
  · rw [List.mem_singleton.1 h]
    simp [Analysis.Pending, uploadedRow, Store.newAnalysis]

/-- Claim C15. Start from any store in which every analysis in processing has no
child record, the serial counter is fresh and the child records refer to
identifiers already given out; let `POST` handle any request and let the
sequence it started run under any draws and any failure of store calls.  In
every store state left by a write of the handler or of the sequence, an
analysis in processing has no alert and no drone node.  Every insert of a
child record by the sequence finds the rows of its analysis completed.  Each
generator runs at most once: the sequence inserts at most `attacks_detected`
alerts and at most `total_nodes` drone nodes, with pairwise distinct node
identifiers, and none when the final update has not been applied. -/
theorem processing_rows_have_no_children (store : Store) (rand : ℕ → Draw)
    (failAt : ℕ → Bool) (now : ℤ) (request : Request)
    (hinv : store.ProcessingChildFree) (hserial : store.SerialFresh)
    (href : store.ChildrenReferExisting) (analysisId : ℕ)
    (hid : analysisId ∈ (afterPost store rand failAt now request).started) :
    (∀ wr ∈ (afterSequence analysisId (afterPost store rand failAt now request)).trace,
      wr.after.ProcessingChildFree) ∧
    (∀ wr ∈ (afterPost store rand failAt now request).writesSince
        (afterSequence analysisId (afterPost store rand failAt now request)),
      ((∃ row, wr.stmt = .insertAlert row) ∨ (∃ row, wr.stmt = .insertDroneNode row)) →
      ∀ a ∈ wr.before.analyses, a.id = analysisId → a.status = "completed") ∧
    (((afterPost store rand failAt now request).nodesSince
        (afterSequence analysisId (afterPost store rand failAt now request))).map
      (·.node_id)).Nodup ∧
    (∀ c n : ℤ, (c, n) ∈ ((afterPost store rand failAt now request).writesSince
        (afterSequence analysisId (afterPost store rand failAt now request))).filterMap
          (fun wr => wr.stmt.countsWritten) →
      ((afterPost store rand failAt now request).alertsSince
        (afterSequence analysisId (afterPost store rand failAt now request))).length ≤ c.toNat ∧
      ((afterPost store rand failAt now request).nodesSince
        (afterSequence analysisId (afterPost store rand failAt now request))).length ≤ n.toNat) ∧
    (((afterPost store rand failAt now request).writesSince
        (afterSequence analysisId (afterPost store rand failAt now request))).filterMap
          (fun wr => wr.stmt.countsWritten) = [] →
      (afterPost store rand failAt now request).alertsSince
        (afterSequence analysisId (afterPost store rand failAt now request)) = [] ∧
      (afterPost store rand failAt now request).nodesSince
        (afterSequence analysisId (afterPost store rand failAt now request)) = []) := by
  unfold afterPost at hid ⊢
  rcases POST_cases request (World.start store rand failAt now) with ⟨-, -, hst⟩ | ⟨name, size, hw⟩
  · rw [hst] at hid; simp [World.start] at hid
  · rw [hw] at hid ⊢
    have hidv : analysisId = store.nextId := by
      simpa [uploadedWorld, World.start] using hid
    subst hidv
    generalize hw₁ : uploadedWorld (World.start store rand failAt now) name size = w₁
    have hanalyses : w₁.store.analyses =
        store.analyses ++ [uploadedRow (World.start store rand failAt now) name size] := by
      rw [← hw₁]; rfl
    have halerts : w₁.store.alerts = store.alerts := by rw [← hw₁]; rfl
    have hnodes : w₁.store.drone_nodes = store.drone_nodes := by rw [← hw₁]; rfl
    have htrace : w₁.trace = [⟨.insertAnalysis name size "processing" 0, store, w₁.store⟩] := by
      rw [← hw₁]; rfl
    have hstart : ∀ a ∈ w₁.store.analyses, a.id = store.nextId → a.Pending ∧ a.progress < 100 := by
      rw [← hw₁]
      exact uploadedWorld_start (World.start store rand failAt now) name size hserial
    have hfree : w₁.store.ChildFree store.nextId := by
      constructor
      · intro alert halert
        rw [halerts] at halert
        have := href.1 alert halert
        omega
      · intro node hnode
        rw [hnodes] at hnode
        have := href.2 node hnode
        omega
    have hstore : w₁.store.ProcessingChildFree := by
      intro a ha hst
      rw [hanalyses] at ha
      rcases List.mem_append.1 ha with h | h
      · obtain ⟨h1, h2⟩ := hinv a h hst
        exact ⟨by rw [halerts]; exact h1, by rw [hnodes]; exact h2⟩
      · rw [List.mem_singleton.1 h]
        exact hfree
    refine ⟨?_, ?_, ?_⟩
    · refine simulate_keeps_childfree store.nextId w₁ ?_ hstore hfree
      intro wr hwr
      rw [htrace, List.mem_singleton] at hwr
      rw [hwr]
      exact hstore
    · intro wr hwr hins a ha haid
      have hrow := (simulate_row_states store.nextId w₁
        (fun a ha haid => (hstart a ha haid).1)).1 wr hwr
      rcases hrow with ⟨⟨p, hp⟩, -, -⟩ | ⟨hsum, -, -⟩ | ⟨-, hdone, -⟩
      · rcases hins with ⟨row, h⟩ | ⟨row, h⟩ <;> rw [hp] at h <;> cases h
      · rcases hins with ⟨row, h⟩ | ⟨row, h⟩ <;> rw [h] at hsum <;> exact absurd rfl hsum
      · exact (hdone a ha haid).1
    · obtain ⟨ph, hdesc⟩ := simulate_described store.nextId w₁ hstart
      cases ph with
      | stage k =>
        obtain ⟨-, hstmts, hal, hno, -⟩ := hdesc
        have hnone : (w₁.writesSince (afterSequence store.nextId w₁)).filterMap
            (fun wr => wr.stmt.countsWritten) = [] := by
          have h1 := congrArg (List.filterMap Stmt.countsWritten) hstmts
          rw [List.filterMap_map, List.filterMap_map] at h1
          exact h1.trans (List.filterMap_eq_nil_iff.2 (fun _ _ => rfl))
        have ha0 : w₁.alertsSince (afterSequence store.nextId w₁) = [] := by
          rw [World.alertsSince, hal, List.drop_length]
        have hn0 : w₁.nodesSince (afterSequence store.nextId w₁) = [] := by
          rw [World.nodesSince, hno, List.drop_length]
        refine ⟨by rw [hn0]; exact List.nodup_nil, ?_, fun _ => ⟨ha0, hn0⟩⟩
        intro c n hcn
        rw [hnone] at hcn
        cases hcn
      | children a n i j =>
        obtain ⟨hcounts, -, -, hi, hj, -, ⟨alerts, hal, hlen, -⟩, ⟨nodes, hno, hids⟩, -⟩ := hdesc
        have ha0 : w₁.alertsSince (afterSequence store.nextId w₁) = alerts := by
          rw [World.alertsSince, hal, List.drop_left]
        have hn0 : w₁.nodesSince (afterSequence store.nextId w₁) = nodes := by
          rw [World.nodesSince, hno, List.drop_left]
        have hjlen : nodes.length = j := by simpa using congrArg List.length hids
        refine ⟨?_, ?_, ?_⟩
        · rw [hn0]
          have h' := congrArg (List.map Prod.snd) hids
          simp only [List.map_map] at h'
          have : nodes.map (·.node_id) =
              (List.range' 1 j).map (fun i : ℕ => uavNodeId (i : ℤ)) := h'
          rw [this]
          exact uavNodeIds_nodup j
        · intro c m hcm
          rw [hcounts, List.mem_singleton] at hcm
          cases hcm
          rw [ha0, hn0, hlen, hjlen]
          exact ⟨hi, hj⟩
        · intro hnil
          rw [hcounts] at hnil
          cases hnil

/-- Witness for C15: the upload of `capture1.pcap` into the empty store and its
sequence, with the store failing from the third call on. -/
theorem processing_rows_have_no_children_witness :
    emptyStore.ProcessingChildFree ∧ emptyStore.SerialFresh ∧
    emptyStore.ChildrenReferExisting ∧
    1 ∈ (afterPost emptyStore halfDraws twoCalls 1700000000000 captureRequest).started ∧
    firstStageWrite ∈ (afterSequence 1
      (afterPost emptyStore halfDraws twoCalls 1700000000000 captureRequest)).trace ∧
    firstStageWrite.after.ProcessingChildFree :=
  have h₁ : emptyStore.ProcessingChildFree := fun a ha => by cases ha
  have h₂ : emptyStore.SerialFresh := fun a ha => by cases ha
  have h₃ : emptyStore.ChildrenReferExisting :=
    ⟨fun a ha => (by cases ha), fun a ha => (by cases ha)⟩
  have h₄ : 1 ∈ (afterPost emptyStore halfDraws twoCalls 1700000000000 captureRequest).started := by
    rw [afterPost, capture_upload _ _ _ rfl]; simp [uploadedWorld, World.start, emptyStore]
  have h₅ : firstStageWrite ∈ (afterSequence 1
      (afterPost emptyStore halfDraws twoCalls 1700000000000 captureRequest)).trace := by
    rw [afterSequence, afterPost, capture_trace_twoCalls]; simp
  ⟨h₁, h₂, h₃, h₄, h₅,
    (processing_rows_have_no_children emptyStore halfDraws twoCalls 1700000000000
      captureRequest h₁ h₂ h₃ 1 h₄).1 firstStageWrite h₅⟩

/-- The time `new Date(now - r * 3600000)` for a draw `r` lies in the hour that
ends at `now`. -/
theorem newDate_within_hour (now : ℤ) (r : Draw) :
    now - 3600000 ≤ newDate (now - r.val * 3600000) ∧
      newDate (now - r.val * 3600000) ≤ now := by
  have h0 := r.nonneg
  have h1 := r.lt_one
  have hlo : ((now - 3600000 : ℤ) : ℚ) ≤ now - r.val * 3600000 := by
    push_cast; nlinarith
  have hhi : (now : ℚ) - r.val * 3600000 ≤ (now : ℤ) := by nlinarith
  unfold newDate
  split
  · exact ⟨Int.le_floor.2 hlo, Int.cast_le.1 ((Int.floor_le _).trans hhi)⟩
  · exact ⟨Int.cast_le.1 (hlo.trans (Int.le_ceil _)), Int.ceil_le.2 hhi⟩

/-- The run of `generateSampleAlerts` for one alert among 14 nodes in the store
without a default for `timestamp_detected`. -/
theorem generateSampleAlerts_undated :
    ((generateSampleAlerts 1 1 14).run undatedWorld).2.store.alerts =
      [sampleAlert.stored none] := by
  simp [generateSampleAlerts, forLoop, run_bind, run_pure, run_mathRandom, run_dateNow,
    run_sql, undatedWorld, undatedStore, World.start, emptyStore, halfDraws, noFailure, halfDraw,
    Store.exec, sampleAlert, Alert.stored]
  have h5 : mathFloor ((2 : ℚ)⁻¹ * 5) = 2 := by norm_num [mathFloor, Int.floor_eq_iff]
  have h4 : mathFloor ((2 : ℚ)⁻¹ * 4) = 2 := by norm_num [mathFloor, Int.floor_eq_iff]
  have h3 : mathFloor ((2 : ℚ)⁻¹ * 3) = 1 := by norm_num [mathFloor, Int.floor_eq_iff]
  have h14 : mathFloor ((2 : ℚ)⁻¹ * 14) = 7 := by norm_num [mathFloor, Int.floor_eq_iff]
  rw [h5, h4, h3, h14]
  refine ⟨by decide, by decide, by decide, ?_, by decide, ?_, by decide⟩
  · norm_num
  · norm_num [newDate, Int.floor_eq_iff]

/-- Counterexample to C20. The only alert of the sample run is stored with the
store's current time as its `timestamp_detected`, while the time the generator
computed from its draw, half an hour earlier, is stored as its
`packet_timestamp`: no draw of the run yields the stored detection time.  The
same run over a store whose column has no default stores the same packet time
and a null `timestamp_detected`, no time at all: the detection time is the
store's, not the generator's. -/
theorem alert_detection_time_not_from_draw :
    emptyWorld.alertsSince ((generateSampleAlerts 1 1 14).run emptyWorld).2 = [sampleAlert] ∧
    sampleAlert.packet_timestamp = newDate (emptyWorld.now - halfDraw.val * 3600000) ∧
    sampleAlert.timestamp_detected = some emptyWorld.now ∧
    (¬ ∃ k : ℕ, sampleAlert.timestamp_detected =
      some (newDate (emptyWorld.now - (emptyWorld.rand k).val * 3600000))) ∧
    undatedWorld.alertsSince ((generateSampleAlerts 1 1 14).run undatedWorld).2 =
      [sampleAlert.stored none] ∧
    (sampleAlert.stored none).packet_timestamp = sampleAlert.packet_timestamp ∧
    ¬ ∃ t : ℤ, (sampleAlert.stored none).timestamp_detected = some t := by
  have hts : newDate (emptyWorld.now - halfDraw.val * 3600000) = 1699998200000 := by
    norm_num [newDate, emptyWorld, World.start, halfDraw, Int.floor_eq_iff]
  refine ⟨?_, ?_, rfl, ?_, ?_, rfl, ?_⟩
  · rw [World.alertsSince, generateSampleAlerts_sample]
    simp [emptyWorld, World.start, emptyStore]
  · rw [hts]; rfl
  · rintro ⟨k, hk⟩
    have hr : emptyWorld.rand k = halfDraw := rfl
    rw [hr, hts] at hk
    simp [sampleAlert] at hk
  · rw [World.alertsSince, generateSampleAlerts_undated]
    simp [undatedWorld, undatedStore, World.start, emptyStore]
  · rintro ⟨t, ht⟩
    cases ht

/-- The turns of `generateSampleAlerts`: whether the run returns or is cut short
by a store failure, it has completed some number `m` of turns; its writes are
the inserts of the rows of the turns `0, ..., m - 1`, each built at the time of
the start from the six draws of its turn, and the rows it appended to `alerts`
are these rows with the store's value for `timestamp_detected`. -/
theorem generateSampleAlerts_turns (analysisId : ℕ) (numAlerts totalNodes : ℤ) (w : World) :
    ∃ m, m ≤ numAlerts.toNat ∧
      w.alertsSince ((generateSampleAlerts analysisId numAlerts totalNodes).run w).2 =
        (List.range m).map (fun i =>
          (drawnAlert analysisId totalNodes w i).stored (w.store.detectedDefault w.now)) ∧
      (w.writesSince ((generateSampleAlerts analysisId numAlerts totalNodes).run w).2).map
          (·.stmt) =
        (List.range m).map (fun i => Stmt.insertAlert (drawnAlert analysisId totalNodes w i)) := by
  have key : wp (generateSampleAlerts analysisId numAlerts totalNodes)
      (fun _ w' => ∃ m, m ≤ numAlerts.toNat ∧
        w'.store.alerts = w.store.alerts ++ (List.range m).map (fun i =>
          (drawnAlert analysisId totalNodes w i).stored (w.store.detectedDefault w.now)) ∧
        ∃ ext, w'.trace = w.trace ++ ext ∧ ext.map (·.stmt) =
          (List.range m).map (fun i => Stmt.insertAlert (drawnAlert analysisId totalNodes w i)))
      (fun _ w' => ∃ m, m ≤ numAlerts.toNat ∧
        w'.store.alerts = w.store.alerts ++ (List.range m).map (fun i =>
          (drawnAlert analysisId totalNodes w i).stored (w.store.detectedDefault w.now)) ∧
        ∃ ext, w'.trace = w.trace ++ ext ∧ ext.map (·.stmt) =
          (List.range m).map (fun i => Stmt.insertAlert (drawnAlert analysisId totalNodes w i)))
      w := by
    unfold generateSampleAlerts
    refine wp_mono (wp_forLoop
      (fun i w' => i ≤ numAlerts.toNat ∧ w'.now = w.now ∧ w'.rand = w.rand ∧
        w'.randPos = w.randPos + 6 * i ∧
        w'.store.detectedDefault = w.store.detectedDefault ∧
        w'.store.alerts = w.store.alerts ++ (List.range i).map (fun i =>
          (drawnAlert analysisId totalNodes w i).stored (w.store.detectedDefault w.now)) ∧
        ∃ ext, w'.trace = w.trace ++ ext ∧ ext.map (·.stmt) =
          (List.range i).map (fun i => Stmt.insertAlert (drawnAlert analysisId totalNodes w i)))
      _ numAlerts.toNat 0 w ⟨Nat.zero_le _, rfl, rfl, rfl, rfl, by simp, [], by simp, rfl⟩ ?_)
      (fun _ w' h => ?_) (fun _ _ h => h)
    · intro i w' _ hi ⟨_, hnow, hrand, hpos, hdef, hal, ext, htr, hext⟩
      simp only [wp_bind, wp_mathRandom, wp_dateNow, wp_sql, wp_pure, List.length_cons,
        List.length_nil]
      refine ⟨fun _ => ⟨i, by omega, hal, ext, htr, hext⟩, fun _ => ?_⟩
      have hrow : alertRow analysisId totalNodes w'.now (w'.rand w'.randPos)
          (w'.rand (w'.randPos + 1)) (w'.rand (w'.randPos + 1 + 1))
          (w'.rand (w'.randPos + 1 + 1 + 1)) (w'.rand (w'.randPos + 1 + 1 + 1 + 1))
          (w'.rand (w'.randPos + 1 + 1 + 1 + 1 + 1)) = drawnAlert analysisId totalNodes w i := by
        rw [hnow, hrand, hpos]
        rfl
      refine ⟨by omega, hnow, hrand, by omega, hdef, ?_, ?_⟩
      · show (w'.store.exec w'.now (.insertAlert
          (alertRow analysisId totalNodes w'.now (w'.rand w'.randPos)
            (w'.rand (w'.randPos + 1)) (w'.rand (w'.randPos + 1 + 1))
            (w'.rand (w'.randPos + 1 + 1 + 1)) (w'.rand (w'.randPos + 1 + 1 + 1 + 1))
            (w'.rand (w'.randPos + 1 + 1 + 1 + 1 + 1))))).1.alerts = _
        rw [hrow]
        simp [Store.exec, hal, List.range_succ, Alert.stored, hdef, hnow, drawnAlert]
      · refine ⟨ext ++ [⟨.insertAlert (drawnAlert analysisId totalNodes w i), w'.store,
          (w'.store.exec w'.now (.insertAlert (drawnAlert analysisId totalNodes w i))).1⟩],
          ?_, ?_⟩
        · show w'.trace ++ [⟨.insertAlert
            (alertRow analysisId totalNodes w'.now (w'.rand w'.randPos)
              (w'.rand (w'.randPos + 1)) (w'.rand (w'.randPos + 1 + 1))
              (w'.rand (w'.randPos + 1 + 1 + 1)) (w'.rand (w'.randPos + 1 + 1 + 1 + 1))
              (w'.rand (w'.randPos + 1 + 1 + 1 + 1 + 1))), w'.store,
            (w'.store.exec w'.now (.insertAlert
              (alertRow analysisId totalNodes w'.now (w'.rand w'.randPos)
                (w'.rand (w'.randPos + 1)) (w'.rand (w'.randPos + 1 + 1))
                (w'.rand (w'.randPos + 1 + 1 + 1)) (w'.rand (w'.randPos + 1 + 1 + 1 + 1))
                (w'.rand (w'.randPos + 1 + 1 + 1 + 1 + 1))))).1⟩] = _
          rw [hrow, htr, List.append_assoc]
        · simp [hext, List.range_succ]
    · obtain ⟨hm, -, -, -, -, hal, hext⟩ := h
      exact ⟨_, hm, hal, hext⟩
  obtain ⟨m, hm, hal, ext, htr, hext⟩ := wp_final key
  refine ⟨m, hm, ?_, ?_⟩
  · rw [World.alertsSince, hal, List.drop_left]
  · rw [World.writesSince, htr, List.drop_left, hext]

/-- Claim C20, as amended. Take the alert number `i`, counted from 0, that a run of
`generateSampleAlerts` started in `w` has appended to `alerts`.  The insert
number `i` of the run passes a row that names no `timestamp_detected`, and
whose `packet_timestamp` is `new Date(now - r * 3600000)` for the time `now` of
the start and the sixth draw `r` of turn `i`: a time within the hour that
ends at `now`.  The stored alert is that row with the value that the store
gives to `timestamp_detected` at `now`, whatever the draws. -/
theorem alert_packet_time_within_hour (analysisId : ℕ) (numAlerts totalNodes : ℤ) (w : World)
    (i : ℕ) (alert : Alert)
    (halert : (w.alertsSince
      ((generateSampleAlerts analysisId numAlerts totalNodes).run w).2)[i]? = some alert) :
    ∃ row : Alert,
      ((w.writesSince
        ((generateSampleAlerts analysisId numAlerts totalNodes).run w).2)[i]?).map (·.stmt) =
          some (.insertAlert row) ∧
      row = drawnAlert analysisId totalNodes w i ∧
      row.timestamp_detected = none ∧
      row.packet_timestamp =
        newDate (w.now - (w.rand (w.randPos + 6 * i + 5)).val * 3600000) ∧
      w.now - 3600000 ≤ row.packet_timestamp ∧ row.packet_timestamp ≤ w.now ∧
      alert = row.stored (w.store.detectedDefault w.now) ∧
      alert.packet_timestamp = row.packet_timestamp ∧
      alert.timestamp_detected = w.store.detectedDefault w.now := by
  obtain ⟨m, -, hal, hwr⟩ := generateSampleAlerts_turns analysisId numAlerts totalNodes w
  rw [hal, List.getElem?_map] at halert
  rcases hi : (List.range m)[i]? with _ | j
  · rw [hi] at halert; cases halert
  · rw [hi] at halert
    obtain ⟨hlt, heq⟩ := List.getElem?_eq_some.1 hi
    have hj : j = i := by rw [← heq, List.getElem_range]
    subst hj
    have halert' : alert =
        (drawnAlert analysisId totalNodes w j).stored (w.store.detectedDefault w.now) :=
      (Option.some.inj halert).symm
    refine ⟨drawnAlert analysisId totalNodes w j, ?_, rfl, rfl, rfl,
      (newDate_within_hour w.now _).1, (newDate_within_hour w.now _).2, halert', ?_, ?_⟩
    · rw [← List.getElem?_map, hwr, List.getElem?_map, hi]
      rfl
    · rw [halert']; rfl
    · rw [halert']; rfl

/-- The one alert of the sample run is its alert number 0. -/
theorem sampleAlert_first :
    (emptyWorld.alertsSince ((generateSampleAlerts 1 1 14).run emptyWorld).2)[0]? =
      some sampleAlert := by
  rw [World.alertsSince, generateSampleAlerts_sample]
  simp [emptyWorld, World.start, emptyStore]

/-- Witness for C20 as amended: the alert of the sample run has the packet time
computed from the sixth draw of its turn and the detection time given by the
store. -/
theorem alert_packet_time_within_hour_witness :
    (emptyWorld.alertsSince ((generateSampleAlerts 1 1 14).run emptyWorld).2)[0]? =
      some sampleAlert ∧
    sampleAlert.packet_timestamp =
      newDate (emptyWorld.now - (emptyWorld.rand (emptyWorld.randPos + 6 * 0 + 5)).val * 3600000) ∧
    sampleAlert.timestamp_detected = emptyWorld.store.detectedDefault emptyWorld.now :=
  (alert_packet_time_within_hour 1 1 14 emptyWorld 0 sampleAlert sampleAlert_first).elim
    fun _ h => ⟨sampleAlert_first, h.2.2.2.2.2.2.2.1.trans h.2.2.2.1, h.2.2.2.2.2.2.2.2⟩

theorem run_sqlSelect (query : Query) (w : World) :
    (sqlSelect query).run w = if w.failAt w.calls then
        (.error (.store w.calls), { w with calls := w.calls + 1 })
      else
        (.ok (w.store.select query), { w with calls := w.calls + 1 }) := rfl

theorem run_tryCatch {α : Type} (m : Async α) (h : JsError → Async α) (w : World) :
    (tryCatch m h).run w = match m.run w with
      | (.ok a, w') => (.ok a, w')
      | (.error e, w') => (h e).run w' := rfl

/-- The run of the detail handler when none of its store calls fails: one call
and the answer 404 when the first query returns no row, four calls and the
answer 200 with the rows of the four queries otherwise. -/
theorem Detail.GET_run (id : ℕ) (w : World)
    (hok : ∀ j < 4, w.failAt (w.calls + j) = false) :
    (Detail.GET id).run w =
      if (w.store.select (.analysisById id)).length = 0 then
        (.ok { status := 404, body := .failure "Analysis not found" },
          { w with calls := w.calls + 1 })
      else
        (.ok { status := 200,
               body := .detail (w.store.select (.analysisById id))[0]?
                 (w.store.select (.alertsOf id)) (w.store.select (.droneNodesOf id))
                 (w.store.select (.metricsOf id)) },
          { w with calls := w.calls + 1 + 1 + 1 + 1 }) := by
  have h0 : w.failAt w.calls = false := hok 0 (by omega)
  have h1 : w.failAt (w.calls + 1) = false := hok 1 (by omega)
  have h2 : w.failAt (w.calls + 1 + 1) = false := hok 2 (by omega)
  have h3 : w.failAt (w.calls + 1 + 1 + 1) = false := hok 3 (by omega)
  unfold Detail.GET
  rw [run_tryCatch, run_bind, run_sqlSelect, h0]
  by_cases hlen : (w.store.select (.analysisById id)).length = 0
  · simp [hlen, run_pure]
  · simp [hlen, run_pure, run_bind, run_sqlSelect, h1, h2, h3]

/-- The first row that the query by identifier returns is the first analysis of
the table with that identifier. -/
theorem select_analysisById_head (s : Store) (id : ℕ) :
    (s.select (.analysisById id))[0]? =
      (s.analyses.find? (fun a => a.id = id)).map Row.analysis := by
  rw [Store.select, ← List.head?_eq_getElem?, List.head?_map]
  congr 1
  induction s.analyses with
  | nil => rfl
  | cons a l ih => by_cases h : a.id = id <;> simp [List.filter_cons, List.find?_cons, h, ih]

theorem select_analysisById_eq_nil (s : Store) (id : ℕ) :
    s.select (.analysisById id) = [] ↔ s.analyses.find? (fun a => a.id = id) = none := by
  rw [Store.select, List.map_eq_nil_iff, List.filter_eq_nil_iff, List.find?_eq_none]

/-- Claim C11. When none of its store calls fails, the detail handler `GET` for
any identifier returns a response and leaves the store as it was.  The
response has status 404 exactly when the store returns no analysis row for the
identifier, and `success` false exactly then, with the message
`Analysis not found`; otherwise it has status 200, `success` true, the first
analysis row with that identifier, and the lists of alerts, drone nodes and
metrics just as the three queries of the store return them. -/
theorem detail_answers_404_exactly_when_unknown (id : ℕ) (w : World)
    (hok : ∀ j < 4, w.failAt (w.calls + j) = false) :
    ∃ resp : Response, ((Detail.GET id).run w).1 = .ok resp ∧
      ((Detail.GET id).run w).2.store = w.store ∧
      (resp.status = 404 ↔ w.store.select (.analysisById id) = []) ∧
      (resp.body.success = false ↔ w.store.select (.analysisById id) = []) ∧
      (w.store.select (.analysisById id) = [] →
        resp = { status := 404, body := .failure "Analysis not found" }) ∧
      (∀ row rest, w.store.select (.analysisById id) = row :: rest →
        resp.body.success = true ∧
        resp = { status := 200,
                 body := .detail (some row) (w.store.select (.alertsOf id))
                   (w.store.select (.droneNodesOf id)) (w.store.select (.metricsOf id)) } ∧
        ∃ a, w.store.analyses.find? (fun a => a.id = id) = some a ∧ row = .analysis a) := by
  rw [Detail.GET_run id w hok]
  rcases hsel : w.store.select (.analysisById id) with _ | ⟨row, rest⟩
  · refine ⟨_, rfl, rfl, ?_⟩
    simp [Body.success]
  · have hhead := select_analysisById_head w.store id
    rw [hsel] at hhead
    refine ⟨{ status := 200,
              body := .detail (some row) (w.store.select (.alertsOf id))
                (w.store.select (.droneNodesOf id)) (w.store.select (.metricsOf id)) },
      by simp, by simp, by simp, by simp [Body.success], by simp, ?_⟩
    intro row' rest' h
    cases h
    refine ⟨rfl, rfl, ?_⟩
    rcases hfind : w.store.analyses.find? (fun a => a.id = id) with _ | a
    · rw [hfind] at hhead; simp at hhead
    · rw [hfind] at hhead
      simp at hhead
      exact ⟨a, hfind, hhead⟩

/-- Witness for C11: in a store with two analyses the details of analysis 1 are
answered with its row and its alert, and the details of analysis 7 with 404. -/
theorem detail_answers_404_exactly_when_unknown_witness :
    (∀ j < 4, (World.start detailStore halfDraws noFailure 1700000000000).failAt
      ((World.start detailStore halfDraws noFailure 1700000000000).calls + j) = false) ∧
    (∃ resp : Response,
      ((Detail.GET 7).run (World.start detailStore halfDraws noFailure 1700000000000)).1
        = .ok resp ∧ resp.status = 404) ∧
    ∃ resp : Response,
      ((Detail.GET 1).run (World.start detailStore halfDraws noFailure 1700000000000)).1
        = .ok resp ∧
      resp = { status := 200,
               body := .detail
                 (some (.analysis (emptyStore.newAnalysis 1700000000000 "capture1.pcap" 1024
                   "processing" 0)))
                 [.alert sampleAlert] [] [] } :=
  have hok : ∀ j < 4, (World.start detailStore halfDraws noFailure 1700000000000).failAt
      ((World.start detailStore halfDraws noFailure 1700000000000).calls + j) = false :=
    fun _ _ => rfl
  ⟨hok,
    (detail_answers_404_exactly_when_unknown 7 _ hok).elim fun resp h =>
      ⟨resp, h.1, h.2.2.1.2 (by decide)⟩,
    (detail_answers_404_exactly_when_unknown 1 _ hok).elim fun resp h =>
      ⟨resp, h.1, (h.2.2.2.2.2 _ [] (by decide)).2.1⟩⟩

/-! ## The statuses and the packet counts of the generated nodes -/

/-- Claim C29. For every draw in `[0, 1)` the trust score of a node inserted by
`generateSampleDroneNodes` is at least 0.6, above the threshold 0.5; its status
is `trusted` or `suspicious` and never `malicious`: the third branch of the
status expression is not reached. -/
theorem node_status_never_malicious (analysisId : ℕ) (totalNodes : ℤ) (w : World)
    (row : DroneNode)
    (hrow : row ∈ w.nodesSince ((generateSampleDroneNodes analysisId totalNodes).run w).2) :
    0.6 ≤ row.trust_score ∧ 0.5 < row.trust_score ∧
    (row.status = "trusted" ∨ row.status = "suspicious") ∧ row.status ≠ "malicious" := by
  refine generateSampleDroneNodes_rows
    (fun row => 0.6 ≤ row.trust_score ∧ 0.5 < row.trust_score ∧
      (row.status = "trusted" ∨ row.status = "suspicious") ∧ row.status ≠ "malicious")
    analysisId ?_ totalNodes w row hrow
  intro i now d₁ d₂ d₃ d₄ d₅ d₆ d₇
  have h0 := d₁.nonneg
  have h6 : (0.6 : ℚ) ≤ 0.6 + d₁.val * 0.4 := by nlinarith
  have h5 : (0.5 : ℚ) < 0.6 + d₁.val * 0.4 := by nlinarith
  simp only [droneNodeRow, droneStatus]
  refine ⟨h6, h5, ?_, ?_⟩
  · by_cases h : (0.6 : ℚ) + d₁.val * 0.4 > 0.8
    · left; rw [if_pos h]
    · right; rw [if_neg h, if_pos h5]
  · by_cases h : (0.6 : ℚ) + d₁.val * 0.4 > 0.8
    · rw [if_pos h]; decide
    · rw [if_neg h, if_pos h5]; decide

/-- Witness for C29: the node generated from the draw `1/2` is `suspicious`. -/
theorem node_status_never_malicious_witness :
    sampleNode ∈ emptyWorld.nodesSince ((generateSampleDroneNodes 1 1).run emptyWorld).2 ∧
    sampleNode.status ≠ "malicious" :=
  ⟨sampleNode_mem, (node_status_never_malicious 1 1 emptyWorld sampleNode sampleNode_mem).2.2.2⟩

/-- The run of `generateSampleDroneNodes` for one node in the empty store when
every draw is `9/10`. -/
theorem generateSampleDroneNodes_high :
    ((generateSampleDroneNodes 1 1).run
      (World.start emptyStore highDraws noFailure 1700000000000)).2.store.drone_nodes =
      [busyNode] := by
  simp [generateSampleDroneNodes, forLoop, run_bind, run_pure, run_mathRandom, run_dateNow,
    run_sql, World.start, emptyStore, highDraws, noFailure, highDraw, Store.exec,
    busyNode]
  have h1 : mathFloor (9 / 10 * 2000 : ℚ) = 1800 := by
    norm_num [mathFloor, Int.floor_eq_iff]
  rw [h1]
  refine ⟨by decide, ?_, ?_, ?_, ?_, rfl, ?_, ?_⟩
  all_goals norm_num [droneStatus, mathFloor, Int.floor_eq_iff]

/-- Claim C30. The generated packet counts are not conserved.  When every draw is
`9/10`, the node that `generateSampleDroneNodes` inserts has sent
`floor(0.9 * 2000) = 1800` packets, received `floor(1800 * f) = 1764` with
`f = 0.8 + 0.9 * 0.2 = 0.98` in `[0.8, 1.0)` and dropped `floor(1800 * g) = 162`
with `g = 0.9 * 0.1 = 0.09` in `[0, 0.1)`: received and dropped together exceed
the packets sent. -/
theorem packet_counts_not_conserved :
    ∃ node ∈ (World.start emptyStore highDraws noFailure 1700000000000).nodesSince
        ((generateSampleDroneNodes 1 1).run
          (World.start emptyStore highDraws noFailure 1700000000000)).2,
      node.packets_sent = mathFloor (highDraw.val * 2000) ∧
      node.packets_received =
        mathFloor (node.packets_sent * (0.8 + highDraw.val * 0.2)) ∧
      node.packets_dropped = mathFloor (node.packets_sent * highDraw.val * 0.1) ∧
      node.packets_sent = 1800 ∧ node.packets_received = 1764 ∧ node.packets_dropped = 162 ∧
      node.packets_sent < node.packets_received + node.packets_dropped := by
  refine ⟨busyNode, ?_, ?_, ?_, ?_, rfl, rfl, rfl, by decide⟩
  · rw [World.nodesSince, generateSampleDroneNodes_high]
    simp [World.start, emptyStore]
  all_goals norm_num [busyNode, highDraw, mathFloor, Int.floor_eq_iff]

/-! ## A completed analysis whose child records are missing -/

/-- Claim C28. There is a reachable store state in which an analysis is completed
while child records are missing.  In the sequence of the upload of
`capture1.pcap` with every draw `1/2`, the final update writes
`attacks_detected = 3 > 0` and `total_nodes = 14`; the state it leaves, before
the first insert of `generateSampleAlerts`, holds the analysis with status
`completed` and none of its alerts and drone nodes.  When that first insert
fails, the sequence throws and this state is the one the store is left in. -/
theorem completed_while_children_missing :
    ((simulateAnalysisProcessing 1).run (captureWorld sevenCalls)).1 = .error (.store 7) ∧
    ((captureWorld sevenCalls).writesSince (afterSequence 1 (captureWorld sevenCalls))).map
        (·.stmt) =
      [.updateProgress 20 1, .updateProgress 40 1, .updateProgress 60 1, .updateProgress 80 1,
        .updateProgress 90 1,
        completionStmt 1 halfDraw halfDraw halfDraw halfDraw halfDraw halfDraw] ∧
    ∃ a ∈ (afterSequence 1 (captureWorld sevenCalls)).store.analyses,
      a.id = 1 ∧ a.status = "completed" ∧
      a.attacks_detected = some 3 ∧ a.total_nodes = some 14 ∧
      (((afterSequence 1 (captureWorld sevenCalls)).store.alerts.filter
        (fun r => r.analysis_id = 1)).length : ℤ) < 3 ∧
      (((afterSequence 1 (captureWorld sevenCalls)).store.drone_nodes.filter
        (fun r => r.analysis_id = 1)).length : ℤ) < 14 := by
  refine ⟨capture_run_sevenCalls.1, capture_writes_sevenCalls, captureCompleted, ?_, rfl, rfl,
    rfl, rfl, ?_, ?_⟩
  · unfold afterSequence captureWorld
    rw [capture_run_sevenCalls.2.1]
    exact List.mem_singleton.2 rfl
  · unfold afterSequence captureWorld
    rw [capture_run_sevenCalls.2.2.1]
    decide
  · unfold afterSequence captureWorld
    rw [capture_run_sevenCalls.2.2.2.1]
    decide

/-! ## Invalid uploads and the size of an upload -/

/-- Counterexample to C25: a request whose body cannot be read as form data, and
a form whose `file` entry is the string `notes`, are both answered with status
500, not 400. -/
theorem unreadable_upload_answered_500 :
    ((POST ⟨none⟩).run emptyWorld).1 = .ok ⟨500, .failure "Failed to create analysis"⟩ ∧
    ((POST ⟨some notesForm⟩).run emptyWorld).1 =
      .ok ⟨500, .failure "Failed to create analysis"⟩ ∧
    ¬ ∃ body, ((POST ⟨none⟩).run emptyWorld).1 = .ok ⟨400, body⟩ := by
  have h₁ := POST_unreadable emptyWorld
  have h₂ := POST_text notesForm emptyWorld "notes" rfl
  refine ⟨by rw [h₁], by rw [h₂]; rfl, ?_⟩
  rintro ⟨body, h⟩
  rw [h₁] at h
  cases h

/-- Claim C25, as amended. `POST` answers with status 400 a form that has no `file`
entry or an empty string as `file` entry (`No file provided`), and a form
whose `file` entry is a file with a name that does not end in `.pcap`
(`Only .pcap files are supported`).  A request whose body cannot be read as
form data is answered with status 500 by the catch block of the handler.  In
all three cases the world is left as it was. -/
theorem invalid_upload_answers (request : Request) (w : World) :
    (request.form = none →
      (POST request).run w = (.ok ⟨500, .failure "Failed to create analysis"⟩, w)) ∧
    (∀ form, request.form = some form → isFalsy (formGet form "file") = true →
      (POST request).run w = (.ok ⟨400, .failure "No file provided"⟩, w)) ∧
    (∀ form name size, request.form = some form →
      formGet form "file" = some (.file name size) → endsWith name ".pcap" = false →
      (POST request).run w = (.ok ⟨400, .failure "Only .pcap files are supported"⟩, w)) := by
  rcases request with ⟨_ | form⟩
  · refine ⟨fun _ => POST_unreadable w, fun form h => (by cases h), fun form _ _ h => (by cases h)⟩
  · refine ⟨fun h => (by cases h), ?_, ?_⟩
    · intro form' h hfalsy
      cases h
      rcases hget : formGet form "file" with _ | ⟨name, size⟩ | value
      · exact POST_no_file form w hget
      · rw [hget] at hfalsy; cases hfalsy
      · rw [hget] at hfalsy
        have hv : value.isEmpty = true := hfalsy
        rw [POST_text form w value hget, if_pos hv]
    · intro form' name size h hget hname
      cases h
      exact POST_wrong_name form w name size hget hname

/-- Witness for C25 as amended: the upload of `capture1.PCAP` is answered with
400 and the unreadable request with 500. -/
theorem invalid_upload_answers_witness :
    formGet upperCaseForm "file" = some (.file "capture1.PCAP" 1024) ∧
    endsWith "capture1.PCAP" ".pcap" = false ∧
    (POST ⟨some upperCaseForm⟩).run emptyWorld =
      (.ok ⟨400, .failure "Only .pcap files are supported"⟩, emptyWorld) ∧
    (POST ⟨none⟩).run emptyWorld =
      (.ok ⟨500, .failure "Failed to create analysis"⟩, emptyWorld) :=
  ⟨rfl, by decide,
    (invalid_upload_answers ⟨some upperCaseForm⟩ emptyWorld).2.2 upperCaseForm
      "capture1.PCAP" 1024 rfl rfl (by decide),
    (invalid_upload_answers ⟨none⟩ emptyWorld).1 rfl⟩

/-- Claim C27, evaluated. A file of 200 000 000 bytes, more than 100 MB, named
`capture1.pcap` passes `handleFileUpload`, which checks the name only, and is
posted; `POST`, which checks the name only, inserts an analysis for it and
answers with status 200 and the new row. -/
theorem oversized_upload_is_accepted :
    hundredMegabytes < 200000000 ∧
    handleFileUpload "capture1.pcap" 200000000 = some largeRequest ∧
    ((POST largeRequest).run emptyWorld).1 =
      .ok ⟨200, .created ⟨1, "capture1.pcap", 200000000, 1700000000000, "processing", 0⟩⟩ ∧
    ((POST largeRequest).run emptyWorld).2.store.analyses =
      [emptyStore.newAnalysis 1700000000000 "capture1.pcap" 200000000 "processing" 0] ∧
    ((POST largeRequest).run emptyWorld).2.started = [1] := by
  have h := POST_accepted [("file", .file "capture1.pcap" 200000000)] emptyWorld
    "capture1.pcap" 200000000 rfl (by decide) rfl
  refine ⟨by decide, ?_, ?_, ?_, ?_⟩
  · unfold handleFileUpload
    rw [if_neg (by decide)]
    rfl
  · rw [largeRequest, h]; rfl
  · rw [largeRequest, h]; rfl
  · rw [largeRequest, h]; rfl

/-! ## The statement of the list route -/

theorem run_sqlQuery (query : String) (params : List Param) (w : World) :
    (sqlQuery query params).run w = if w.failAt w.calls then
        (.error (.store w.calls), { w with calls := w.calls + 1 })
      else
        match w.store.answer query params with
        | some rows => (.ok rows, { w with calls := w.calls + 1 })
        | none => (.error (.store w.calls), { w with calls := w.calls + 1 }) := rfl

theorem string_append_left_cancel (q a b : String) (h : q ++ a = q ++ b) : a = b := by
  have h' := congrArg String.data h
  simp only [String.data_append] at h'
  exact String.ext (List.append_cancel_left h')

theorem numberToString_one : numberToString ((([] : List Param).length + 1 : ℕ) : ℤ) = "1" := by
  decide

theorem numberToString_two (p : Param) :
    numberToString ((([] ++ [p] : List Param).length + 1 : ℕ) : ℤ) = "2" := by
  show numberToString ((2 : ℕ) : ℤ) = "2"
  decide

theorem endsWith_order_limit (q : String) (k : ℕ) (digits text : String)
    (hk : numberToString (k : ℤ) = digits)
    (htext : " ORDER BY upload_timestamp DESC LIMIT $" ++ digits = text) :
    endsWith (q ++ text)
      (" ORDER BY upload_timestamp DESC LIMIT $" ++ numberToString (k : ℤ)) = true := by
  subst hk htext
  exact (endsWith_iff _ _).2 ⟨q, rfl⟩

/-- The statement built for a request with a non-empty `status`. -/
theorem listStatement_filtered (request : UrlRequest) (status : String)
    (hstatus : searchGet request.searchParams "status" = some status)
    (hne : status.isEmpty = false) :
    listStatement request =
      (selectAnalyses ++ " WHERE status = $1" ++ " ORDER BY upload_timestamp DESC LIMIT $2",
        [.str status, .num (numberOr (parseInt (nullableToString
          (searchGet request.searchParams "limit"))) 50)]) := by
  simp only [listStatement, hstatus, hne]
  generalize selectAnalyses = q
  simp only [Bool.false_eq_true, if_false, numberToString_one, numberToString_two]
  rw [String.append_assoc q, String.append_assoc (q ++ _)]
  rfl

/-- The statement built for a request without `status` or with an empty one. -/
theorem listStatement_plain (request : UrlRequest)
    (hstatus : searchGet request.searchParams "status" = none ∨
      ∃ status, searchGet request.searchParams "status" = some status ∧ status.isEmpty = true) :
    listStatement request =
      (selectAnalyses ++ " ORDER BY upload_timestamp DESC LIMIT $1",
        [.num (numberOr (parseInt (nullableToString
          (searchGet request.searchParams "limit"))) 50)]) := by
  rcases hstatus with h | ⟨status, h, hempty⟩
  · simp only [listStatement, h]
    generalize selectAnalyses = q
    simp only [numberToString_one]
    rw [String.append_assoc q]
    rfl
  · simp only [listStatement, h, hempty]
    generalize selectAnalyses = q
    simp only [if_true, numberToString_one]
    rw [String.append_assoc q]
    rfl

set_option maxRecDepth 100000 in
/-- The text for an unfiltered list has no `WHERE`. -/
theorem plain_text_has_no_where :
    ¬ ("WHERE".data <:+: (selectAnalyses ++ " ORDER BY upload_timestamp DESC LIMIT $1").data) := by
  decide

/-- Claim C26. For every list request the statement built by `GET` ends with
`ORDER BY upload_timestamp DESC LIMIT $k`, where `k` is the number of
parameters.  With a non-empty `status` the text has `WHERE status = $1` and
`LIMIT $2` and the parameters are the status and the limit; with `status`
absent or empty the text has no `WHERE` and has `LIMIT $1` and the only
parameter is the limit.  The limit is 50 when the `limit` parameter is absent,
spells no integer or spells zero, and the integer it spells otherwise.  The
store binds the parameters by position: for a limit that is not negative it
answers with the rows of that status, newest first, cut to the limit. -/
theorem list_statement_shape (request : UrlRequest) :
    ∃ limit : ℤ,
      (searchGet request.searchParams "limit" = none → limit = 50) ∧
      (∀ text, searchGet request.searchParams "limit" = some text →
        (parseInt text = none → limit = 50) ∧ (parseInt text = some 0 → limit = 50) ∧
        (∀ n, parseInt text = some n → n ≠ 0 → limit = n)) ∧
      endsWith (listStatement request).1
        (" ORDER BY upload_timestamp DESC LIMIT $" ++
          numberToString (listStatement request).2.length) = true ∧
      (∀ status, searchGet request.searchParams "status" = some status →
        status.isEmpty = false →
        listStatement request =
          (selectAnalyses ++ " WHERE status = $1" ++ " ORDER BY upload_timestamp DESC LIMIT $2",
            [.str status, .num limit]) ∧
        ∀ s : Store, 0 ≤ limit →
          s.answer (listStatement request).1 (listStatement request).2 =
            some (s.listAnalyses (some status) limit.toNat)) ∧
      ((searchGet request.searchParams "status" = none ∨
          ∃ status, searchGet request.searchParams "status" = some status ∧
            status.isEmpty = true) →
        listStatement request =
          (selectAnalyses ++ " ORDER BY upload_timestamp DESC LIMIT $1", [.num limit]) ∧
        ¬ ("WHERE".data <:+: (listStatement request).1.data) ∧
        ∀ s : Store, 0 ≤ limit →
          s.answer (listStatement request).1 (listStatement request).2 =
            some (s.listAnalyses none limit.toNat)) := by
  refine ⟨numberOr (parseInt (nullableToString (searchGet request.searchParams "limit"))) 50,
    ?_, ?_, ?_, ?_, ?_⟩
  · intro h
    rw [h]
    decide
  · intro text h
    rw [h]
    refine ⟨fun hp => ?_, fun hp => ?_, fun n hp hn => ?_⟩
    · simp [nullableToString, hp, numberOr]
    · simp [nullableToString, hp, numberOr]
    · simp [nullableToString, hp, numberOr, hn]
  · rcases hstatus : searchGet request.searchParams "status" with _ | status
    · rw [listStatement_plain request (Or.inl hstatus)]
      exact endsWith_order_limit selectAnalyses 1 "1" _ (by decide) (by decide)
    · cases hempty : status.isEmpty
      · rw [listStatement_filtered request status hstatus hempty]
        exact endsWith_order_limit (selectAnalyses ++ " WHERE status = $1") 2 "2" _
          (by decide) (by decide)
      · rw [listStatement_plain request (Or.inr ⟨status, hstatus, hempty⟩)]
        exact endsWith_order_limit selectAnalyses 1 "1" _ (by decide) (by decide)
  · intro status hstatus hempty
    refine ⟨listStatement_filtered request status hstatus hempty, fun s hlimit => ?_⟩
    rw [listStatement_filtered request status hstatus hempty]
    have htext : selectAnalyses ++ " WHERE status = $1" ++
        " ORDER BY upload_timestamp DESC LIMIT $2" =
        selectAnalyses ++ " WHERE status = $1 ORDER BY upload_timestamp DESC LIMIT $2" := by
      rw [String.append_assoc]; rfl
    simp only [Store.answer, htext, if_true, if_pos hlimit]
  · intro hstatus
    refine ⟨listStatement_plain request hstatus, ?_, fun s hlimit => ?_⟩
    · rw [listStatement_plain request hstatus]
      exact plain_text_has_no_where
    · rw [listStatement_plain request hstatus]
      have hne : ¬ (selectAnalyses ++ " ORDER BY upload_timestamp DESC LIMIT $1" =
          selectAnalyses ++ " WHERE status = $1 ORDER BY upload_timestamp DESC LIMIT $2") :=
        fun h => absurd (string_append_left_cancel _ _ _ h) (by decide)
      simp only [Store.answer, if_neg hne, if_true, if_pos hlimit]

/-- Witness for C26: the request for ten completed analyses, and a request with an
empty status and the limit 0. -/
theorem list_statement_shape_witness :
    searchGet completedRequest.searchParams "status" = some "completed" ∧
    parseInt "10" = some 10 ∧
    listStatement completedRequest =
      (selectAnalyses ++ " WHERE status = $1" ++ " ORDER BY upload_timestamp DESC LIMIT $2",
        [.str "completed", .num 10]) ∧
    listStatement plainRequest =
      (selectAnalyses ++ " ORDER BY upload_timestamp DESC LIMIT $1", [.num 50]) :=
  ⟨rfl, by decide,
    (list_statement_shape completedRequest).elim fun limit h => by
      have hl : limit = 10 := (h.2.1 "10" rfl).2.2 10 (by decide) (by decide)
      have hs := (h.2.2.2.1 "completed" rfl (by decide)).1
      rw [hl] at hs
      exact hs,
    (list_statement_shape plainRequest).elim fun limit h => by
      have hl : limit = 50 := (h.2.1 "0" rfl).2.1 (by decide)
      have hs := (h.2.2.2.2 (Or.inr ⟨"", rfl, by decide⟩)).1
      rw [hl] at hs
      exact hs⟩

/-! ## The dashboard route -/

theorem run_sqlRead {α : Type} (rows : Store → ℤ → α) (w : World) :
    (sqlRead rows).run w = if w.failAt w.calls then
        (.error (.store w.calls), { w with calls := w.calls + 1 })
      else
        (.ok (rows w.store w.now), { w with calls := w.calls + 1 }) := rfl

theorem run_throwJs {α : Type} (e : JsError) (w : World) :
    (throwJs e : Async α).run w = (.error e, w) := rfl

/-- The run of the dashboard handler when none of its six store calls fails and
the three aggregate queries return a row each. -/
theorem dashboard_run (request : UrlRequest) (w : World)
    (hok : ∀ j < 6, w.failAt (w.calls + j) = false) (total active : CountRow) (avg : AvgRow)
    (htotal : (w.store.countAnalyses w.now)[0]? = some total)
    (hactive : (w.store.countActiveThreats w.now)[0]? = some active)
    (havg : (w.store.averageTrust w.now)[0]? = some avg) :
    (Dashboard.GET request).run w =
      (.ok { status := 200,
             body := .stats
               { totalAnalyses := total.count, activeThreats := active.count,
                 averageTrustScore := scoreOr avg.avg_score 0,
                 networkHealth :=
                   if scoreOr ((w.store.recentHealth w.now)[0]?.bind (·.health_score)) 0 > 0.8
                   then "Excellent"
                   else if
                     scoreOr ((w.store.recentHealth w.now)[0]?.bind (·.health_score)) 0 > 0.6
                   then "Good"
                   else if
                     scoreOr ((w.store.recentHealth w.now)[0]?.bind (·.health_score)) 0 > 0.4
                   then "Fair"
                   else "Poor",
                 healthScore :=
                   scoreOr ((w.store.recentHealth w.now)[0]?.bind (·.health_score)) 0 }
               (w.store.recentThreats w.now) (w.store.threatDistribution w.now) },
        { w with calls := w.calls + 1 + 1 + 1 + 1 + 1 + 1 }) := by
  have h0 : w.failAt w.calls = false := hok 0 (by omega)
  have h1 : w.failAt (w.calls + 1) = false := hok 1 (by omega)
  have h2 : w.failAt (w.calls + 1 + 1) = false := hok 2 (by omega)
  have h3 : w.failAt (w.calls + 1 + 1 + 1) = false := hok 3 (by omega)
  have h4 : w.failAt (w.calls + 1 + 1 + 1 + 1) = false := hok 4 (by omega)
  have h5 : w.failAt (w.calls + 1 + 1 + 1 + 1 + 1) = false := hok 5 (by omega)
  unfold Dashboard.GET
  simp only [run_tryCatch, run_bind, run_sqlRead, h0, h1, h2, h3, h4, h5, Bool.false_eq_true,
    if_false, run_pure, htotal, hactive, havg]

/-- The expression `x || 0` takes a null or absent score as 0 and leaves any
other score as it is. -/
theorem scoreOr_zero (x : Option ℚ) : scoreOr x 0 = x.getD 0 := by
  rcases x with _ | v
  · rfl
  · by_cases hv : v = 0 <;> simp [scoreOr, hv]

/-- Claim C21. When none of its store calls fails, the dashboard handler answers
with the health score `h` that the store returned for the analyses completed
within the last seven days, a null or absent score being taken as 0, and with
the label `Excellent` for `h > 0.8`, `Good` for `0.6 < h ≤ 0.8`, `Fair` for
`0.4 < h ≤ 0.6` and `Poor` otherwise: each of the boundaries 0.8, 0.6 and 0.4
falls in the lower class. -/
theorem network_health_label (request : UrlRequest) (w : World)
    (hok : ∀ j < 6, w.failAt (w.calls + j) = false) :
    ∃ (stats : Stats) (threats : List ThreatRow) (distribution : List TypeCount),
      ((Dashboard.GET request).run w).1 = .ok ⟨200, .stats stats threats distribution⟩ ∧
      stats.healthScore = ((w.store.recentHealth w.now)[0]?.bind (·.health_score)).getD 0 ∧
      (0.8 < stats.healthScore → stats.networkHealth = "Excellent") ∧
      (0.6 < stats.healthScore → stats.healthScore ≤ 0.8 → stats.networkHealth = "Good") ∧
      (0.4 < stats.healthScore → stats.healthScore ≤ 0.6 → stats.networkHealth = "Fair") ∧
      (stats.healthScore ≤ 0.4 → stats.networkHealth = "Poor") := by
  rw [dashboard_run request w hok _ _ _ rfl rfl rfl]
  refine ⟨_, _, _, rfl, scoreOr_zero _, ?_⟩
  dsimp only
  generalize scoreOr ((w.store.recentHealth w.now)[0]?.bind (·.health_score)) 0 = h
  refine ⟨fun h8 => ?_, fun h6 h8 => ?_, fun h4 h6 => ?_, fun h4 => ?_⟩
  · rw [if_pos h8]
  · rw [if_neg (not_lt.2 h8), if_pos h6]
  · rw [if_neg (not_lt.2 (h6.trans (by norm_num))), if_neg (not_lt.2 h6), if_pos h4]
  · rw [if_neg (not_lt.2 (h4.trans (by norm_num))), if_neg (not_lt.2 (h4.trans (by norm_num))),
      if_neg (not_lt.2 h4)]

/-- The health score of the store with the one completed analysis, asked eight
seconds after its completion. -/
theorem completedStore_health :
    ((completedStore.recentHealth 1700000020000)[0]?.bind (·.health_score)).getD (0 : ℚ) =
      (0.8 : ℚ) := by
  simp [Store.recentHealth, completedStore, captureCompleted, laterThan, average]

/-- Witness for C21: the store whose one completed analysis has trust score 0.8
is labelled `Good`, the boundary falling in the lower class. -/
theorem network_health_label_witness :
    (∀ j < 6, (World.start completedStore halfDraws noFailure 1700000020000).failAt
      ((World.start completedStore halfDraws noFailure 1700000020000).calls + j) = false) ∧
    ∃ (stats : Stats) (threats : List ThreatRow) (distribution : List TypeCount),
      ((Dashboard.GET ⟨[]⟩).run
        (World.start completedStore halfDraws noFailure 1700000020000)).1 =
          .ok ⟨200, .stats stats threats distribution⟩ ∧
      stats.healthScore = 0.8 ∧ stats.networkHealth = "Good" :=
  have hok : ∀ j < 6, (World.start completedStore halfDraws noFailure 1700000020000).failAt
      ((World.start completedStore halfDraws noFailure 1700000020000).calls + j) = false :=
    fun _ _ => rfl
  ⟨hok, (network_health_label ⟨[]⟩ _ hok).elim fun stats h =>
    h.elim fun threats h => h.elim fun distribution h =>
      have hs : stats.healthScore = 0.8 := h.2.1.trans completedStore_health
      ⟨stats, threats, distribution, h.1, hs,
        h.2.2.2.1 (by rw [hs]; norm_num) (by rw [hs])⟩⟩

/-- The six queries of the dashboard on tables without analyses and alerts. -/
theorem empty_tables_answers (s : Store) (now : ℤ) (hanalyses : s.analyses = [])
    (halerts : s.alerts = []) :
    s.countAnalyses now = [⟨0⟩] ∧ s.countActiveThreats now = [⟨0⟩] ∧
    s.averageTrust now = [⟨none⟩] ∧ s.recentHealth now = [⟨none⟩] ∧
    s.recentThreats now = [] ∧ s.threatDistribution now = [] := by
  simp [Store.countAnalyses, Store.countActiveThreats, Store.averageTrust, Store.recentHealth,
    Store.recentThreats, Store.threatDistribution, hanalyses, halerts, average]

/-- Claim C22. When the store is empty, that is both counts are 0, both averages
are null and the recent-threat and distribution queries return no rows, and
no store call fails, the dashboard handler answers with status 200, `success`
true, `totalAnalyses` 0, `activeThreats` 0, `averageTrustScore` 0,
`healthScore` 0, `networkHealth` `Poor` and empty `recentThreats` and
`threatDistribution`. -/
theorem empty_store_dashboard (request : UrlRequest) (w : World)
    (hok : ∀ j < 6, w.failAt (w.calls + j) = false)
    (hcount : w.store.countAnalyses w.now = [⟨0⟩])
    (hactive : w.store.countActiveThreats w.now = [⟨0⟩])
    (havg : w.store.averageTrust w.now = [⟨none⟩])
    (hhealth : w.store.recentHealth w.now = [⟨none⟩])
    (hthreats : w.store.recentThreats w.now = [])
    (hdistribution : w.store.threatDistribution w.now = []) :
    ((Dashboard.GET request).run w).1 =
      .ok { status := 200,
            body := .stats
              { totalAnalyses := 0, activeThreats := 0, averageTrustScore := 0,
                networkHealth := "Poor", healthScore := 0 } [] [] } ∧
    (Body.stats
      { totalAnalyses := 0, activeThreats := 0, averageTrustScore := 0,
        networkHealth := "Poor", healthScore := 0 } [] []).success = true := by
  refine ⟨?_, rfl⟩
  rw [dashboard_run request w hok ⟨0⟩ ⟨0⟩ ⟨none⟩ (by rw [hcount]; rfl) (by rw [hactive]; rfl)
    (by rw [havg]; rfl), hhealth, hthreats, hdistribution]
  simp [scoreOr]
  norm_num

/-- Witness for C22: the store with no rows. -/
theorem empty_store_dashboard_witness :
    emptyWorld.store.analyses = [] ∧ emptyWorld.store.alerts = [] ∧
    ((Dashboard.GET ⟨[]⟩).run emptyWorld).1 =
      .ok { status := 200,
            body := .stats
              { totalAnalyses := 0, activeThreats := 0, averageTrustScore := 0,
                networkHealth := "Poor", healthScore := 0 } [] [] } :=
  have h := empty_tables_answers emptyWorld.store emptyWorld.now rfl rfl
  ⟨rfl, rfl,
    (empty_store_dashboard ⟨[]⟩ emptyWorld (fun _ _ => rfl) h.1 h.2.1 h.2.2.1 h.2.2.2.1
      h.2.2.2.2.1 h.2.2.2.2.2).1⟩

/-! ## The outcomes of the four handlers -/

/-- A response with status 500 and an error message has the envelope. -/
theorem enveloped_failure (status : ℕ) (message : String)
    (hstatus : status = 400 ∨ status = 404 ∨ status = 500) :
    Response.Enveloped ⟨status, .failure message⟩ := by
  refine ⟨fun _ => ⟨⟨message, rfl, rfl⟩, hstatus, ?_⟩, fun h => by cases h⟩
  rcases hstatus with h | h | h <;> (dsimp only; omega)

/-- A response with status 200 and a document with `success` true has the
envelope. -/
theorem enveloped_success (body : Body) (hbody : body.success = true) :
    Response.Enveloped ⟨200, body⟩ :=
  ⟨fun h => (by rw [hbody] at h; cases h), fun _ => rfl⟩

/-- A run whose store calls all succeeded. -/
theorem failsOnce_of_clean (m : Async Response) (w : World) (queries made : ℕ)
    (message : String) (hmade : made ≤ queries)
    (hcalls : (m.run w).2.calls = w.calls + made)
    (hclean : ∀ i < made, w.failAt (w.calls + i) = false) :
    FailsOnce m w queries message := by
  refine ⟨by omega, fun k hk₁ hk₂ hfail => ?_⟩
  have := hclean (k - w.calls) (by omega)
  rw [show w.calls + (k - w.calls) = k by omega, hfail] at this
  cases this

/-- A run whose store call number `j` failed after `j` successful ones and was
answered with 500. -/
theorem failsOnce_of_failure (m : Async Response) (w : World) (queries j : ℕ)
    (message : String) (hj : j < queries)
    (hcalls : (m.run w).2.calls = w.calls + j + 1)
    (hclean : ∀ i < j, w.failAt (w.calls + i) = false)
    (hresp : (m.run w).1 = .ok ⟨500, .failure message⟩) :
    FailsOnce m w queries message := by
  refine ⟨by omega, fun k hk₁ hk₂ hfail => ⟨hresp, rfl, ?_⟩⟩
  by_contra hne
  have := hclean (k - w.calls) (by omega)
  rw [show w.calls + (k - w.calls) = k by omega, hfail] at this
  cases this

/-- The outcomes of the list handler: its one store call is made; the answer is
200 with the rows, or 500 when the call fails or the store rejects it. -/
theorem list_outcomes (request : UrlRequest) (w : World) :
    ((GET request).run w).2.calls = w.calls + 1 ∧
    ((w.failAt w.calls = false ∧
        ∃ rows, w.store.answer (listStatement request).1 (listStatement request).2 = some rows ∧
          ((GET request).run w).1 = .ok ⟨200, .list rows⟩) ∨
      ((w.failAt w.calls = true ∨
          w.store.answer (listStatement request).1 (listStatement request).2 = none) ∧
        ((GET request).run w).1 = .ok ⟨500, .failure "Failed to fetch analyses"⟩)) := by
  unfold GET
  rw [run_tryCatch]
  simp only [run_bind, run_sqlQuery]
  cases hfail : w.failAt w.calls
  · rcases hanswer : w.store.answer (listStatement request).1 (listStatement request).2
      with _ | rows
    · simp [run_pure]
    · simp [run_pure]
  · simp [run_pure]

/-- The outcomes of the upload handler: no store call and 400 or 500, or one
store call, answered with 500 when it fails and with 200 otherwise. -/
theorem POST_outcomes (request : Request) (w : World) :
    (((POST request).run w).2.calls = w.calls ∧
      ((∃ message, ((POST request).run w).1 = .ok ⟨400, .failure message⟩) ∨
        ((POST request).run w).1 = .ok ⟨500, .failure "Failed to create analysis"⟩)) ∨
    (w.failAt w.calls = true ∧ ((POST request).run w).2.calls = w.calls + 1 ∧
      ((POST request).run w).1 = .ok ⟨500, .failure "Failed to create analysis"⟩) ∨
    (w.failAt w.calls = false ∧ ((POST request).run w).2.calls = w.calls + 1 ∧
      ∃ row, ((POST request).run w).1 = .ok ⟨200, .created row⟩) := by
  rcases request with ⟨_ | form⟩
  · left; rw [POST_unreadable]; exact ⟨rfl, Or.inr rfl⟩
  · rcases h : formGet form "file" with _ | ⟨name, size⟩ | value
    · left; rw [POST_no_file form w h]; exact ⟨rfl, Or.inl ⟨_, rfl⟩⟩
    · cases hname : endsWith name ".pcap"
      · left; rw [POST_wrong_name form w name size h hname]; exact ⟨rfl, Or.inl ⟨_, rfl⟩⟩
      · cases hf : w.failAt w.calls
        · right; right
          rw [POST_accepted form w name size h hname hf]
          exact ⟨rfl, rfl, _, rfl⟩
        · right; left
          rw [POST_insert_failed form w name size h hname hf]
          exact ⟨rfl, rfl, rfl⟩
    · left
      rw [POST_text form w value h]
      refine ⟨rfl, ?_⟩
      cases value.isEmpty
      · exact Or.inr rfl
      · exact Or.inl ⟨_, rfl⟩

/-- The outcomes of the detail handler: a first failing store call answered
with 500, an unknown identifier answered with 404 after one call, or four
successful calls answered with 200. -/
theorem detail_outcomes (id : ℕ) (w : World) :
    (∃ j < 4, w.failAt (w.calls + j) = true ∧ (∀ i < j, w.failAt (w.calls + i) = false) ∧
      ((Detail.GET id).run w).1 = .ok ⟨500, .failure "Failed to fetch analysis details"⟩ ∧
      ((Detail.GET id).run w).2.calls = w.calls + j + 1) ∨
    (w.failAt w.calls = false ∧
      ((Detail.GET id).run w).1 = .ok ⟨404, .failure "Analysis not found"⟩ ∧
      ((Detail.GET id).run w).2.calls = w.calls + 1) ∨
    ((∀ j < 4, w.failAt (w.calls + j) = false) ∧
      (∃ analysis alerts droneNodes metrics, ((Detail.GET id).run w).1 =
        .ok ⟨200, .detail analysis alerts droneNodes metrics⟩) ∧
      ((Detail.GET id).run w).2.calls = w.calls + 4) := by
  unfold Detail.GET
  rw [run_tryCatch, run_bind, run_sqlSelect]
  cases h0 : w.failAt w.calls
  · by_cases hlen : (w.store.select (.analysisById id)).length = 0
    · right; left
      simp [hlen, run_pure]
    · cases h1 : w.failAt (w.calls + 1)
      · cases h2 : w.failAt (w.calls + 1 + 1)
        · cases h3 : w.failAt (w.calls + 1 + 1 + 1)
          · right; right
            refine ⟨fun j hj => ?_, ?_⟩
            · interval_cases j
              · exact h0
              · exact h1
              · exact h2
              · exact h3
            · simp [hlen, run_pure, run_bind, run_sqlSelect, h1, h2, h3]
          · left
            refine ⟨3, by omega, h3, fun i hi => ?_, ?_⟩
            · interval_cases i
              · exact h0
              · exact h1
              · exact h2
            · simp [hlen, run_pure, run_bind, run_sqlSelect, h1, h2, h3]
        · left
          refine ⟨2, by omega, h2, fun i hi => ?_, ?_⟩
          · interval_cases i
            · exact h0
            · exact h1
          · simp [hlen, run_pure, run_bind, run_sqlSelect, h1, h2]
      · left
        refine ⟨1, by omega, h1, fun i hi => ?_, ?_⟩
        · interval_cases i
          exact h0
        · simp [hlen, run_pure, run_bind, run_sqlSelect, h1]
  · left
    refine ⟨0, by omega, h0, fun i hi => absurd hi (by omega), ?_⟩
    simp [run_pure]

/-- The outcomes of the dashboard handler: a first failing store call answered
with 500, or six successful calls answered with 200. -/
theorem dashboard_outcomes (request : UrlRequest) (w : World) :
    (∃ j < 6, w.failAt (w.calls + j) = true ∧ (∀ i < j, w.failAt (w.calls + i) = false) ∧
      ((Dashboard.GET request).run w).1 =
        .ok ⟨500, .failure "Failed to fetch dashboard statistics"⟩ ∧
      ((Dashboard.GET request).run w).2.calls = w.calls + j + 1) ∨
    ((∀ j < 6, w.failAt (w.calls + j) = false) ∧
      (∃ stats threats distribution, ((Dashboard.GET request).run w).1 =
        .ok ⟨200, .stats stats threats distribution⟩) ∧
      ((Dashboard.GET request).run w).2.calls = w.calls + 6) := by
  by_cases hall : ∀ j < 6, w.failAt (w.calls + j) = false
  · right
    refine ⟨hall, ?_⟩
    rw [dashboard_run request w hall _ _ _ rfl rfl rfl]
    exact ⟨⟨_, _, _, rfl⟩, rfl⟩
  · left
    cases h0 : w.failAt w.calls
    · cases h1 : w.failAt (w.calls + 1)
      · cases h2 : w.failAt (w.calls + 1 + 1)
        · cases h3 : w.failAt (w.calls + 1 + 1 + 1)
          · cases h4 : w.failAt (w.calls + 1 + 1 + 1 + 1)
            · cases h5 : w.failAt (w.calls + 1 + 1 + 1 + 1 + 1)
              · exfalso
                apply hall
                intro j hj
                interval_cases j
                · exact h0
                · exact h1
                · exact h2
                · exact h3
                · exact h4
                · exact h5
              · refine ⟨5, by omega, h5, fun i hi => ?_, ?_⟩
                · interval_cases i
                  · exact h0
                  · exact h1
                  · exact h2
                  · exact h3
                  · exact h4
                · simp [Dashboard.GET, run_tryCatch, run_bind, run_sqlRead, run_pure, h0, h1, h2,
                    h3, h4, h5]
            · refine ⟨4, by omega, h4, fun i hi => ?_, ?_⟩
              · interval_cases i
                · exact h0
                · exact h1
                · exact h2
                · exact h3
              · simp [Dashboard.GET, run_tryCatch, run_bind, run_sqlRead, run_pure, h0, h1, h2,
                  h3, h4]
          · refine ⟨3, by omega, h3, fun i hi => ?_, ?_⟩
            · interval_cases i
              · exact h0
              · exact h1
              · exact h2
            · simp [Dashboard.GET, run_tryCatch, run_bind, run_sqlRead, run_pure, h0, h1, h2, h3]
        · refine ⟨2, by omega, h2, fun i hi => ?_, ?_⟩
          · interval_cases i
            · exact h0
            · exact h1
          · simp [Dashboard.GET, run_tryCatch, run_bind, run_sqlRead, run_pure, h0, h1, h2]
      · refine ⟨1, by omega, h1, fun i hi => ?_, ?_⟩
        · interval_cases i
          exact h0
        · simp [Dashboard.GET, run_tryCatch, run_bind, run_sqlRead, run_pure, h0, h1]
    · refine ⟨0, by omega, h0, fun i hi => absurd hi (by omega), ?_⟩
      simp [Dashboard.GET, run_tryCatch, run_bind, run_sqlRead, run_pure, h0]

/-! ## The envelope of every response -/

/-- Claim C23. In every world, for every request, each of the four handlers (the
list `GET`, `POST`, the detail `GET` and the dashboard `GET`) returns a
response and does not throw.  The document of the response has the boolean
`success`; when `success` is false the document is `{ success, error }` with
a string `error` and the status is 400, 404 or 500, outside `200..299`; when
`success` is true the status is 200. -/
theorem responses_are_enveloped (w : World) (listRequest : UrlRequest) (upload : Request)
    (id : ℕ) (statsRequest : UrlRequest) :
    Answers (GET listRequest) w ∧ Answers (POST upload) w ∧ Answers (Detail.GET id) w ∧
    Answers (Dashboard.GET statsRequest) w := by
  refine ⟨?_, ?_, ?_, ?_⟩
  · rcases (list_outcomes listRequest w).2 with ⟨-, rows, -, h⟩ | ⟨-, h⟩
    · exact ⟨_, h, enveloped_success _ rfl⟩
    · exact ⟨_, h, enveloped_failure _ _ (by simp)⟩
  · rcases POST_outcomes upload w with ⟨-, ⟨message, h⟩ | h⟩ | ⟨-, -, h⟩ | ⟨-, -, row, h⟩
    · exact ⟨_, h, enveloped_failure _ _ (by simp)⟩
    · exact ⟨_, h, enveloped_failure _ _ (by simp)⟩
    · exact ⟨_, h, enveloped_failure _ _ (by simp)⟩
    · exact ⟨_, h, enveloped_success _ rfl⟩
  · rcases detail_outcomes id w with ⟨j, -, -, -, h, -⟩ | ⟨-, h, -⟩ | ⟨-, ⟨a, b, c, d, h⟩, -⟩
    · exact ⟨_, h, enveloped_failure _ _ (by simp)⟩
    · exact ⟨_, h, enveloped_failure _ _ (by simp)⟩
    · exact ⟨_, h, enveloped_success _ rfl⟩
  · rcases dashboard_outcomes statsRequest w with ⟨j, -, -, -, h, -⟩ | ⟨-, ⟨a, b, c, h⟩, -⟩
    · exact ⟨_, h, enveloped_failure _ _ (by simp)⟩
    · exact ⟨_, h, enveloped_success _ rfl⟩

/-! ## A failing store call -/

/-- Claim C24. For each of the four handlers, in every world and for every
request: the handler makes at most as many store calls as it has statements
(one for the list and for `POST`, four for the detail route, six for the
dashboard), and when a store call it makes fails, it answers with status 500
and `success` false and makes no further store call, so the failed statement
is not issued again.  The list handler answers in the same way when the store
rejects its statement. -/
theorem store_failure_answers_500 (w : World) (listRequest : UrlRequest) (upload : Request)
    (id : ℕ) (statsRequest : UrlRequest) :
    FailsOnce (GET listRequest) w 1 "Failed to fetch analyses" ∧
    FailsOnce (POST upload) w 1 "Failed to create analysis" ∧
    FailsOnce (Detail.GET id) w 4 "Failed to fetch analysis details" ∧
    FailsOnce (Dashboard.GET statsRequest) w 6 "Failed to fetch dashboard statistics" ∧
    (w.store.answer (listStatement listRequest).1 (listStatement listRequest).2 = none →
      ((GET listRequest).run w).1 = .ok ⟨500, .failure "Failed to fetch analyses"⟩ ∧
      ((GET listRequest).run w).2.calls = w.calls + 1) := by
  refine ⟨?_, ?_, ?_, ?_, ?_⟩
  · obtain ⟨hcalls, h⟩ := list_outcomes listRequest w
    cases hfail : w.failAt w.calls
    · refine failsOnce_of_clean _ w 1 1 _ le_rfl hcalls (fun i hi => ?_)
      interval_cases i
      exact hfail
    · rcases h with ⟨h, -⟩ | ⟨-, h⟩
      · rw [hfail] at h; cases h
      · exact failsOnce_of_failure _ w 1 0 _ (by omega) hcalls
          (fun i hi => absurd hi (by omega)) h
  · rcases POST_outcomes upload w with ⟨hcalls, -⟩ | ⟨hfail, hcalls, h⟩ | ⟨hok, hcalls, -⟩
    · exact failsOnce_of_clean _ w 1 0 _ (by omega) hcalls (fun i hi => absurd hi (by omega))
    · exact failsOnce_of_failure _ w 1 0 _ (by omega) hcalls
        (fun i hi => absurd hi (by omega)) h
    · refine failsOnce_of_clean _ w 1 1 _ le_rfl hcalls (fun i hi => ?_)
      interval_cases i
      exact hok
  · rcases detail_outcomes id w with ⟨j, hj, -, hclean, h, hcalls⟩ | ⟨hok, -, hcalls⟩ |
      ⟨hclean, -, hcalls⟩
    · exact failsOnce_of_failure _ w 4 j _ hj hcalls hclean h
    · refine failsOnce_of_clean _ w 4 1 _ (by omega) hcalls (fun i hi => ?_)
      interval_cases i
      exact hok
    · exact failsOnce_of_clean _ w 4 4 _ le_rfl hcalls hclean
  · rcases dashboard_outcomes statsRequest w with ⟨j, hj, -, hclean, h, hcalls⟩ |
      ⟨hclean, -, hcalls⟩
    · exact failsOnce_of_failure _ w 6 j _ hj hcalls hclean h
    · exact failsOnce_of_clean _ w 6 6 _ le_rfl hcalls hclean
  · intro hnone
    obtain ⟨hcalls, h⟩ := list_outcomes listRequest w
    refine ⟨?_, hcalls⟩
    rcases h with ⟨-, rows, hrows, -⟩ | ⟨-, h⟩
    · rw [hnone] at hrows; cases hrows
    · exact h

/-- The detail handler for analysis 1 of the store with two analyses makes three
store calls when the third fails. -/
theorem detail_thirdCall_calls :
    ((Detail.GET 1).run (World.start detailStore halfDraws thirdCall 1700000000000)).2.calls
      = 3 := by
  simp [Detail.GET, run_tryCatch, run_bind, run_sqlSelect, run_pure, World.start, thirdCall,
    detailStore, Store.select, emptyStore, Store.newAnalysis]

/-- Witness for C24: the detail handler whose third store call fails answers
with 500 and makes no fourth call. -/
theorem store_failure_answers_500_witness :
    (World.start detailStore halfDraws thirdCall 1700000000000).failAt 2 = true ∧
    ((Detail.GET 1).run (World.start detailStore halfDraws thirdCall 1700000000000)).1 =
      .ok ⟨500, .failure "Failed to fetch analysis details"⟩ ∧
    ((Detail.GET 1).run (World.start detailStore halfDraws thirdCall 1700000000000)).2.calls
      = 2 + 1 :=
  have h := (store_failure_answers_500
    (World.start detailStore halfDraws thirdCall 1700000000000) ⟨[]⟩ ⟨none⟩ 1 ⟨[]⟩).2.2.1.2 2
    (Nat.zero_le 2) (by rw [detail_thirdCall_calls]; decide) rfl
  ⟨rfl, h.1, h.2.2⟩

end Uav
